import Mathlib

/-!
# Azure demo programs: request helpers and paging loops

A shallow embedding of the Go programs of the repository.  Every program is a
separate `package main`, so each one lives in a namespace of its own.

Conventions of the embedding:

* a Go `error` is its message (`GoError`); the nil error is `none`;
* a Go `string` or `[]byte` is a Lean `String`, and `string(b)` is the identity;
* a nil slice, pointer or reader is `none`;
* the effects a function has on the outside world are returned as a list of
  events next to its Go results;
* the standard library and the Azure SDK are not part of the repository: what
  they answer is a parameter of the function that calls them.
-/

namespace AzureDemo

/-- A Go `error`, identified with the text `Error()` returns. -/
abbrev GoError := String

/-- The verb `%d` of package fmt applied to an `int`. -/
def fmtD (n : Int) : String := toString n

/-- The text `part` occurs inside `msg` as a contiguous run of characters. -/
def Carries (msg part : String) : Prop := part.data <:+: msg.data

instance (msg part : String) : Decidable (Carries msg part) := by
  unfold Carries; infer_instance

/-! ## net/http -/

namespace Http

/-- A `time.Duration`: a number of nanoseconds. -/
abbrev Duration := Int

/-- The constant `time.Second`. -/
def Second : Duration := 1000000000

/-- The struct `http.Client`, with the one field the programs set.  A zero
`Timeout` means that the client applies no timeout. -/
structure Client where
  Timeout : Duration := 0
deriving DecidableEq, Repr

/-- An `http.Header`: the (key, value) pairs in the order they were added.  A key
is kept as the program writes it; net/http files it under its canonical
spelling, which names the same header. -/
abbrev Header := List (String × String)

/-- The method `Header.Set`: replaces whatever the key held. -/
def Header.Set (h : Header) (key value : String) : Header :=
  h.filter (fun kv => kv.1 != key) ++ [(key, value)]

/-- The method `Header.Add`: appends to whatever the key held. -/
def Header.Add (h : Header) (key value : String) : Header :=
  h ++ [(key, value)]

/-- The method `Header.Get`: the first value of the key. -/
def Header.Get (h : Header) (key : String) : Option String :=
  (h.find? (fun kv => kv.1 == key)).map (fun kv => kv.2)

/-- An `http.Request` as built by `http.NewRequest`. -/
structure Request where
  Method : String
  URL : String
  Body : Option String
  Header : Header := []
deriving DecidableEq, Repr

/-- The body of a response seen as an `io.Reader`: the bytes reading it yields
and the error, if any, reading it ends with. -/
structure BodyReader where
  data : String
  err : Option GoError := none
deriving DecidableEq, Repr

/-- An `http.Response`. -/
structure Response where
  StatusCode : Int
  Body : BodyReader
deriving DecidableEq, Repr

/-- The constant `http.StatusOK`. -/
def StatusOK : Int := 200

/-- The function `io.ReadAll`. -/
def ReadAll (r : BodyReader) : String × Option GoError := (r.data, r.err)

/-- What a function does to the outside world while it handles a request: a call
of `Client.Do`, a call of `io.ReadAll` on the response body, a call of
`json.Unmarshal` on some bytes. -/
inductive Event where
  | Do (client : Client) (req : Request)
  | ReadAll
  | Unmarshal (data : String)
deriving DecidableEq, Repr

/-- What lies outside the program: whether `http.NewRequest` accepts a method and
a URL, and what `Client.Do` answers to a request. -/
structure Net where
  newRequestErr : String → String → Option GoError
  roundTrip : Client → Request → Except GoError Response

/-- The function `http.NewRequest` (and `http.NewRequestWithContext`). -/
def NewRequest (net : Net) (method url : String) (body : Option String) :
    Except GoError Request :=
  match net.newRequestErr method url with
  | some err => .error err
  | none => .ok { Method := method, URL := url, Body := body }

end Http

open Http

/-! ## azure-search-demo/main.go -/

namespace SearchDemo

/-- An `azcore.AccessToken`. -/
structure AccessToken where
  Token : String
deriving DecidableEq, Repr

/-- The global `cred`: what `GetToken` answers for a list of scopes. -/
structure Credential where
  GetToken : List String → Except GoError AccessToken

/-- The global `httpClient` as `main` initialises it: a 30 second timeout. -/
def httpClient : Client := { Timeout := 30 * Second }

/-- The function `getToken`. -/
def getToken (cred : Credential) : String × Option GoError :=
  match cred.GetToken ["https://management.azure.com/.default"] with
  | .error err => ("", some ("获取令牌失败: " ++ err))
  | .ok token => (token.Token, none)

/-- The function `sendRequest`, reading the globals `cred` and `httpClient`.
Returns the Go results and the events of the call, oldest first. -/
def sendRequest (cred : Credential) (httpClient : Client) (net : Net)
    (method url : String) (body : Option String) :
    (Option String × Option GoError) × List Event :=
  match getToken cred with
  | (_, some err) => ((none, some err), [])
  | (token, none) =>
    match NewRequest net method url body with
    | .error err => ((none, some ("创建请求失败: " ++ err)), [])
    | .ok req =>
      let req := { req with Header := req.Header.Set "Authorization" ("Bearer " ++ token) }
      let req := if body.isSome then
          { req with Header := req.Header.Set "Content-Type" "application/json" }
        else req
      match net.roundTrip httpClient req with
      | .error err => ((none, some ("发送请求失败: " ++ err)), [.Do httpClient req])
      | .ok resp =>
        match ReadAll resp.Body with
        | (_, some err) =>
          ((none, some ("读取响应失败: " ++ err)), [.Do httpClient req, .ReadAll])
        | (responseBody, none) =>
          if resp.StatusCode < 200 ∨ resp.StatusCode ≥ 300 then
            ((none, some ("请求失败，状态码: " ++ fmtD resp.StatusCode ++ ", 响应: "
              ++ responseBody)), [.Do httpClient req, .ReadAll])
          else
            ((some responseBody, none), [.Do httpClient req, .ReadAll])

end SearchDemo

/-! ## encoding/json -/

namespace Json

/-- The JSON documents the programs build: null, booleans, numbers, strings,
arrays, and objects whose keys are the `json` tags of the struct fields, in
declaration order. -/
inductive Value where
  | null
  | bool (b : Bool)
  | num (n : Int)
  | real (x : Float)
  | str (s : String)
  | arr (items : List Value)
  | obj (fields : List (String × Value))

/-- The kinds of Go value (`reflect.Kind`) that package encoding/json tells
apart when it decides whether a field tagged `omitempty` is empty, each with
what the decision reads of the value: its length, or whether it is the zero
value of its type.  Of a struct it reads nothing. -/
inductive Kind where
  | array (len : Nat)
  | map (len : Nat)
  | slice (len : Nat)
  | string (len : Nat)
  | bool (isZero : Bool)
  | int (isZero : Bool)
  | uint (isZero : Bool)
  | float (isZero : Bool)
  | interface (isZero : Bool)
  | pointer (isZero : Bool)
  | struct
deriving DecidableEq, Repr

/-- The function `isEmptyValue` of package encoding/json: an array, map, slice
or string is empty when its length is zero; a boolean, a number, an interface
or a pointer when it is the zero value; a value of any other kind, a struct
among them, is never empty. -/
def isEmptyValue : Kind → Bool
  | .array len => len == 0
  | .map len => len == 0
  | .slice len => len == 0
  | .string len => len == 0
  | .bool isZero => isZero
  | .int isZero => isZero
  | .uint isZero => isZero
  | .float isZero => isZero
  | .interface isZero => isZero
  | .pointer isZero => isZero
  | .struct => false

/-- The package encoding/json for a response type `ρ`: the bytes `Marshal`
gives for a document, and what `Unmarshal` makes of bytes. -/
structure Codec (ρ : Type) where
  Marshal : Value → Except GoError String
  Unmarshal : String → Except GoError ρ

end Json

/-! ## azure-translator/translator.go -/

namespace Translator

/-- The struct `TranslationRequest`. -/
structure TranslationRequest where
  Text : String
deriving DecidableEq, Repr

/-- The document `json.Marshal` encodes for a `TranslationRequest`. -/
def TranslationRequest.toJSON (r : TranslationRequest) : Json.Value :=
  .obj [("Text", .str r.Text)]

/-- An element of the field `Translations`. -/
structure Translation where
  Text : String
  To : String
deriving DecidableEq, Repr

/-- An element of a `TranslationResponse`. -/
structure TranslationResult where
  Translations : List Translation
deriving DecidableEq, Repr

/-- The type `TranslationResponse`. -/
abbrev TranslationResponse := List TranslationResult

/-- The function `translateText`.  The Go results are `none` when the function
stops with an index-out-of-range panic. -/
def translateText (codec : Json.Codec TranslationResponse) (net : Net)
    (text targetLang subscriptionKey location : String) :
    Option (String × Option GoError) × List Event :=
  let endpoint := "https://api.cognitive.microsofttranslator.com"
  let uri := endpoint ++ "/translate?api-version=3.0&to=" ++ targetLang
  let body : List TranslationRequest := [{ Text := text }]
  match codec.Marshal (.arr (body.map TranslationRequest.toJSON)) with
  | .error err => (some ("", some ("JSON编码失败: " ++ err)), [])
  | .ok bodyBytes =>
    match NewRequest net "POST" uri (some bodyBytes) with
    | .error err => (some ("", some ("创建HTTP请求失败: " ++ err)), [])
    | .ok req =>
      let req := { req with Header := req.Header.Add "Ocp-Apim-Subscription-Key" subscriptionKey }
      let req := { req with Header := req.Header.Add "Ocp-Apim-Subscription-Region" location }
      let req := { req with Header := req.Header.Add "Content-Type" "application/json" }
      let client : Client := {}
      match net.roundTrip client req with
      | .error err => (some ("", some ("发送HTTP请求失败: " ++ err)), [.Do client req])
      | .ok resp =>
        if resp.StatusCode ≠ StatusOK then
          (some ("", some ("API返回非成功状态码: " ++ fmtD resp.StatusCode)), [.Do client req])
        else
          match ReadAll resp.Body with
          | (_, some err) =>
            (some ("", some ("读取响应失败: " ++ err)), [.Do client req, .ReadAll])
          | (respBytes, none) =>
            let events := [.Do client req, .ReadAll, .Unmarshal respBytes]
            match codec.Unmarshal respBytes with
            | .error err => (some ("", some ("解析JSON响应失败: " ++ err)), events)
            | .ok translationResp =>
              let empty : Option Bool :=
                if translationResp.length = 0 then some true
                else (translationResp[0]?).map (fun r => r.Translations.length = 0)
              match empty with
              | none => (none, events)
              | some true => (some ("", some "翻译响应为空"), events)
              | some false =>
                match (translationResp[0]?).bind (fun r => r.Translations[0]?) with
                | none => (none, events)
                | some t => (some (t.Text, none), events)

end Translator

/-! ## cognitiveServicesContentSafety/cognitiveServicesContentSafety.go -/

namespace ContentSafety

/-- The struct `ContentSafetyRequest`. -/
structure ContentSafetyRequest where
  Text : String
deriving DecidableEq, Repr

/-- The document `json.Marshal` encodes for a `ContentSafetyRequest`. -/
def ContentSafetyRequest.toJSON (r : ContentSafetyRequest) : Json.Value :=
  .obj [("text", .str r.Text)]

/-- An element of the field `CategoriesAnalysis`. -/
structure CategoryAnalysis where
  Category : String
  Severity : Float

/-- An element of the field `BlocklistsMatch`. -/
structure BlocklistMatch where
  BlocklistName : String
  BlocklistItemId : String
  BlocklistItemText : String

/-- The struct `ContentSafetyResponse`. -/
structure ContentSafetyResponse where
  CategoriesAnalysis : List CategoryAnalysis
  BlocklistsMatch : List BlocklistMatch

/-- The function `analyzeText`. -/
def analyzeText (codec : Json.Codec ContentSafetyResponse) (net : Net)
    (endpoint apiKey text : String) :
    (Option ContentSafetyResponse × Option GoError) × List Event :=
  let apiURL := endpoint ++ "/contentsafety/text:analyze?api-version=2023-10-01"
  let requestBody : ContentSafetyRequest := { Text := text }
  match codec.Marshal requestBody.toJSON with
  | .error err => ((none, some ("序列化请求失败: " ++ err)), [])
  | .ok jsonData =>
    match NewRequest net "POST" apiURL (some jsonData) with
    | .error err => ((none, some ("创建HTTP请求失败: " ++ err)), [])
    | .ok req =>
      let req := { req with Header := req.Header.Set "Content-Type" "application/json" }
      let req := { req with Header := req.Header.Set "Ocp-Apim-Subscription-Key" apiKey }
      let client : Client := {}
      match net.roundTrip client req with
      | .error err => ((none, some ("发送HTTP请求失败: " ++ err)), [.Do client req])
      | .ok resp =>
        match ReadAll resp.Body with
        | (_, some err) =>
          ((none, some ("读取响应失败: " ++ err)), [.Do client req, .ReadAll])
        | (body, none) =>
          if resp.StatusCode ≠ StatusOK then
            ((none, some ("API返回错误: " ++ body ++ ", 状态码: " ++ fmtD resp.StatusCode)),
              [.Do client req, .ReadAll])
          else
            match codec.Unmarshal body with
            | .error err =>
              ((none, some ("解析响应失败: " ++ err ++ ", 响应内容: " ++ body)),
                [.Do client req, .ReadAll, .Unmarshal body])
            | .ok result =>
              ((some result, none), [.Do client req, .ReadAll, .Unmarshal body])

end ContentSafety

/-! ## The Azure SDK: pagers -/

namespace Sdk

/-- A `runtime.Pager` whose pages hold items of type `α`: the answer of `More` in
a state of the pager, and the answer of `NextPage` together with the state the
call leaves the pager in. -/
structure Pager (σ α : Type) where
  More : σ → Bool
  NextPage : σ → Except GoError (List α) × σ

/-- What a listing program does, oldest first: the calls it makes on its pager
and the texts it writes to standard output. -/
inductive Step where
  | More (answer : Bool)
  | NextPage
  | Print (text : String)
deriving DecidableEq, Repr

/-- How a run ends: the function returns an error value, the process is ended
by `log.Fatal`, or a nil pointer is dereferenced.  A run that has not ended
after the rounds it was given has no outcome yet. -/
inductive Outcome where
  | returned (err : Option GoError)
  | fatal (err : GoError)
  | panicked
deriving DecidableEq, Repr

/-- The texts written to standard output, in order. -/
def printed (steps : List Step) : List String :=
  steps.filterMap fun e => match e with
    | .Print text => some text
    | _ => none

/-- From state `s` the pager hands out exactly the pages `pages`, each without
an error, and then answers that there are no more. -/
def Pager.Yields {σ α : Type} (p : Pager σ α) : σ → List (List α) → Prop
  | s, [] => p.More s = false
  | s, page :: rest =>
    p.More s = true ∧ (p.NextPage s).1 = .ok page ∧ Pager.Yields p (p.NextPage s).2 rest

/-- Two consecutive steps keep to the protocol of a pager: a call of `NextPage`
comes directly after a `More` that answered `true`, and nothing at all comes
after a `More` that answered `false`. -/
def Step.Follows (a b : Step) : Prop :=
  (b = .NextPage → a = .More true) ∧ a ≠ .More false

/-- The number of calls of `NextPage`. -/
def nextPageCalls (steps : List Step) : Nat :=
  steps.count .NextPage

/-- The body of a `for _, v := range` loop run over a slice: `body v` gives the
texts one iteration prints and whether the iteration ran to its end (`false`
when it stopped on a nil pointer). -/
def rangeOver {α : Type} (body : α → List String × Bool) : List α → List String × Bool
  | [] => ([], true)
  | v :: rest =>
    match body v with
    | (out, false) => (out, false)
    | (out, true) => (out ++ (rangeOver body rest).1, (rangeOver body rest).2)

/-- A `runtime.Poller` for a result of type `ρ`, as a begin call returns it: what
its `PollUntilDone` answers. -/
structure Poller (ρ : Type) where
  PollUntilDone : Except GoError ρ

/-- What a function that runs a long-running operation does, oldest first: the
begin call it makes, with the names and the parameters it passes, the call of
`PollUntilDone`, and the texts it writes to standard output. -/
inductive Call (π : Type) where
  | BeginCreateOrUpdate (names : List String) (parameters : π)
  | BeginDelete (names : List String)
  | PollUntilDone
  | Print (text : String)
deriving DecidableEq, Repr

/-- From state `s` the pager hands out the pages `pages`, each without an
error, and then answers the next call of `NextPage` with the error `err`. -/
def Pager.YieldsThenFails {σ α : Type} (p : Pager σ α) :
    σ → List (List α) → GoError → Prop
  | s, [], err => p.More s = true ∧ (p.NextPage s).1 = .error err
  | s, page :: rest, err =>
    p.More s = true ∧ (p.NextPage s).1 = .ok page ∧
      Pager.YieldsThenFails p (p.NextPage s).2 rest err

end Sdk

open Sdk

/-! ## azure-k8s/nodepool/main.go -/

namespace NodePool

/-- The struct `armcontainerservice.ManagedClusterAgentPoolProfileProperties`,
with the fields the program reads or sets (`PoolType` is the Go field `Type`). -/
structure ManagedClusterAgentPoolProfileProperties where
  Count : Option Int
  VMSize : Option String
  Mode : Option String
  OrchestratorVersion : Option String := none
  PoolType : Option String := none
deriving DecidableEq, Repr

/-- The struct `armcontainerservice.AgentPool`. -/
structure AgentPool where
  Name : Option String
  Properties : Option ManagedClusterAgentPoolProfileProperties
deriving DecidableEq, Repr

/-- The struct `armcontainerservice.AgentPoolsClient`: the pager `NewListPager`
gives for a resource group and a cluster, and the state that pager starts in;
what `BeginCreateOrUpdate` answers for a resource group, a cluster, a pool name
and parameters, and what `BeginDelete` answers for the three names. -/
structure AgentPoolsClient (σ : Type) where
  pager : Pager σ (Option AgentPool)
  NewListPager : String → String → σ
  BeginCreateOrUpdate : String → String → String → AgentPool → Except GoError (Poller AgentPool)
  BeginDelete : String → String → String → Except GoError (Poller Unit)

/-- The local variable `parameters` of `createNodePool`. -/
def createNodePool.parameters : AgentPool :=
  { Name := none
    Properties := some
      { Count := some 2
        VMSize := some "Standard_DS2_v2"
        Mode := some "User"
        OrchestratorVersion := some "1.30.10"
        PoolType := some "VirtualMachineScaleSets" } }

/-- The function `createNodePool`, reading the globals `resourceGroup` and
`clusterName`. -/
def createNodePool {σ : Type} (resourceGroup clusterName : String)
    (client : AgentPoolsClient σ) (nodepoolName : String) :
    Option GoError × List (Call AgentPool) :=
  let parameters := createNodePool.parameters
  let calls := [Call.Print ("开始创建节点池 " ++ nodepoolName ++ "...\n"),
    Call.BeginCreateOrUpdate [resourceGroup, clusterName, nodepoolName] parameters]
  match client.BeginCreateOrUpdate resourceGroup clusterName nodepoolName parameters with
  | .error err => (some err, calls)
  | .ok poller =>
    match poller.PollUntilDone with
    | .error err => (some err, calls ++ [.PollUntilDone])
    | .ok _ => (none, calls ++ [.PollUntilDone, .Print "节点池创建成功！\n"])

/-- The function `deleteNodePool`, reading the globals `resourceGroup` and
`clusterName`. -/
def deleteNodePool {σ : Type} (resourceGroup clusterName : String)
    (client : AgentPoolsClient σ) (nodepoolName : String) :
    Option GoError × List (Call Unit) :=
  let calls := [Call.Print ("开始删除节点池 " ++ nodepoolName ++ "...\n"),
    Call.BeginDelete [resourceGroup, clusterName, nodepoolName]]
  match client.BeginDelete resourceGroup clusterName nodepoolName with
  | .error err => (some err, calls)
  | .ok poller =>
    match poller.PollUntilDone with
    | .error err => (some err, calls ++ [.PollUntilDone])
    | .ok _ => (none, calls ++ [.PollUntilDone, .Print "节点池删除成功！\n"])

/-- The five print statements `listNodePools` runs for one element `v` of a
page. -/
def listNodePools.body (v : Option AgentPool) : List String × Bool :=
  match v.bind (fun p => p.Name) with
  | none => ([], false)
  | some name =>
    let out := ["节点池名称: " ++ name ++ "\n"]
    match (v.bind (fun p => p.Properties)).bind (fun q => q.Count) with
    | none => (out, false)
    | some count =>
      let out := out ++ ["节点数量: " ++ fmtD count ++ "\n"]
      match (v.bind (fun p => p.Properties)).bind (fun q => q.VMSize) with
      | none => (out, false)
      | some vmSize =>
        let out := out ++ ["虚拟机规格: " ++ vmSize ++ "\n"]
        match (v.bind (fun p => p.Properties)).bind (fun q => q.Mode) with
        | none => (out, false)
        | some mode => (out ++ ["模式: " ++ mode ++ "\n", "---\n"], true)

/-- The loop `for pager.More()` of `listNodePools`, started with the pager in
state `s` and run for at most `fuel` rounds: the steps taken, and the outcome
if the loop has ended by then. -/
def listNodePools.loop {σ : Type} (pager : Pager σ (Option AgentPool)) :
    Nat → σ → List Step × Option Outcome
  | 0, _ => ([], none)
  | fuel + 1, s =>
    if pager.More s then
      match pager.NextPage s with
      | (.error err, _) => ([.More true, .NextPage], some (.returned (some err)))
      | (.ok nextResult, s') =>
        match rangeOver listNodePools.body nextResult with
        | (out, false) => ([.More true, .NextPage] ++ out.map .Print, some .panicked)
        | (out, true) =>
          ([.More true, .NextPage] ++ out.map .Print ++ (listNodePools.loop pager fuel s').1,
            (listNodePools.loop pager fuel s').2)
    else ([.More false], some (.returned none))

/-- The function `listNodePools`, reading the globals `resourceGroup` and
`clusterName`. -/
def listNodePools {σ : Type} (resourceGroup clusterName : String)
    (client : AgentPoolsClient σ) (fuel : Nat) : List Step × Option Outcome :=
  let pager := client.NewListPager resourceGroup clusterName
  (.Print "\n列出所有节点池：\n" :: (listNodePools.loop client.pager fuel pager).1,
    (listNodePools.loop client.pager fuel pager).2)

end NodePool

/-! ## azure-k8s/create/create.go -/

namespace Create

/-- The struct `armcontainerservice.ManagedClusterAgentPoolProfile`. -/
structure ManagedClusterAgentPoolProfile where
  Name : Option String
  Count : Option Int
  VMSize : Option String
  Mode : Option String
deriving DecidableEq, Repr

/-- The struct `armcontainerservice.ManagedClusterServicePrincipalProfile`. -/
structure ManagedClusterServicePrincipalProfile where
  ClientID : Option String
  Secret : Option String
deriving DecidableEq, Repr

/-- The struct `armcontainerservice.ManagedClusterProperties`, with the fields
the program sets or reads. -/
structure ManagedClusterProperties where
  DNSPrefix : Option String := none
  AgentPoolProfiles : List ManagedClusterAgentPoolProfile := []
  ServicePrincipalProfile : Option ManagedClusterServicePrincipalProfile := none
  ProvisioningState : Option String := none
deriving DecidableEq, Repr

/-- The struct `armcontainerservice.ManagedCluster`. -/
structure ManagedCluster where
  Name : Option String := none
  Location : Option String := none
  Properties : Option ManagedClusterProperties := none
deriving DecidableEq, Repr

/-- The poller `BeginCreateOrUpdate` returns: the error `PollUntilDone` ends
with, if any. -/
structure Poller where
  PollUntilDone : Option GoError

/-- The parts of the Azure SDK that `main` calls. -/
structure Azure (σ : Type) where
  NewClientSecretCredential : String → String → String → Option GoError
  NewManagedClustersClient : String → Option GoError
  BeginCreateOrUpdate : String → String → ManagedCluster → Except GoError Poller
  pager : Pager σ (Option ManagedCluster)
  NewListPager : σ

/-- The four print statements `main` runs for one element `v` of a page. -/
def main.body (v : Option ManagedCluster) : List String × Bool :=
  match v.bind (fun c => c.Name) with
  | none => ([], false)
  | some name =>
    let out := ["集群名称: " ++ name ++ "\n"]
    match v.bind (fun c => c.Location) with
    | none => (out, false)
    | some location =>
      let out := out ++ ["位置: " ++ location ++ "\n"]
      match (v.bind (fun c => c.Properties)).bind (fun q => q.ProvisioningState) with
      | none => (out, false)
      | some state => (out ++ ["状态: " ++ state ++ "\n", "---\n"], true)

/-- The loop `for pager.More()` of `main`, started with the pager in state `s`
and run for at most `fuel` rounds: the steps taken, and the outcome if the loop
has ended by then. -/
def main.loop {σ : Type} (pager : Pager σ (Option ManagedCluster)) :
    Nat → σ → List Step × Option Outcome
  | 0, _ => ([], none)
  | fuel + 1, s =>
    if pager.More s then
      match pager.NextPage s with
      | (.error err, _) => ([.More true, .NextPage], some (.fatal err))
      | (.ok nextResult, s') =>
        match rangeOver main.body nextResult with
        | (out, false) => ([.More true, .NextPage] ++ out.map .Print, some .panicked)
        | (out, true) =>
          ([.More true, .NextPage] ++ out.map .Print ++ (main.loop pager fuel s').1,
            (main.loop pager fuel s').2)
    else ([.More false], some (.returned none))

/-- The function `main`, reading the environment and the globals
`subscriptionID` and `resourceGroup` that `init` has set. -/
def main {σ : Type} (getenv : String → String) (subscriptionID resourceGroup : String)
    (azure : Azure σ) (fuel : Nat) : List Step × Option Outcome :=
  match azure.NewClientSecretCredential (getenv "AZURE_TENANT_ID") (getenv "AZURE_CLIENT_ID")
      (getenv "AZURE_CLIENT_SECRET") with
  | some err => ([], some (.fatal err))
  | none =>
    match azure.NewManagedClustersClient subscriptionID with
    | some err => ([], some (.fatal err))
    | none =>
      let clusterName := "learn-ask-tmp1"
      let location := "eastus"
      let parameters : ManagedCluster :=
        { Location := some location
          Properties := some
            { DNSPrefix := some clusterName
              AgentPoolProfiles :=
                [{ Name := some "nodepool1", Count := some 1, VMSize := some "Standard_DS2_v2",
                   Mode := some "System" }]
              ServicePrincipalProfile := some
                { ClientID := some (getenv "AZURE_CLIENT_ID")
                  Secret := some (getenv "AZURE_CLIENT_SECRET") } } }
      match azure.BeginCreateOrUpdate resourceGroup clusterName parameters with
      | .error err => ([], some (.fatal err))
      | .ok poller =>
        let started := [Step.Print ("开始创建集群 " ++ clusterName ++ "...\n")]
        match poller.PollUntilDone with
        | some err => (started, some (.fatal err))
        | none =>
          let created := started ++ [.Print "集群创建成功！\n", .Print "\n列出所有集群：\n"]
          (created ++ (main.loop azure.pager fuel azure.NewListPager).1,
            (main.loop azure.pager fuel azure.NewListPager).2)

end Create

/-! ## AzureNsg/nsg.go -/

namespace Nsg

/-- The struct `armnetwork.SecurityRulePropertiesFormat`, with the fields the
program sets. -/
structure SecurityRulePropertiesFormat where
  SourceAddressPrefix : Option String := none
  SourcePortRange : Option String := none
  DestinationAddressPrefix : Option String := none
  DestinationPortRange : Option String := none
  Protocol : Option String := none
  Access : Option String := none
  Priority : Option Int := none
  Description : Option String := none
  Direction : Option String := none
deriving DecidableEq, Repr

/-- The struct `armnetwork.SecurityRule`. -/
structure SecurityRule where
  Name : Option String := none
  Properties : Option SecurityRulePropertiesFormat := none
deriving DecidableEq, Repr

/-- The struct `armnetwork.SecurityGroupPropertiesFormat`. -/
structure SecurityGroupPropertiesFormat where
  SecurityRules : List (Option SecurityRule) := []
deriving DecidableEq, Repr

/-- The struct `armnetwork.SecurityGroup`. -/
structure SecurityGroup where
  Name : Option String := none
  Location : Option String := none
  Properties : Option SecurityGroupPropertiesFormat := none
deriving DecidableEq, Repr

/-- The struct `armnetwork.SecurityGroupsClient`: what `BeginCreateOrUpdate`
answers for a resource group, a group name and parameters. -/
structure SecurityGroupsClient where
  BeginCreateOrUpdate : String → String → SecurityGroup → Except GoError (Poller SecurityGroup)

/-- The local variable `parameters` of `createNetworkSecurityGroup`. -/
def createNetworkSecurityGroup.parameters : SecurityGroup :=
  { Location := some "eastasia"
    Properties := some
      { SecurityRules :=
          [some
            { Name := some "sample_inbound_22"
              Properties := some
                { SourceAddressPrefix := some "0.0.0.0/0"
                  SourcePortRange := some "*"
                  DestinationAddressPrefix := some "0.0.0.0/0"
                  DestinationPortRange := some "*"
                  Protocol := some "*"
                  Access := some "Allow"
                  Priority := some 100
                  Description := some "允许任意端口和ip访问"
                  Direction := some "Inbound" } },
           some
            { Name := some "sample_outbound_22"
              Properties := some
                { SourceAddressPrefix := some "0.0.0.0/0"
                  SourcePortRange := some "*"
                  DestinationAddressPrefix := some "0.0.0.0/0"
                  DestinationPortRange := some "*"
                  Protocol := some "*"
                  Access := some "Allow"
                  Priority := some 100
                  Description := some "允许任意端口和ip出站"
                  Direction := some "Outbound" } }] } }

/-- The function `createNetworkSecurityGroup`. -/
def createNetworkSecurityGroup (securityGroupsClient : SecurityGroupsClient)
    (resourceGroupName vmName : String) :
    (Option SecurityGroup × Option GoError) × List (Call SecurityGroup) :=
  let parameters := createNetworkSecurityGroup.parameters
  let nsgName := vmName ++ "-nsg"
  let calls := [Call.BeginCreateOrUpdate [resourceGroupName, nsgName] parameters]
  match securityGroupsClient.BeginCreateOrUpdate resourceGroupName nsgName parameters with
  | .error err => ((none, some err), calls)
  | .ok pollerResponse =>
    match pollerResponse.PollUntilDone with
    | .error err => ((none, some err), calls ++ [.PollUntilDone])
    | .ok resp => ((some resp, none), calls ++ [.PollUntilDone])

end Nsg

/-! ## VirtualMachines/VirtualMachines.go -/

namespace VirtualMachines

/-- The struct `armnetwork.AddressSpace`. -/
structure AddressSpace where
  AddressPrefixes : List (Option String) := []
deriving DecidableEq, Repr

/-- The struct `armnetwork.VirtualNetworkPropertiesFormat`, with the field the
program sets. -/
structure VirtualNetworkPropertiesFormat where
  AddressSpace : Option AddressSpace := none
deriving DecidableEq, Repr

/-- The struct `armnetwork.VirtualNetwork`. -/
structure VirtualNetwork where
  Name : Option String := none
  Location : Option String := none
  Properties : Option VirtualNetworkPropertiesFormat := none
deriving DecidableEq, Repr

/-- The struct `armnetwork.VirtualNetworksClient`: what `BeginCreateOrUpdate`
answers for a resource group, a network name and parameters. -/
structure VirtualNetworksClient where
  BeginCreateOrUpdate : String → String → VirtualNetwork → Except GoError (Poller VirtualNetwork)

/-- The local variable `parameters` of `createVirtualNetwork`. -/
def createVirtualNetwork.parameters : VirtualNetwork :=
  { Location := some "eastasia"
    Properties := some
      { AddressSpace := some { AddressPrefixes := [some "10.1.0.0/16"] } } }

/-- The function `createVirtualNetwork`. -/
def createVirtualNetwork (virtualNetworksClient : VirtualNetworksClient)
    (resourceGroupName vmName : String) :
    (String × Option VirtualNetwork × Option GoError) × List (Call VirtualNetwork) :=
  let parameters := createVirtualNetwork.parameters
  let calls := [Call.BeginCreateOrUpdate [resourceGroupName, vmName ++ "-vnet"] parameters]
  match virtualNetworksClient.BeginCreateOrUpdate resourceGroupName (vmName ++ "-vnet")
      parameters with
  | .error err => (("", none, some err), calls)
  | .ok pollerResponse =>
    match pollerResponse.PollUntilDone with
    | .error err => (("", none, some err), calls ++ [.PollUntilDone])
    | .ok resp => ((vmName ++ "-vnet", some resp, none), calls ++ [.PollUntilDone])

end VirtualMachines

/-! ## azblob/upload.go -/

namespace Azblob

/-- The struct `azblob.UploadFileOptions`, with the fields the program sets. -/
structure UploadFileOptions where
  BlockSize : Int
  Concurrency : Int
deriving DecidableEq, Repr

/-- What lies outside `UploadFileToAzure`, for credentials of type `κ`, clients
of type `χ` and open files of type `φ`: the function `filepath.Base`, the two
constructors of package azblob, `os.Open`, and the method `UploadFile` of a
client. -/
structure Env (κ χ φ : Type) where
  Base : String → String
  NewSharedKeyCredential : String → String → Except GoError κ
  NewClientWithSharedKeyCredential : String → κ → Except GoError χ
  Open : String → Except GoError φ
  UploadFile : χ → String → String → φ → UploadFileOptions → Option GoError

/-- What `UploadFileToAzure` does, oldest first: the calls it makes, with their
arguments, and the text it writes to standard output. -/
inductive Step (κ χ φ : Type) where
  | NewSharedKeyCredential (accountName accountKey : String)
  | NewClientWithSharedKeyCredential (serviceURL : String) (credential : κ)
  | Open (name : String)
  | UploadFile (client : χ) (containerName blobName : String) (file : φ)
      (options : UploadFileOptions)
  | Print (text : String)
deriving DecidableEq, Repr

/-- The function `UploadFileToAzure`. -/
def UploadFileToAzure {κ χ φ : Type} (env : Env κ χ φ)
    (localFilePath accountName accountKey containerName : String) :
    Option GoError × List (Step κ χ φ) :=
  let blobName := env.Base localFilePath
  let steps := [Step.NewSharedKeyCredential accountName accountKey]
  match env.NewSharedKeyCredential accountName accountKey with
  | .error err => (some ("无法创建凭证: " ++ err), steps)
  | .ok credential =>
    let serviceURL := "https://" ++ accountName ++ ".blob.core.windows.net/"
    let steps := steps ++ [.NewClientWithSharedKeyCredential serviceURL credential]
    match env.NewClientWithSharedKeyCredential serviceURL credential with
    | .error err => (some ("无法创建客户端: " ++ err), steps)
    | .ok client =>
      let steps := steps ++ [.Open localFilePath]
      match env.Open localFilePath with
      | .error err => (some ("无法打开文件: " ++ err), steps)
      | .ok file =>
        let options : UploadFileOptions := { BlockSize := 4 * 1024 * 1024, Concurrency := 4 }
        let steps := steps ++ [.UploadFile client containerName blobName file options]
        match env.UploadFile client containerName blobName file options with
        | some err => (some ("上传失败: " ++ err), steps)
        | none =>
          (none, steps ++ [.Print ("成功上传文件 " ++ localFilePath ++ " 到容器 "
            ++ containerName ++ " 中的 " ++ blobName ++ "\n")])

end Azblob

/-! ## azure-search-demo/main.go: the two delete operations -/

namespace SearchDemo

/-- Standard input as `fmt.Scanln` consumes it: each element is the text one call
of `fmt.Scanln(&v)` leaves in its freshly declared variable `v`, which is the
empty string when the call reads no word.  Past the end every call reads
nothing. -/
abbrev Stdin := List String

/-- The call `fmt.Scanln(&v)` on a freshly declared string `v`: the value of `v`
afterwards and the input that is left. -/
def Scanln (stdin : Stdin) : String × Stdin :=
  match stdin with
  | [] => ("", [])
  | word :: rest => (word, rest)

/-- What an operation of the menu does, oldest first: a text written to
standard output, a call of `sendRequest`, a call of `http.NewRequest`, and the
events of package net/http that follow from them. -/
inductive Io where
  | Print (text : String)
  | sendRequest (method url : String) (body : Option String)
  | NewRequest (method url : String) (body : Option String)
  | Http (event : Event)
deriving DecidableEq, Repr

/-- The global variables of the program. -/
structure Globals where
  cred : Credential
  subscriptionID : String
  resourceGroup : String
  httpClient : Client

/-- The local struct that `getSearchServiceAdminKey` decodes the answer into. -/
structure AdminKeys where
  PrimaryKey : String
  SecondaryKey : String
deriving DecidableEq, Repr

/-- The function `deleteSearchService`: what it does and the input it leaves. -/
def deleteSearchService (g : Globals) (net : Net) (stdin : Stdin) : List Io × Stdin :=
  let out := [Io.Print "请输入要删除的搜索服务名称: "]
  let (serviceName, stdin) := Scanln stdin
  if serviceName = "" then
    (out ++ [.Print "搜索服务名称不能为空\n"], stdin)
  else
    let out := out ++
      [.Print ("警告: 此操作将删除搜索服务 " ++ serviceName ++ " 及其所有数据，此操作不可恢复\n"),
       .Print "请输入 'confirm' 确认删除: "]
    let (confirmation, stdin) := Scanln stdin
    if confirmation ≠ "confirm" then
      (out ++ [.Print "操作已取消\n"], stdin)
    else
      let url := "https://management.azure.com/subscriptions/" ++ g.subscriptionID
        ++ "/resourceGroups/" ++ g.resourceGroup
        ++ "/providers/Microsoft.Search/searchServices/" ++ serviceName
        ++ "?api-version=2020-08-01"
      let sent := sendRequest g.cred g.httpClient net "DELETE" url none
      let out := out ++ [.sendRequest "DELETE" url none] ++ sent.2.map .Http
      match sent.1.2 with
      | some err => (out ++ [.Print ("删除搜索服务失败: " ++ err ++ "\n")], stdin)
      | none => (out ++ [.Print ("搜索服务 " ++ serviceName ++ " 删除请求已提交\n")], stdin)

/-- The function `getSearchServiceAdminKey`. -/
def getSearchServiceAdminKey (g : Globals) (codec : Json.Codec AdminKeys) (net : Net)
    (serviceName : String) : (String × Option GoError) × List Io :=
  let url := "https://management.azure.com/subscriptions/" ++ g.subscriptionID
    ++ "/resourceGroups/" ++ g.resourceGroup
    ++ "/providers/Microsoft.Search/searchServices/" ++ serviceName
    ++ "/listAdminKeys?api-version=2020-08-01"
  let sent := sendRequest g.cred g.httpClient net "POST" url none
  let io := [Io.sendRequest "POST" url none] ++ sent.2.map .Http
  match sent.1 with
  | (_, some err) => (("", some err), io)
  | (body, none) =>
    let data := body.getD ""
    match codec.Unmarshal data with
    | .error err => (("", some ("解析响应失败: " ++ err)), io ++ [.Http (.Unmarshal data)])
    | .ok result => ((result.PrimaryKey, none), io ++ [.Http (.Unmarshal data)])

/-- The function `deleteSearchIndex`: what it does and the input it leaves. -/
def deleteSearchIndex (g : Globals) (codec : Json.Codec AdminKeys) (net : Net)
    (stdin : Stdin) : List Io × Stdin :=
  let out := [Io.Print "请输入搜索服务名称: "]
  let (serviceName, stdin) := Scanln stdin
  if serviceName = "" then
    (out ++ [.Print "搜索服务名称不能为空\n"], stdin)
  else
    let out := out ++ [.Print "请输入要删除的索引名称: "]
    let (indexName, stdin) := Scanln stdin
    if indexName = "" then
      (out ++ [.Print "索引名称不能为空\n"], stdin)
    else
      let out := out ++
        [.Print ("警告: 此操作将删除索引 " ++ indexName ++ " 及其所有数据，此操作不可恢复\n"),
         .Print "请输入 'confirm' 确认删除: "]
      let (confirmation, stdin) := Scanln stdin
      if confirmation ≠ "confirm" then
        (out ++ [.Print "操作已取消\n"], stdin)
      else
        let key := getSearchServiceAdminKey g codec net serviceName
        let out := out ++ key.2
        match key.1 with
        | (_, some err) => (out ++ [.Print ("获取API密钥失败: " ++ err ++ "\n")], stdin)
        | (adminKey, none) =>
          let url := "https://" ++ serviceName ++ ".search.windows.net/indexes/" ++ indexName
            ++ "?api-version=2020-06-30"
          let out := out ++ [.NewRequest "DELETE" url none]
          match NewRequest net "DELETE" url none with
          | .error err => (out ++ [.Print ("创建请求失败: " ++ err ++ "\n")], stdin)
          | .ok req =>
            let req := { req with Header := req.Header.Set "Content-Type" "application/json" }
            let req := { req with Header := req.Header.Set "api-key" adminKey }
            let out := out ++ [.Http (.Do g.httpClient req)]
            match net.roundTrip g.httpClient req with
            | .error err => (out ++ [.Print ("发送请求失败: " ++ err ++ "\n")], stdin)
            | .ok resp =>
              if resp.StatusCode < 200 ∨ resp.StatusCode ≥ 300 then
                let body := (ReadAll resp.Body).1
                (out ++ [.Http .ReadAll,
                  .Print ("删除索引失败，状态码: " ++ fmtD resp.StatusCode ++ ", 响应: "
                    ++ body ++ "\n")], stdin)
              else
                (out ++ [.Print ("索引 " ++ indexName ++ " 删除成功\n")], stdin)

end SearchDemo

/-! ## azure-search-demo/main.go: creating a service and an index -/

namespace SearchDemo

/-- The option `omitempty` of a `json` tag: the key is left out when the value is
empty, which the callers decide with `Json.isEmptyValue` on the kind of the
field. -/
def omitempty (key : String) (empty : Bool) (value : Json.Value) : List (String × Json.Value) :=
  if empty then [] else [(key, value)]

/-- The encoding of a slice: `null` for the nil slice, an array otherwise. -/
def sliceJSON {α : Type} (encode : α → Json.Value) : Option (List α) → Json.Value
  | none => .null
  | some items => .arr (items.map encode)

/-- The function `len` on a slice; the nil slice has length zero. -/
def sliceLen {α : Type} : Option (List α) → Nat
  | none => 0
  | some items => items.length

/-- The struct `SearchSKU`. -/
structure SearchSKU where
  Name : String := ""
deriving DecidableEq, Repr

/-- The struct `SearchProperties`. -/
structure SearchProperties where
  Status : String := ""
  StatusDetails : String := ""
  ProvisioningState : String := ""
  ReplicaCount : Int := 0
  PartitionCount : Int := 0
  HostingMode : String := ""
deriving DecidableEq, Repr

/-- The struct `SearchServiceCreateParams`.  The map `Tags` is the list of its
entries in the order of their keys, in which encoding/json writes them. -/
structure SearchServiceCreateParams where
  Location : String := ""
  Tags : List (String × String) := []
  Properties : SearchProperties := {}
  SKU : SearchSKU := {}
deriving DecidableEq, Repr

/-- The document `json.Marshal` encodes for a `SearchSKU`. -/
def SearchSKU.toJSON (sku : SearchSKU) : Json.Value :=
  .obj [("name", .str sku.Name)]

/-- The document `json.Marshal` encodes for a `SearchProperties`. -/
def SearchProperties.toJSON (p : SearchProperties) : Json.Value :=
  .obj [("status", .str p.Status), ("statusDetails", .str p.StatusDetails),
    ("provisioningState", .str p.ProvisioningState), ("replicaCount", .num p.ReplicaCount),
    ("partitionCount", .num p.PartitionCount), ("hostingMode", .str p.HostingMode)]

/-- The document `json.Marshal` encodes for a `SearchServiceCreateParams`. -/
def SearchServiceCreateParams.toJSON (c : SearchServiceCreateParams) : Json.Value :=
  .obj ([("location", .str c.Location)]
    ++ omitempty "tags" (Json.isEmptyValue (.map c.Tags.length)) (.obj (c.Tags.map fun kv => (kv.1, .str kv.2)))
    ++ [("properties", c.Properties.toJSON), ("sku", c.SKU.toJSON)])

/-- The struct `SearchField` (`FieldType` is the Go field `Type`). -/
structure SearchField where
  Name : String := ""
  FieldType : String := ""
  Key : Bool := false
  Searchable : Bool := false
  Filterable : Bool := false
  Sortable : Bool := false
  Facetable : Bool := false
  Retrievable : Bool := false
  AnalyzerName : String := ""
deriving DecidableEq, Repr

/-- The struct `SearchSuggester`. -/
structure SearchSuggester where
  Name : String := ""
  SourceFields : Option (List String) := none
deriving DecidableEq, Repr

/-- The struct `ScoringFunction` (`FunctionType` is the Go field `Type`).  The
map `Parameters` is the list of its entries in the order of their keys, each
value already a document. -/
structure ScoringFunction where
  FunctionType : String := ""
  FieldName : String := ""
  Boost : Float := 0
  Parameters : List (String × Json.Value) := []

/-- The struct `SearchScoringProfile`. -/
structure SearchScoringProfile where
  Name : String := ""
  FunctionAggregation : String := ""
  Functions : Option (List ScoringFunction) := none

/-- The struct `SearchAnalyzer` (`AnalyzerType` is the Go field `Type`). -/
structure SearchAnalyzer where
  Name : String := ""
  AnalyzerType : String := ""
deriving DecidableEq, Repr

/-- The struct `SearchCorsOptions`. -/
structure SearchCorsOptions where
  AllowedOrigins : Option (List String) := none
  MaxAgeInSeconds : Int := 0
deriving DecidableEq, Repr

/-- The struct `SearchIndex`. -/
structure SearchIndex where
  Name : String := ""
  Fields : Option (List SearchField) := none
  Suggesters : Option (List SearchSuggester) := none
  Scorings : Option (List SearchScoringProfile) := none
  Analyzers : Option (List SearchAnalyzer) := none
  Corsoptions : SearchCorsOptions := {}

/-- The document `json.Marshal` encodes for a `SearchField`. -/
def SearchField.toJSON (f : SearchField) : Json.Value :=
  .obj ([("name", .str f.Name), ("type", .str f.FieldType)]
    ++ omitempty "key" (Json.isEmptyValue (.bool (!f.Key))) (.bool f.Key)
    ++ omitempty "searchable" (Json.isEmptyValue (.bool (!f.Searchable))) (.bool f.Searchable)
    ++ omitempty "filterable" (Json.isEmptyValue (.bool (!f.Filterable))) (.bool f.Filterable)
    ++ omitempty "sortable" (Json.isEmptyValue (.bool (!f.Sortable))) (.bool f.Sortable)
    ++ omitempty "facetable" (Json.isEmptyValue (.bool (!f.Facetable))) (.bool f.Facetable)
    ++ omitempty "retrievable" (Json.isEmptyValue (.bool (!f.Retrievable))) (.bool f.Retrievable)
    ++ omitempty "analyzerName" (Json.isEmptyValue (.string f.AnalyzerName.length))
        (.str f.AnalyzerName))

/-- The document `json.Marshal` encodes for a `SearchSuggester`. -/
def SearchSuggester.toJSON (sg : SearchSuggester) : Json.Value :=
  .obj [("name", .str sg.Name), ("sourceFields", sliceJSON .str sg.SourceFields)]

/-- The document `json.Marshal` encodes for a `ScoringFunction`. -/
def ScoringFunction.toJSON (f : ScoringFunction) : Json.Value :=
  .obj ([("type", .str f.FunctionType), ("fieldName", .str f.FieldName),
      ("boost", .real f.Boost)]
    ++ omitempty "parameters" (Json.isEmptyValue (.map f.Parameters.length))
        (.obj f.Parameters))

/-- The document `json.Marshal` encodes for a `SearchScoringProfile`. -/
def SearchScoringProfile.toJSON (sp : SearchScoringProfile) : Json.Value :=
  .obj ([("name", .str sp.Name)]
    ++ omitempty "functionAggregation"
        (Json.isEmptyValue (.string sp.FunctionAggregation.length))
        (.str sp.FunctionAggregation)
    ++ omitempty "functions" (Json.isEmptyValue (.slice (sliceLen sp.Functions)))
        (sliceJSON ScoringFunction.toJSON sp.Functions))

/-- The document `json.Marshal` encodes for a `SearchAnalyzer`. -/
def SearchAnalyzer.toJSON (a : SearchAnalyzer) : Json.Value :=
  .obj [("name", .str a.Name), ("@odata.type", .str a.AnalyzerType)]

/-- The document `json.Marshal` encodes for a `SearchCorsOptions`. -/
def SearchCorsOptions.toJSON (c : SearchCorsOptions) : Json.Value :=
  .obj ([("allowedOrigins", sliceJSON .str c.AllowedOrigins)]
    ++ omitempty "maxAgeInSeconds" (Json.isEmptyValue (.int (c.MaxAgeInSeconds = 0)))
        (.num c.MaxAgeInSeconds))

/-- The document `json.Marshal` encodes for a `SearchIndex`.  The fields
`Suggesters`, `Scorings` and `Analyzers` are slices and the field `Corsoptions`
is a struct; all four are tagged `omitempty`. -/
def SearchIndex.toJSON (index : SearchIndex) : Json.Value :=
  .obj ([("name", .str index.Name), ("fields", sliceJSON SearchField.toJSON index.Fields)]
    ++ omitempty "suggesters" (Json.isEmptyValue (.slice (sliceLen index.Suggesters)))
        (sliceJSON SearchSuggester.toJSON index.Suggesters)
    ++ omitempty "scoringProfiles" (Json.isEmptyValue (.slice (sliceLen index.Scorings)))
        (sliceJSON SearchScoringProfile.toJSON index.Scorings)
    ++ omitempty "analyzers" (Json.isEmptyValue (.slice (sliceLen index.Analyzers)))
        (sliceJSON SearchAnalyzer.toJSON index.Analyzers)
    ++ omitempty "corsOptions" (Json.isEmptyValue .struct) index.Corsoptions.toJSON)

/-- What the standard library answers to the two create operations: the
function `strconv.Atoi`, the text `time.Now().Format(time.RFC3339)`, and the
bytes `json.Marshal` gives for a document. -/
structure Std where
  Atoi : String → Except GoError Int
  now : String
  Marshal : Json.Value → Except GoError String

/-- The count `createSearchService` makes of a word it has read: the number
`strconv.Atoi` finds in it, or 1 when there is none or it is below 1. -/
def createSearchService.count (std : Std) (word : String) : Int :=
  match std.Atoi word with
  | .error _ => 1
  | .ok count => if count < 1 then 1 else count

/-- The local variable `createParams` of `createSearchService`, from the four
words read after the service name. -/
def createSearchService.createParams (std : Std)
    (location sku replicaCountStr partitionCountStr : String) : SearchServiceCreateParams :=
  let sku := if sku = "" then "standard" else sku
  let replicaCount := createSearchService.count std replicaCountStr
  let partitionCount := createSearchService.count std partitionCountStr
  { Location := location
    SKU := { Name := sku }
    Properties :=
      { ReplicaCount := replicaCount
        PartitionCount := partitionCount
        HostingMode := "default" }
    Tags := [("created-at", std.now), ("created-by", "azure-search-demo")] }

/-- The function `createSearchService`: what it does and the input it leaves. -/
def createSearchService (g : Globals) (std : Std) (net : Net) (stdin : Stdin) :
    List Io × Stdin :=
  let out := [Io.Print "请输入搜索服务名称: "]
  let (serviceName, stdin) := Scanln stdin
  if serviceName = "" then
    (out ++ [.Print "搜索服务名称不能为空\n"], stdin)
  else
    let out := out ++ [.Print "请输入位置 (如: eastus, westus): "]
    let (location, stdin) := Scanln stdin
    if location = "" then
      (out ++ [.Print "位置不能为空\n"], stdin)
    else
      let out := out ++ [.Print "请输入SKU (free, basic, standard, standard2, standard3): "]
      let (sku, stdin) := Scanln stdin
      let out := out ++ [.Print "请输入副本数 (1-12): "]
      let (replicaCountStr, stdin) := Scanln stdin
      let out := out ++ [.Print "请输入分区数 (1-12): "]
      let (partitionCountStr, stdin) := Scanln stdin
      let createParams :=
        createSearchService.createParams std location sku replicaCountStr partitionCountStr
      match std.Marshal createParams.toJSON with
      | .error err => (out ++ [.Print ("序列化请求体失败: " ++ err ++ "\n")], stdin)
      | .ok requestBody =>
        let url := "https://management.azure.com/subscriptions/" ++ g.subscriptionID
          ++ "/resourceGroups/" ++ g.resourceGroup
          ++ "/providers/Microsoft.Search/searchServices/" ++ serviceName
          ++ "?api-version=2020-08-01"
        let sent := sendRequest g.cred g.httpClient net "PUT" url (some requestBody)
        let out := out ++ [.sendRequest "PUT" url (some requestBody)] ++ sent.2.map .Http
        match sent.1.2 with
        | some err => (out ++ [.Print ("创建搜索服务失败: " ++ err ++ "\n")], stdin)
        | none =>
          (out ++ [.Print ("搜索服务 " ++ serviceName
            ++ " 创建请求已提交，请等待几分钟后查询服务状态\n")], stdin)

end SearchDemo

/-! ## azure-search-demo/main.go: the menu -/

namespace SearchDemo

end SearchDemo

/-! ## AzureNsg/nsg.go and VirtualMachines/VirtualMachines.go: the two `main` -/

namespace Sdk

/-- What a program does around its one operation, oldest first: a text written
to standard output, the creation of the credential, the creation of the client
factory, and the calls of the operation. -/
inductive Action (π : Type) where
  | Print (text : String)
  | NewClientSecretCredential (tenantID clientID clientSecret : String)
  | NewClientFactory (subscriptionID : String)
  | Call (call : Call π)
deriving DecidableEq, Repr

end Sdk

namespace Nsg

/-- What lies outside `main`, for credentials of type `κ`: the answer of
`godotenv.Load`, of `azidentity.NewClientSecretCredential` for a tenant, a
client and a secret, and the security groups client of the factory that
`armnetwork.NewClientFactory` gives for a subscription and a credential. -/
structure Azure (κ : Type) where
  Load : Option GoError
  NewClientSecretCredential : String → String → String → Except GoError κ
  NewClientFactory : String → κ → Except GoError SecurityGroupsClient

/-- The function `connectionAzure`. -/
def connectionAzure {κ : Type} (azure : Azure κ) (clientID tenantID clientSecret : String) :
    Except GoError κ :=
  match azure.NewClientSecretCredential tenantID clientID clientSecret with
  | .error err => .error err
  | .ok cred => .ok cred

/-- The function `main`; `getenv` is the environment as `os.Getenv` reads it
once `godotenv.Load` has run. -/
def main {κ : Type} (azure : Azure κ) (getenv : String → String) :
    List (Action SecurityGroup) × Outcome :=
  match azure.Load with
  | some _ => ([], .fatal "Error loading .env file")
  | none =>
    let clientID := getenv "AZURE_CLIENT_ID"
    let tenantID := getenv "AZURE_TENANT_ID"
    let clientSecret := getenv "AZURE_CLIENT_SECRET"
    let subscriptionID := getenv "AZURE_SUBSCRIPTION_ID"
    let out := [Action.Print ("Client ID: " ++ clientID ++ "\n"),
      Action.Print ("Tenant ID: " ++ tenantID ++ "\n"),
      Action.Print ("Client Secret: " ++ clientSecret ++ "\n"),
      Action.NewClientSecretCredential tenantID clientID clientSecret]
    match connectionAzure azure clientID tenantID clientSecret with
    | .error _ => (out, .fatal "Error connecting to Azure")
    | .ok conn =>
      let out := out ++ [.NewClientFactory subscriptionID]
      match azure.NewClientFactory subscriptionID conn with
      | .error err => (out, .fatal err)
      | .ok securityGroupsClient =>
        let created := createNetworkSecurityGroup securityGroupsClient "learn" "learn-vm-nsg"
        let out := out ++ created.2.map .Call
        match created.1 with
        | (_, some err) => (out ++ [.Print ("创建安全组失败 " ++ err ++ "\n")], .returned none)
        | (nsg, none) =>
          match nsg.bind (fun group => group.Name) with
          | none => (out, .panicked)
          | some name => (out ++ [.Print ("安全组: " ++ name ++ "\n")], .returned none)

end Nsg

namespace VirtualMachines

/-- What lies outside `main`, for credentials of type `κ`: the answer of
`godotenv.Load`, of `azidentity.NewClientSecretCredential` for a tenant, a
client and a secret, the virtual networks client of the factory that
`armnetwork.NewClientFactory` gives for a subscription and a credential, and
the text that the verb `%v` of package fmt writes for a virtual network. -/
structure Azure (κ : Type) where
  Load : Option GoError
  NewClientSecretCredential : String → String → String → Except GoError κ
  NewClientFactory : String → κ → Except GoError VirtualNetworksClient
  fmtV : Option VirtualNetwork → String

/-- The function `connectionAzure`. -/
def connectionAzure {κ : Type} (azure : Azure κ) (clientID tenantID clientSecret : String) :
    Except GoError κ :=
  match azure.NewClientSecretCredential tenantID clientID clientSecret with
  | .error err => .error err
  | .ok cred => .ok cred

/-- The function `main`; `getenv` is the environment as `os.Getenv` reads it
once `godotenv.Load` has run. -/
def main {κ : Type} (azure : Azure κ) (getenv : String → String) :
    List (Action VirtualNetwork) × Outcome :=
  match azure.Load with
  | some _ => ([], .fatal "Error loading .env file")
  | none =>
    let clientID := getenv "AZURE_CLIENT_ID"
    let tenantID := getenv "AZURE_TENANT_ID"
    let clientSecret := getenv "AZURE_CLIENT_SECRET"
    let subscriptionID := getenv "AZURE_SUBSCRIPTION_ID"
    let out := [Action.Print ("Client ID: " ++ clientID ++ "\n"),
      Action.Print ("Tenant ID: " ++ tenantID ++ "\n"),
      Action.Print ("Client Secret: " ++ clientSecret ++ "\n"),
      Action.NewClientSecretCredential tenantID clientID clientSecret]
    match connectionAzure azure clientID tenantID clientSecret with
    | .error _ => (out, .fatal "Error connecting to Azure")
    | .ok conn =>
      let out := out ++ [.NewClientFactory subscriptionID]
      match azure.NewClientFactory subscriptionID conn with
      | .error err => (out, .fatal err)
      | .ok virtualNetworksClient =>
        let created := createVirtualNetwork virtualNetworksClient "learn" "learn-vm-net"
        let out := out ++ created.2.map .Call
        match created.1 with
        | (_, _, some err) => (out, .fatal err)
        | (vnetName, vnetRes, none) =>
          (out ++ [.Print ("Virtual Network Name: " ++ vnetName ++ "\n"),
            .Print ("Virtual Network Resource: " ++ azure.fmtV vnetRes ++ "\n")],
            .returned none)

end VirtualMachines

/-! ## fmt: `Scanln` on the characters of standard input -/

namespace Fmt

/-- The function `isSpace` of package fmt: the characters in the ranges of its
table `space`. -/
def isSpace (r : Char) : Bool :=
  (0x0009 ≤ r.toNat && r.toNat ≤ 0x000d) || r.toNat == 0x0020 || r.toNat == 0x0085
    || r.toNat == 0x00a0 || r.toNat == 0x1680 || (0x2000 ≤ r.toNat && r.toNat ≤ 0x200a)
    || (0x2028 ≤ r.toNat && r.toNat ≤ 0x2029) || r.toNat == 0x202f || r.toNat == 0x205f
    || r.toNat == 0x3000

/-- The method `SkipSpace` of the scan state as `Scanln` runs it, where a
newline does not count as space: it reads past blanks up to the first other
character, which it leaves unread; a newline it reads, and fails.  Gives
whether it came through, and the characters left unread. -/
def SkipSpace : List Char → Bool × List Char
  | [] => (true, [])
  | r :: rest =>
    if r = '\n' then (false, rest)
    else if isSpace r then SkipSpace rest
    else (true, r :: rest)

/-- The method `token` of the scan state with the predicate `notSpace`: the
characters up to the next white space or the end of input, and the characters
left unread. -/
def token : List Char → List Char × List Char
  | [] => ([], [])
  | r :: rest =>
    if isSpace r then ([], r :: rest)
    else (r :: (token rest).1, (token rest).2)

/-- The check that `doScan` makes for `Scanln` after the last operand: it reads
past blanks up to and including the newline; a character that is no space it
reads as well, and fails.  Gives whether it failed, and the characters left
unread. -/
def endOfLine : List Char → Bool × List Char
  | [] => (false, [])
  | r :: rest =>
    if r = '\n' then (false, rest)
    else if isSpace r then endOfLine rest
    else (true, rest)

/-- The call `fmt.Scanln(&v)` on a freshly declared string `v`, with the
characters `input` unread on standard input: the value of `v` afterwards,
whether the call returns an error, and the characters it leaves unread.  The
call fails, with `v` untouched, at a line without a word and at the end of
input; it fails after it has stored the word when more text follows the word
on the line. -/
def Scanln (input : List Char) : String × Bool × List Char :=
  match SkipSpace input with
  | (false, rest) => ("", true, rest)
  | (true, []) => ("", true, [])
  | (true, r :: rest) =>
    (String.mk (token (r :: rest)).1, endOfLine (token (r :: rest)).2)

/-- The values that successive calls of `fmt.Scanln(&v)`, each on a freshly
declared string, leave in their variables while characters are unread on
standard input, for at most `fuel` calls. -/
def stored : Nat → List Char → List String
  | 0, _ => []
  | _ + 1, [] => []
  | fuel + 1, r :: rest =>
    (Scanln (r :: rest)).1 :: stored fuel (Scanln (r :: rest)).2.2

end Fmt

namespace SearchDemo

/-- Standard input on which the text `text` is typed, as the calls of
`fmt.Scanln` consume it, each call dropping the error it is given.  A call that
finds characters unread reads at least one of them, so that as many calls as
there are characters use up the text. -/
def typed (text : String) : Stdin :=
  Fmt.stored text.length text.data

end SearchDemo

/-! ## bufio: the scanner over the lines of standard input -/

namespace Bufio

/-- The constant `bufio.MaxScanTokenSize`. -/
def MaxScanTokenSize : Nat := 64 * 1024

/-- The function `dropCR` of package bufio: the line without the carriage return
at its end, if it has one. -/
def dropCR (data : String) : String :=
  if data.data.getLast? = some '\r' then String.mk data.data.dropLast else data

/-- A `bufio.Scanner` with its default buffer and the split function `ScanLines`,
over a standard input that holds the lines `input`: each is the text before a
newline (the last one may lack its newline).  Gives the texts of
`scanner.Text()` after the calls of `scanner.Scan()` that answer `true`, in
order.  `Scan` answers `false` at the end of the input, and also at a line of
`MaxScanTokenSize` bytes or more, which does not fit into the buffer; after
that it answers `false` for good. -/
def Scanner.lines : List String → List String
  | [] => []
  | line :: rest =>
    if MaxScanTokenSize ≤ line.utf8ByteSize then []
    else dropCR line :: Scanner.lines rest

end Bufio

/-! ## ai/main.go -/

namespace Ai

/-- A message of the conversation: one of the three implementations of
`azopenai.ChatRequestMessageClassification` the program builds, with its
content. -/
inductive ChatRequestMessage where
  | System (content : String)
  | User (content : String)
  | Assistant (content : String)
deriving DecidableEq, Repr

/-- The struct `azopenai.ChatCompletionsOptions`, with the fields the program
sets. -/
structure ChatCompletionsOptions where
  Messages : List ChatRequestMessage
  DeploymentName : Option String
  MaxCompletionTokens : Option Int
deriving DecidableEq, Repr

/-- The struct `azopenai.ChatResponseMessage`. -/
structure ChatResponseMessage where
  Content : Option String
deriving DecidableEq, Repr

/-- The struct `azopenai.ChatChoice`. -/
structure ChatChoice where
  Message : Option ChatResponseMessage
deriving DecidableEq, Repr

/-- The struct `azopenai.ChatCompletions`. -/
structure ChatCompletions where
  Choices : List ChatChoice
deriving DecidableEq, Repr

/-- The struct `azopenai.Client`: what `GetChatCompletions` answers. -/
structure Client where
  GetChatCompletions : ChatCompletionsOptions → Except GoError ChatCompletions

/-- What the program does, oldest first: a text written to standard output, and
a call of `GetChatCompletions` with its options. -/
inductive Step where
  | Print (text : String)
  | GetChatCompletions (options : ChatCompletionsOptions)
deriving DecidableEq, Repr

/-- The loop `for` of `main`, with the history `messages` so far.  `lines` are
the lines for which `scanner.Scan()` answers `true`, in order; after the last
one it answers `false`. -/
def main.loop (client : Client) (deploymentName : String) :
    List String → List ChatRequestMessage → List Step
  | [], _ => [.Print "用户: "]
  | userInput :: lines, messages =>
    if userInput = "exit" ∨ userInput = "quit" then
      [.Print "用户: "]
    else
      let messages := messages ++ [.User userInput]
      let maxTokens : Int := 800
      let options : ChatCompletionsOptions :=
        { Messages := messages
          DeploymentName := some deploymentName
          MaxCompletionTokens := some maxTokens }
      match client.GetChatCompletions options with
      | .error err =>
        [.Print "用户: ", .GetChatCompletions options, .Print ("错误: " ++ err ++ "\n")]
          ++ main.loop client deploymentName lines messages
      | .ok resp =>
        match (resp.Choices.head?.bind (fun c => c.Message)).bind (fun m => m.Content) with
        | some assistantContent =>
          [.Print "用户: ", .GetChatCompletions options,
            .Print ("AI: " ++ assistantContent ++ "\n")]
            ++ main.loop client deploymentName lines (messages ++ [.Assistant assistantContent])
        | none =>
          [.Print "用户: ", .GetChatCompletions options, .Print "AI: 抱歉，我无法生成回复。\n"]
            ++ main.loop client deploymentName lines messages

/-- The function `main`: `newClient` is what `azopenai.NewClientWithKeyCredential`
answers for an endpoint and a key.  The outcome is that of the process. -/
def main (getenv : String → String) (newClient : String → String → Except GoError Client)
    (lines : List String) : List Step × Outcome :=
  let azureOpenAIEndpoint := getenv "AZURE_OPENAI_ENDPOINT"
  let azureOpenAIKey := getenv "AZURE_OPENAI_API_KEY"
  let deploymentName := getenv "AZURE_OPENAI_DEPLOYMENT"
  if azureOpenAIEndpoint = "" ∨ azureOpenAIKey = "" ∨ deploymentName = "" then
    ([.Print "请设置以下环境变量:\n",
      .Print "AZURE_OPENAI_ENDPOINT - Azure OpenAI服务端点\n",
      .Print "AZURE_OPENAI_API_KEY - Azure OpenAI API密钥\n",
      .Print "AZURE_OPENAI_DEPLOYMENT - Azure OpenAI部署名称\n"], .returned none)
  else
    match newClient azureOpenAIEndpoint azureOpenAIKey with
    | .error err => ([], .fatal ("初始化客户端错误: " ++ err))
    | .ok client =>
      let messages := [ChatRequestMessage.System "你是一个有用的AI助手，可以回答用户的问题。"]
      ([.Print "欢迎使用Azure OpenAI聊天工具！\n",
        .Print "输入'exit'或'quit'退出程序\n",
        .Print "------------------------------\n"]
        ++ main.loop client deploymentName lines messages, .returned none)

/-- The options of the calls of `GetChatCompletions`, in order. -/
def requests (steps : List Step) : List ChatCompletionsOptions :=
  steps.filterMap fun e => match e with
    | .GetChatCompletions options => some options
    | _ => none

end Ai

/-! ## The long-running-operation poller of the specification -/

namespace Lro

/-- Modelled from the spec: the Operation Result of section 3, a tagged union
over succeeded with a payload, failed with an error detail, and canceled.  The
poller itself is the one of the Azure SDK, which the programs only call
(`PollUntilDone` in delete.go); its code is not among the sources. -/
inductive OperationResult where
  | Succeeded (payload : String)
  | Failed (detail : String)
  | Canceled
deriving DecidableEq, Repr

/-- Modelled from the spec: what one status query against the poll target
reports (section 4.3): the operation is still running, or it has reached a
terminal state. -/
inductive Status where
  | Running
  | Terminal (result : OperationResult)
deriving DecidableEq, Repr

/-- Modelled from the spec: the Operation Handle of section 3 in the hands of
the poller: the number of status queries issued against its poll target so
far, and the terminal result once one has been observed. -/
structure Handle where
  queries : Nat := 0
  cached : Option OperationResult := none
deriving DecidableEq, Repr

/-- Modelled from the spec: the poller of section 4.3 together with the
invariant of section 3.  `server n` is what the server reports to the status
query number `n`.  A handle that holds a terminal result returns it; otherwise
each tick issues one status query, repeats on a non-terminal status and, on a
terminal one, keeps the result in the handle and returns it.  At most `fuel`
ticks are run; the result is `none` when the caller gives up before a terminal
state is seen. -/
def pollUntilDone (server : Nat → Status) : Nat → Handle → Option OperationResult × Handle
  | 0, h =>
    match h.cached with
    | some result => (some result, h)
    | none => (none, h)
  | fuel + 1, h =>
    match h.cached with
    | some result => (some result, h)
    | none =>
      match server h.queries with
      | .Running => pollUntilDone server fuel { h with queries := h.queries + 1 }
      | .Terminal result => (some result, { queries := h.queries + 1, cached := some result })

end Lro

/-! ## Sample inputs

Concrete collaborators on which the theorems below are instantiated. -/

namespace Sample

/-- A network that accepts every request and answers each one with the given
status code and body. -/
def net (status : Int) (body : String) : Net where
  newRequestErr := fun _ _ => none
  roundTrip := fun _ _ => .ok { StatusCode := status, Body := { data := body } }

/-- A credential that hands out the token `tok`. -/
def cred : SearchDemo.Credential where
  GetToken := fun _ => .ok { Token := "tok" }

/-- A credential that the identity provider rejects. -/
def badCred : SearchDemo.Credential where
  GetToken := fun _ => .error "invalid client secret"

/-- An encoder for the two request documents of the programs whose strings
need no escaping, and a decoder that finds nothing to decode. -/
def codec (ρ : Type) : Json.Codec ρ where
  Marshal := fun v => match v with
    | .obj [(key, .str s)] => .ok ("\x7b\"" ++ key ++ "\":\"" ++ s ++ "\"\x7d")
    | .arr [.obj [(key, .str s)]] => .ok ("[\x7b\"" ++ key ++ "\":\"" ++ s ++ "\"\x7d]")
    | _ => .error "unsupported value"
  Unmarshal := fun _ => .error "unexpected end of JSON input"

/-- The body of a throttling answer. -/
def throttled : String := "\x7b\"error\":\"throttled\"\x7d"

end Sample

/-! ## Items whose fields are set, and a pager over a fixed list of pages -/

namespace NodePool

/-- Every pointer that the loop body of `listNodePools` dereferences is set: the
element itself, its name, its properties and, in them, the count, the size and
the mode. -/
def AgentPool.Complete (v : Option AgentPool) : Prop :=
  ∃ (name : String) (count : Int) (vmSize mode : String)
      (properties : ManagedClusterAgentPoolProfileProperties), v = some
    { Name := some name
      Properties := some
        { properties with Count := some count, VMSize := some vmSize, Mode := some mode } }

end NodePool

namespace Create

/-- Every pointer that the loop body of `main` dereferences is set: the element
itself, its name, its location, its properties and, in them, the provisioning
state. -/
def ManagedCluster.Complete (v : Option ManagedCluster) : Prop :=
  ∃ (name location state : String) (properties : ManagedClusterProperties), v = some
    { Name := some name, Location := some location
      Properties := some { properties with ProvisioningState := some state } }

end Create

namespace Sample

/-- A pager over a fixed list of pages; its state is the list of the pages it
still has to hand out. -/
def listPager (α : Type) : Pager (List (List α)) α where
  More := fun s => !s.isEmpty
  NextPage := fun s => match s with
    | [] => (.error "no more pages", [])
    | page :: rest => (.ok page, rest)

/-- A node pool with all its fields set. -/
def pool (name : String) : Option NodePool.AgentPool :=
  some { Name := some name
         Properties := some { Count := some 2, VMSize := some "Standard_DS2_v2",
                              Mode := some "User" } }

/-- Five node pools on three pages of sizes 2, 2 and 1. -/
def poolPages : List (List (Option NodePool.AgentPool)) :=
  [[pool "p1", pool "p2"], [pool "p3", pool "p4"], [pool "p5"]]

/-- A node pool client whose pager hands out `poolPages`. -/
def poolsClient : NodePool.AgentPoolsClient (List (List (Option NodePool.AgentPool))) where
  pager := listPager _
  NewListPager := fun _ _ => poolPages
  BeginCreateOrUpdate := fun _ _ name parameters =>
    .ok { PollUntilDone := .ok { parameters with Name := some name } }
  BeginDelete := fun _ _ _ => .ok { PollUntilDone := .ok () }

/-- A cluster with all the fields set that the listing prints. -/
def cluster (name : String) : Option Create.ManagedCluster :=
  some { Name := some name, Location := some "eastus"
         Properties := some { ProvisioningState := some "Succeeded" } }

/-- Five clusters on three pages of sizes 2, 2 and 1. -/
def clusterPages : List (List (Option Create.ManagedCluster)) :=
  [[cluster "c1", cluster "c2"], [cluster "c3", cluster "c4"], [cluster "c5"]]

/-- An SDK in which every call succeeds and the pager hands out
`clusterPages`. -/
def azure : Create.Azure (List (List (Option Create.ManagedCluster))) where
  NewClientSecretCredential := fun _ _ _ => none
  NewManagedClustersClient := fun _ => none
  BeginCreateOrUpdate := fun _ _ _ => .ok { PollUntilDone := none }
  pager := listPager _
  NewListPager := clusterPages

end Sample

/-! ## Sample inputs for the long-running operations, the upload and the chat -/

namespace Sample

/-- A poller whose operation ends in failure. -/
def failedPoller (ρ : Type) : Poller ρ where
  PollUntilDone := .error "quota exceeded"

/-- A security groups client whose begin call fails when `beginFails` is set, and
whose operation fails otherwise. -/
def groupsClient (beginFails : Bool) : Nsg.SecurityGroupsClient where
  BeginCreateOrUpdate := fun _ _ _ =>
    if beginFails then .error "authorization failed" else .ok (failedPoller _)

/-- A virtual networks client whose begin call fails when `beginFails` is set,
and whose operation fails otherwise. -/
def networksClient (beginFails : Bool) : VirtualMachines.VirtualNetworksClient where
  BeginCreateOrUpdate := fun _ _ _ =>
    if beginFails then .error "authorization failed" else .ok (failedPoller _)

/-- A node pool client whose begin calls fail when `beginFails` is set, and whose
operations fail otherwise; its pager has no pages. -/
def failingPoolsClient (beginFails : Bool) : NodePool.AgentPoolsClient (List (List (Option NodePool.AgentPool))) where
  pager := listPager _
  NewListPager := fun _ _ => []
  BeginCreateOrUpdate := fun _ _ _ _ =>
    if beginFails then .error "authorization failed" else .ok (failedPoller _)
  BeginDelete := fun _ _ _ =>
    if beginFails then .error "authorization failed" else .ok (failedPoller _)

/-- The function `filepath.Base` as it works where the path separator is the
slash: the path without its trailing slashes, cut after its last slash; a dot
for the empty path and a slash for a path of slashes only. -/
def unixBase (path : String) : String :=
  if path = "" then "."
  else
    let stripped := (path.data.reverse.dropWhile (fun c => c == '/')).reverse
    let last := (stripped.reverse.takeWhile (fun c => c != '/')).reverse
    if last = [] then "/" else String.mk last

/-- A storage service that accepts every credential and every upload, on a disk
where every file can be opened unless `missing` is set.  A credential is the
account name, a client is its service URL, an open file is its path. -/
def blobEnv (missing : Bool) : Azblob.Env String String String where
  Base := unixBase
  NewSharedKeyCredential := fun accountName _ => .ok accountName
  NewClientWithSharedKeyCredential := fun serviceURL _ => .ok serviceURL
  Open := fun name =>
    if missing then .error ("open " ++ name ++ ": no such file or directory") else .ok name
  UploadFile := fun _ _ _ _ _ => none

/-- A pager over a fixed list of answers of `NextPage`, pages or errors; its
state is the list of the answers it still has to give. -/
def answersPager (α : Type) : Pager (List (Except GoError (List α))) α where
  More := fun s => !s.isEmpty
  NextPage := fun s => match s with
    | [] => (.error "no more pages", [])
    | answer :: rest => (answer, rest)

/-- A node pool client whose pager hands out two pages of two pools each, fails
on the third page and would have a fourth. -/
def brokenPoolsClient :
    NodePool.AgentPoolsClient (List (Except GoError (List (Option NodePool.AgentPool)))) where
  pager := answersPager _
  NewListPager := fun _ _ =>
    [.ok [pool "p1", pool "p2"], .ok [pool "p3", pool "p4"], .error "connection reset",
      .ok [pool "p5"]]
  BeginCreateOrUpdate := fun _ _ _ _ => .ok (failedPoller _)
  BeginDelete := fun _ _ _ => .ok (failedPoller _)

/-- A codec whose decoder finds one element with two translations in every
answer. -/
def translationCodec : Json.Codec Translator.TranslationResponse where
  Marshal := (codec Translator.TranslationResponse).Marshal
  Unmarshal := fun _ => .ok
    [{ Translations := [{ Text := "안녕하세요", To := "ko" }, { Text := "您好", To := "zh" }] }]

/-- A server that reports `Running` to the first two status queries and then
that the operation succeeded. -/
def server : Nat → Lro.Status := fun n =>
  if n < 2 then .Running else .Terminal (.Succeeded "\x7bid:\"x\"\x7d")

/-- The globals of the search demo once `main` has set them. -/
def globals : SearchDemo.Globals where
  cred := cred
  subscriptionID := "sub"
  resourceGroup := "rg"
  httpClient := SearchDemo.httpClient

/-- A decoder that finds the two admin keys in every answer. -/
def keysCodec : Json.Codec SearchDemo.AdminKeys where
  Marshal := fun _ => .error "unsupported value"
  Unmarshal := fun _ => .ok { PrimaryKey := "key1", SecondaryKey := "key2" }

end Sample

/-! ## Sample inputs for the search demo and the two network programs -/

namespace Sample

/-- The number that a run of decimal digits stands for, after the digits already
read have given `value`; none when a character is not a digit. -/
def decimal : List Char → Nat → Option Nat
  | [], value => some value
  | c :: rest, value =>
    if '0' ≤ c ∧ c ≤ '9' then decimal rest (value * 10 + (c.toNat - 48)) else none

/-- A reading of decimal numerals, with or without a sign, in the place of
`strconv.Atoi`. -/
def atoi (word : String) : Except GoError Int :=
  let failed : Except GoError Int :=
    .error ("strconv.Atoi: parsing " ++ word ++ ": invalid syntax")
  match word.data with
  | [] => failed
  | '-' :: digits =>
    if digits = [] then failed
    else match decimal digits 0 with
      | some n => .ok (-(n : Int))
      | none => failed
  | '+' :: digits =>
    if digits = [] then failed
    else match decimal digits 0 with
      | some n => .ok (n : Int)
      | none => failed
  | digits =>
    match decimal digits 0 with
    | some n => .ok (n : Int)
    | none => failed

/-- A standard library with a fixed clock and an encoder that writes the same
bytes for every document. -/
def std : SearchDemo.Std where
  Atoi := atoi
  now := "2026-01-01T00:00:00Z"
  Marshal := fun _ => .ok "document"

/-- An environment in which every variable has the value `value`, except the
client secret. -/
def getenv (secret : String) : String → String := fun name =>
  if name = "AZURE_CLIENT_SECRET" then secret else "value"

end Sample

/-! ## Sample inputs: pages that hold an element with a pointer not set -/

namespace Sample

/-- A node pool whose count is not set. -/
def poolWithoutCount (name : String) : Option NodePool.AgentPool :=
  some { Name := some name
         Properties := some { Count := none, VMSize := some "Standard_DS2_v2",
                              Mode := some "User" } }

/-- Three node pools on two pages of sizes 2 and 1; the second pool comes
without its count. -/
def gapPoolPages : List (List (Option NodePool.AgentPool)) :=
  [[pool "p1", poolWithoutCount "p2"], [pool "p3"]]

/-- A node pool client whose pager hands out `gapPoolPages`. -/
def gapPoolsClient : NodePool.AgentPoolsClient (List (List (Option NodePool.AgentPool))) where
  pager := listPager _
  NewListPager := fun _ _ => gapPoolPages
  BeginCreateOrUpdate := fun _ _ name parameters =>
    .ok { PollUntilDone := .ok { parameters with Name := some name } }
  BeginDelete := fun _ _ _ => .ok { PollUntilDone := .ok () }

/-- A cluster whose location is not set. -/
def clusterWithoutLocation (name : String) : Option Create.ManagedCluster :=
  some { Name := some name, Location := none
         Properties := some { ProvisioningState := some "Succeeded" } }

/-- Three clusters on two pages of sizes 2 and 1; the second cluster comes
without its location. -/
def gapClusterPages : List (List (Option Create.ManagedCluster)) :=
  [[cluster "c1", clusterWithoutLocation "c2"], [cluster "c3"]]

/-- An SDK in which every call succeeds and the pager hands out
`gapClusterPages`. -/
def gapAzure : Create.Azure (List (List (Option Create.ManagedCluster))) where
  NewClientSecretCredential := fun _ _ _ => none
  NewManagedClustersClient := fun _ => none
  BeginCreateOrUpdate := fun _ _ _ => .ok { PollUntilDone := none }
  pager := listPager _
  NewListPager := gapClusterPages

end Sample

/-! ## Sample inputs: a chat client and a line too long for the scanner -/

namespace Sample

/-- A chat client that answers every request with the one word `hi`. -/
def chatClient : Ai.Client where
  GetChatCompletions := fun _ =>
    .ok { Choices := [{ Message := some { Content := some "hi" } }] }

/-- A line of `bufio.MaxScanTokenSize` letters. -/
def longLine : String :=
  String.mk (List.replicate Bufio.MaxScanTokenSize 'a')

end Sample

/-! ## Theorems: the request helpers -/

namespace SearchDemo

/-- Helper: a request that `sendRequest` sent went through the global client,
was built from the token `getToken` returned, and its answer decides the
results of the call. -/
theorem sendRequest_sent_inv (cred : Credential) (httpClient : Client) (net : Net)
    (method url : String) (body : Option String) (client : Client) (req : Request)
    (hsent : Event.Do client req ∈ (sendRequest cred httpClient net method url body).2) :
    ∃ token, getToken cred = (token, none) ∧ client = httpClient ∧
      req.Method = method ∧ req.URL = url ∧ req.Body = body ∧
      req.Header = (if body.isSome then
          (Header.Set [] "Authorization" ("Bearer " ++ token)).Set "Content-Type"
            "application/json"
        else Header.Set [] "Authorization" ("Bearer " ++ token)) ∧
      sendRequest cred httpClient net method url body =
        (match net.roundTrip client req with
          | .error err => ((none, some ("发送请求失败: " ++ err)), [.Do client req])
          | .ok resp =>
            match ReadAll resp.Body with
            | (_, some err) => ((none, some ("读取响应失败: " ++ err)), [.Do client req, .ReadAll])
            | (responseBody, none) =>
              if resp.StatusCode < 200 ∨ resp.StatusCode ≥ 300 then
                ((none, some ("请求失败，状态码: " ++ fmtD resp.StatusCode ++ ", 响应: "
                  ++ responseBody)), [.Do client req, .ReadAll])
              else ((some responseBody, none), [.Do client req, .ReadAll])) := by
  simp only [sendRequest] at hsent ⊢
  generalize getToken cred = t at hsent ⊢
  rcases t with ⟨token, _ | terr⟩
  · refine ⟨token, rfl, ?_⟩
    simp only [NewRequest] at hsent ⊢
    generalize net.newRequestErr method url = n at hsent ⊢
    rcases n with _ | nerr
    · simp only [] at hsent ⊢
      generalize hreq : (if body.isSome = true then _ else _ : Request) = built at hsent ⊢
      have hc : client = httpClient ∧ req = built := by
        generalize net.roundTrip httpClient built = r at hsent
        rcases r with derr | resp0
        · simpa using hsent
        · simp only [] at hsent
          generalize ReadAll resp0.Body = rb at hsent
          rcases rb with ⟨data, _ | rerr⟩
          · simp only [] at hsent
            split_ifs at hsent <;> simpa using hsent
          · simpa using hsent
      obtain ⟨rfl, rfl⟩ := hc
      refine ⟨rfl, ?_, ?_, ?_, ?_, rfl⟩ <;> subst hreq <;> cases body <;> simp
    · simp at hsent
  · simp at hsent

/-- C1: whenever the answer to the request that `sendRequest` sent has a status
code outside [200,300), the call returns a nil payload together with a non-nil
error, never the response bytes. -/
theorem sendRequest_non2xx_is_error (cred : Credential) (httpClient : Client) (net : Net)
    (method url : String) (body : Option String)
    (client : Client) (req : Request) (resp : Response)
    (hsent : Event.Do client req ∈ (sendRequest cred httpClient net method url body).2)
    (hresp : net.roundTrip client req = .ok resp)
    (hstatus : resp.StatusCode < 200 ∨ 300 ≤ resp.StatusCode) :
    (sendRequest cred httpClient net method url body).1.1 = none ∧
      (sendRequest cred httpClient net method url body).1.2 ≠ none := by
  simp only [sendRequest] at hsent ⊢
  generalize getToken cred = t at hsent ⊢
  rcases t with ⟨token, _ | terr⟩
  · generalize NewRequest net method url body = n at hsent ⊢
    rcases n with nerr | req0
    · simp at hsent
    · simp only [] at hsent ⊢
      generalize hreq : (if body.isSome = true then _ else _ : Request) = built at hsent ⊢
      generalize hdo : net.roundTrip httpClient built = r at hsent ⊢
      rcases r with derr | resp0
      · simp
      · simp only [] at hsent ⊢
        generalize ReadAll resp0.Body = rb at hsent ⊢
        rcases rb with ⟨data, _ | rerr⟩
        · simp only [] at hsent ⊢
          split_ifs at hsent ⊢ with hno
          · simp
          · simp only [List.mem_cons, Event.Do.injEq, List.mem_singleton, reduceCtorEq,
              or_false, List.not_mem_nil] at hsent
            obtain ⟨rfl, rfl⟩ := hsent
            rw [hdo] at hresp
            cases hresp
            exact absurd (by omega) hno
        · simp
  · simp

/-- Witness of C1: a 429 answer to a GET request. -/
theorem sendRequest_non2xx_is_error_witness :
    (Event.Do httpClient
        { Method := "GET", URL := "https://management.azure.com/x", Body := none,
          Header := [("Authorization", "Bearer tok")] } ∈
      (sendRequest Sample.cred httpClient (Sample.net 429 Sample.throttled) "GET"
        "https://management.azure.com/x" none).2) ∧
    ((429 : Int) < 200 ∨ (300 : Int) ≤ 429) ∧
    (sendRequest Sample.cred httpClient (Sample.net 429 Sample.throttled) "GET"
        "https://management.azure.com/x" none).1.1 = none ∧
    (sendRequest Sample.cred httpClient (Sample.net 429 Sample.throttled) "GET"
        "https://management.azure.com/x" none).1.2 ≠ none :=
  ⟨by decide, by decide,
    sendRequest_non2xx_is_error Sample.cred httpClient (Sample.net 429 Sample.throttled) "GET"
      "https://management.azure.com/x" none httpClient
      { Method := "GET", URL := "https://management.azure.com/x", Body := none,
        Header := [("Authorization", "Bearer tok")] }
      { StatusCode := 429, Body := { data := Sample.throttled } }
      (by decide) rfl (by decide)⟩

/-- C2: when the answer to the request that `sendRequest` sent has a status code
`s` outside [200,300) and a body that reads as `b`, the error of the call is the
fixed text followed by `s` in decimal, a separator and `b` itself, so it carries
both the status code and the whole body. -/
theorem sendRequest_error_carries_status_and_body (cred : Credential) (httpClient : Client)
    (net : Net) (method url : String) (body : Option String)
    (client : Client) (req : Request) (resp : Response) (b : String)
    (hsent : Event.Do client req ∈ (sendRequest cred httpClient net method url body).2)
    (hresp : net.roundTrip client req = .ok resp)
    (hbody : ReadAll resp.Body = (b, none))
    (hstatus : resp.StatusCode < 200 ∨ 300 ≤ resp.StatusCode) :
    (sendRequest cred httpClient net method url body).1 =
        (none, some ("请求失败，状态码: " ++ fmtD resp.StatusCode ++ ", 响应: " ++ b)) ∧
      Carries ("请求失败，状态码: " ++ fmtD resp.StatusCode ++ ", 响应: " ++ b)
        (fmtD resp.StatusCode) ∧
      Carries ("请求失败，状态码: " ++ fmtD resp.StatusCode ++ ", 响应: " ++ b) b := by
  obtain ⟨token, -, -, -, -, -, -, heq⟩ :=
    sendRequest_sent_inv cred httpClient net method url body client req hsent
  rw [heq, hresp]
  simp only [hbody]
  have hs : resp.StatusCode < 200 ∨ resp.StatusCode ≥ 300 := hstatus
  rw [if_pos hs]
  refine ⟨rfl, ?_, ?_⟩
  · exact ⟨"请求失败，状态码: ".data, (", 响应: " ++ b).data, by simp [String.data_append]⟩
  · exact ⟨("请求失败，状态码: " ++ fmtD resp.StatusCode ++ ", 响应: ").data, [],
      by simp [String.data_append]⟩

/-- Witness of C2: a 429 answer whose body is a throttling notice. -/
theorem sendRequest_error_carries_status_and_body_witness :
    (Event.Do httpClient
        { Method := "GET", URL := "https://management.azure.com/x", Body := none,
          Header := [("Authorization", "Bearer tok")] } ∈
      (sendRequest Sample.cred httpClient (Sample.net 429 Sample.throttled) "GET"
        "https://management.azure.com/x" none).2) ∧
    (sendRequest Sample.cred httpClient (Sample.net 429 Sample.throttled) "GET"
        "https://management.azure.com/x" none).1 =
      (none, some "请求失败，状态码: 429, 响应: \x7b\"error\":\"throttled\"\x7d") :=
  ⟨by decide,
    (sendRequest_error_carries_status_and_body Sample.cred httpClient
      (Sample.net 429 Sample.throttled) "GET" "https://management.azure.com/x" none httpClient
      { Method := "GET", URL := "https://management.azure.com/x", Body := none,
        Header := [("Authorization", "Bearer tok")] }
      { StatusCode := 429, Body := { data := Sample.throttled } } Sample.throttled
      (by decide) rfl rfl (by decide)).1⟩

/-- C5: a request that `sendRequest` sent for a non-nil body carries that body
and the header Content-Type with the value application/json. -/
theorem sendRequest_sets_content_type (cred : Credential) (httpClient : Client) (net : Net)
    (method url b : String) (client : Client) (req : Request)
    (hsent : Event.Do client req ∈ (sendRequest cred httpClient net method url (some b)).2) :
    req.Body = some b ∧ req.Header.Get "Content-Type" = some "application/json" := by
  obtain ⟨token, -, -, -, -, hb, hh, -⟩ :=
    sendRequest_sent_inv cred httpClient net method url (some b) client req hsent
  refine ⟨hb, ?_⟩
  rw [hh]
  simp [Header.Set, Header.Get]

/-- Witness of C5: a PUT request with a body. -/
theorem sendRequest_sets_content_type_witness :
    (Event.Do httpClient
        { Method := "PUT", URL := "https://management.azure.com/x", Body := some "\x7b\x7d",
          Header := [("Authorization", "Bearer tok"), ("Content-Type", "application/json")] } ∈
      (sendRequest Sample.cred httpClient (Sample.net 201 "") "PUT"
        "https://management.azure.com/x" (some "\x7b\x7d")).2) ∧
    Header.Get [("Authorization", "Bearer tok"), ("Content-Type", "application/json")]
      "Content-Type" = some "application/json" :=
  ⟨by decide,
    (sendRequest_sets_content_type Sample.cred httpClient (Sample.net 201 "") "PUT"
      "https://management.azure.com/x" "\x7b\x7d" httpClient
      { Method := "PUT", URL := "https://management.azure.com/x", Body := some "\x7b\x7d",
        Header := [("Authorization", "Bearer tok"), ("Content-Type", "application/json")] }
      (by decide)).2⟩

/-- C6: a request that `sendRequest` sent carries the header Authorization whose
value is "Bearer " followed by exactly the token `getToken` returned in that
call. -/
theorem sendRequest_authorization_is_bearer_token (cred : Credential) (httpClient : Client)
    (net : Net) (method url : String) (body : Option String) (client : Client) (req : Request)
    (hsent : Event.Do client req ∈ (sendRequest cred httpClient net method url body).2) :
    (getToken cred).2 = none ∧
      req.Header.Get "Authorization" = some ("Bearer " ++ (getToken cred).1) := by
  obtain ⟨token, ht, -, -, -, -, hh, -⟩ :=
    sendRequest_sent_inv cred httpClient net method url body client req hsent
  rw [ht, hh]
  cases body <;> simp [Header.Set, Header.Get]

/-- Witness of C6: the token `tok` arrives as `Bearer tok`. -/
theorem sendRequest_authorization_is_bearer_token_witness :
    (Event.Do httpClient
        { Method := "GET", URL := "https://management.azure.com/x", Body := none,
          Header := [("Authorization", "Bearer tok")] } ∈
      (sendRequest Sample.cred httpClient (Sample.net 200 "ok") "GET"
        "https://management.azure.com/x" none).2) ∧
    Header.Get [("Authorization", "Bearer tok")] "Authorization" =
      some ("Bearer " ++ (getToken Sample.cred).1) :=
  ⟨by decide,
    (sendRequest_authorization_is_bearer_token Sample.cred httpClient (Sample.net 200 "ok") "GET"
      "https://management.azure.com/x" none httpClient
      { Method := "GET", URL := "https://management.azure.com/x", Body := none,
        Header := [("Authorization", "Bearer tok")] }
      (by decide)).2⟩

/-- C7: when `getToken` fails with the error `err`, `sendRequest` returns a nil
payload and that same error, which wraps the error of the credential, and no
request is sent. -/
theorem sendRequest_token_failure (cred : Credential) (httpClient : Client) (net : Net)
    (method url : String) (body : Option String) (err : GoError)
    (hfail : (getToken cred).2 = some err) :
    sendRequest cred httpClient net method url body = ((none, some err), []) ∧
      ∃ cause, cred.GetToken ["https://management.azure.com/.default"] = .error cause ∧
        err = "获取令牌失败: " ++ cause := by
  constructor
  · simp only [sendRequest]
    generalize getToken cred = t at hfail ⊢
    rcases t with ⟨token, _ | terr⟩
    · simp at hfail
    · simp only [Option.some.injEq] at hfail
      subst hfail
      rfl
  · simp only [getToken] at hfail
    generalize cred.GetToken ["https://management.azure.com/.default"] = g at hfail ⊢
    rcases g with cause | token
    · simp only [Option.some.injEq] at hfail
      exact ⟨cause, rfl, hfail.symm⟩
    · simp at hfail

/-- Witness of C7: a credential the identity provider rejects. -/
theorem sendRequest_token_failure_witness :
    (getToken Sample.badCred).2 = some "获取令牌失败: invalid client secret" ∧
    sendRequest Sample.badCred httpClient (Sample.net 200 "ok") "GET"
        "https://management.azure.com/x" none =
      ((none, some "获取令牌失败: invalid client secret"), []) :=
  ⟨by decide,
    (sendRequest_token_failure Sample.badCred httpClient (Sample.net 200 "ok") "GET"
      "https://management.azure.com/x" none "获取令牌失败: invalid client secret"
      (by decide)).1⟩

end SearchDemo

namespace Translator

/-- Helper: a request that `translateText` sent went through a client built
with no field set, and its answer decides the results of the call. -/
theorem translateText_sent_inv (codec : Json.Codec TranslationResponse) (net : Net)
    (text targetLang subscriptionKey location : String) (client : Client) (req : Request)
    (hsent : Event.Do client req ∈
      (translateText codec net text targetLang subscriptionKey location).2) :
    client = {} ∧
      codec.Marshal (.arr [.obj [("Text", .str text)]]) = .ok (req.Body.getD "") ∧
      req.Body ≠ none ∧
      ∀ resp, net.roundTrip client req = .ok resp → resp.StatusCode ≠ StatusOK →
        translateText codec net text targetLang subscriptionKey location =
          (some ("", some ("API返回非成功状态码: " ++ fmtD resp.StatusCode)),
            [.Do client req]) := by
  simp only [translateText, List.map_cons, List.map_nil, TranslationRequest.toJSON] at hsent ⊢
  generalize codec.Marshal _ = m at hsent ⊢
  rcases m with merr | bodyBytes
  · simp at hsent
  · simp only [NewRequest] at hsent ⊢
    generalize net.newRequestErr _ _ = n at hsent ⊢
    rcases n with _ | nerr
    · simp only [] at hsent ⊢
      generalize hreq : (Request.mk _ _ _ _) = built at hsent ⊢
      have hc : client = {} ∧ req = built := by
        generalize net.roundTrip _ built = r at hsent
        rcases r with derr | resp0
        · simpa using hsent
        · simp only [] at hsent
          split_ifs at hsent
          · simpa using hsent
          · generalize ReadAll resp0.Body = rb at hsent
            rcases rb with ⟨data, _ | rerr⟩
            · simp only [] at hsent
              generalize codec.Unmarshal data = u at hsent
              rcases u with uerr | tr
              · simpa using hsent
              · simp only [] at hsent
                split at hsent
                · simpa using hsent
                · simpa using hsent
                · split at hsent <;> simpa using hsent
            · simpa using hsent
      obtain ⟨rfl, rfl⟩ := hc
      refine ⟨rfl, ?_, ?_, ?_⟩
      · subst hreq; rfl
      · subst hreq; simp
      · intro resp hresp hstatus
        rw [hresp]
        simp only []
        rw [if_pos hstatus]
    · simp at hsent

/-- C3, the claim refuted: a 429 answer with a throttling notice as body makes
`translateText` return the empty string and an error that names the status
code 429 and holds nothing of the body. -/
theorem translateText_error_omits_body :
    (translateText (Sample.codec TranslationResponse) (Sample.net 429 Sample.throttled)
        "Hello, world!" "ko" "key" "eastasia").1 =
      some ("", some "API返回非成功状态码: 429") ∧
    ¬ ∃ err,
      (translateText (Sample.codec TranslationResponse) (Sample.net 429 Sample.throttled)
        "Hello, world!" "ko" "key" "eastasia").1 = some ("", some err) ∧
      Carries err "429" ∧ Carries err Sample.throttled := by
  have h : (translateText (Sample.codec TranslationResponse) (Sample.net 429 Sample.throttled)
        "Hello, world!" "ko" "key" "eastasia").1 =
      some ("", some "API返回非成功状态码: 429") := by decide
  refine ⟨h, ?_⟩
  rintro ⟨err, he, -, hb⟩
  rw [h] at he
  simp only [Option.some.injEq, Prod.mk.injEq, true_and] at he
  subst he
  revert hb
  decide

/-- C3 as amended: when the answer to the request that `translateText` sent has a
status code other than 200, the call returns the empty string and the error
made of the fixed text followed by the status code in decimal; the body of the
answer is not read. -/
theorem translateText_non200_error (codec : Json.Codec TranslationResponse) (net : Net)
    (text targetLang subscriptionKey location : String)
    (client : Client) (req : Request) (resp : Response)
    (hsent : Event.Do client req ∈
      (translateText codec net text targetLang subscriptionKey location).2)
    (hresp : net.roundTrip client req = .ok resp)
    (hstatus : resp.StatusCode ≠ 200) :
    (translateText codec net text targetLang subscriptionKey location).1 =
        some ("", some ("API返回非成功状态码: " ++ fmtD resp.StatusCode)) ∧
      Carries ("API返回非成功状态码: " ++ fmtD resp.StatusCode) (fmtD resp.StatusCode) ∧
      Event.ReadAll ∉ (translateText codec net text targetLang subscriptionKey location).2 := by
  obtain ⟨-, -, -, h⟩ :=
    translateText_sent_inv codec net text targetLang subscriptionKey location client req hsent
  rw [h resp hresp hstatus]
  refine ⟨rfl, ?_, by simp⟩
  exact ⟨"API返回非成功状态码: ".data, [], by simp [String.data_append]⟩

/-- Witness of the amended C3: a 429 answer. -/
theorem translateText_non200_error_witness :
    (Event.Do {}
        { Method := "POST",
          URL := "https://api.cognitive.microsofttranslator.com/translate?api-version=3.0&to=ko",
          Body := some "[\x7b\"Text\":\"Hello, world!\"\x7d]",
          Header := [("Ocp-Apim-Subscription-Key", "key"),
            ("Ocp-Apim-Subscription-Region", "eastasia"),
            ("Content-Type", "application/json")] } ∈
      (translateText (Sample.codec TranslationResponse) (Sample.net 429 Sample.throttled)
        "Hello, world!" "ko" "key" "eastasia").2) ∧
    (429 : Int) ≠ 200 ∧
    (translateText (Sample.codec TranslationResponse) (Sample.net 429 Sample.throttled)
        "Hello, world!" "ko" "key" "eastasia").1 =
      some ("", some "API返回非成功状态码: 429") :=
  ⟨by decide, by decide,
    (translateText_non200_error (Sample.codec TranslationResponse)
      (Sample.net 429 Sample.throttled) "Hello, world!" "ko" "key" "eastasia" {}
      { Method := "POST",
        URL := "https://api.cognitive.microsofttranslator.com/translate?api-version=3.0&to=ko",
        Body := some "[\x7b\"Text\":\"Hello, world!\"\x7d]",
        Header := [("Ocp-Apim-Subscription-Key", "key"),
          ("Ocp-Apim-Subscription-Region", "eastasia"),
          ("Content-Type", "application/json")] }
      { StatusCode := 429, Body := { data := Sample.throttled } }
      (by decide) rfl (by decide)).1⟩

end Translator

namespace ContentSafety

/-- Helper: a request that `analyzeText` sent went through a client built with
no field set, its body is the encoding of the document with the one key
`text`, and its answer decides the results of the call. -/
theorem analyzeText_sent_inv (codec : Json.Codec ContentSafetyResponse) (net : Net)
    (endpoint apiKey text : String) (client : Client) (req : Request)
    (hsent : Event.Do client req ∈ (analyzeText codec net endpoint apiKey text).2) :
    client = {} ∧
      (∃ jsonData, codec.Marshal (.obj [("text", .str text)]) = .ok jsonData ∧
        req.Body = some jsonData) ∧
      ∀ resp, net.roundTrip client req = .ok resp → resp.StatusCode ≠ StatusOK →
        analyzeText codec net endpoint apiKey text =
          (match ReadAll resp.Body with
            | (_, some err) => ((none, some ("读取响应失败: " ++ err)), [.Do client req, .ReadAll])
            | (body, none) =>
              ((none, some ("API返回错误: " ++ body ++ ", 状态码: " ++ fmtD resp.StatusCode)),
                [.Do client req, .ReadAll])) := by
  simp only [analyzeText, ContentSafetyRequest.toJSON] at hsent ⊢
  generalize codec.Marshal _ = m at hsent ⊢
  rcases m with merr | jsonData
  · simp at hsent
  · simp only [NewRequest] at hsent ⊢
    generalize net.newRequestErr _ _ = n at hsent ⊢
    rcases n with _ | nerr
    · simp only [] at hsent ⊢
      generalize hreq : (Request.mk _ _ _ _) = built at hsent ⊢
      have hc : client = {} ∧ req = built := by
        generalize net.roundTrip _ built = r at hsent
        rcases r with derr | resp0
        · simpa using hsent
        · simp only [] at hsent
          generalize ReadAll resp0.Body = rb at hsent
          rcases rb with ⟨data, _ | rerr⟩
          · simp only [] at hsent
            split_ifs at hsent
            · simpa using hsent
            · generalize codec.Unmarshal data = u at hsent
              rcases u with uerr | result <;> simpa using hsent
          · simpa using hsent
      obtain ⟨rfl, rfl⟩ := hc
      refine ⟨rfl, ⟨jsonData, rfl, ?_⟩, ?_⟩
      · subst hreq; rfl
      · intro resp hresp hstatus
        rw [hresp]
        simp only []
        generalize ReadAll resp.Body = rb
        rcases rb with ⟨data, _ | rerr⟩
        · simp only []
          rw [if_pos hstatus]
        · rfl
    · simp at hsent

/-- C4: every request that `analyzeText` sends has as body the encoding of the
JSON object whose one key `text` holds the text to analyse; and when the answer
to it has a status code other than 200, the call returns a nil result and a
non-nil error without any call of `json.Unmarshal`, the error being, for a body
that reads as `b`, the fixed text followed by `b` itself, a separator and the
status code in decimal. -/
theorem analyzeText_non200_error (codec : Json.Codec ContentSafetyResponse) (net : Net)
    (endpoint apiKey text : String) (client : Client) (req : Request)
    (hsent : Event.Do client req ∈ (analyzeText codec net endpoint apiKey text).2) :
    (∃ jsonData, codec.Marshal (.obj [("text", .str text)]) = .ok jsonData ∧
        req.Body = some jsonData) ∧
      ∀ resp, net.roundTrip client req = .ok resp → resp.StatusCode ≠ 200 →
        ((analyzeText codec net endpoint apiKey text).1.1.isNone = true ∧
          (analyzeText codec net endpoint apiKey text).1.2 ≠ none ∧
          (∀ data, Event.Unmarshal data ∉ (analyzeText codec net endpoint apiKey text).2)) ∧
        ∀ b, ReadAll resp.Body = (b, none) →
          (analyzeText codec net endpoint apiKey text).1.2 =
              some ("API返回错误: " ++ b ++ ", 状态码: " ++ fmtD resp.StatusCode) ∧
            Carries ("API返回错误: " ++ b ++ ", 状态码: " ++ fmtD resp.StatusCode)
              (fmtD resp.StatusCode) ∧
            Carries ("API返回错误: " ++ b ++ ", 状态码: " ++ fmtD resp.StatusCode) b := by
  obtain ⟨-, hjson, h⟩ := analyzeText_sent_inv codec net endpoint apiKey text client req hsent
  refine ⟨hjson, ?_⟩
  intro resp hresp hstatus
  rw [h resp hresp hstatus]
  constructor
  · generalize ReadAll resp.Body = rb
    rcases rb with ⟨data, _ | rerr⟩ <;> simp
  · intro b hb
    rw [hb]
    refine ⟨rfl, ?_, ?_⟩
    · exact ⟨("API返回错误: " ++ b ++ ", 状态码: ").data, [], by simp [String.data_append]⟩
    · exact ⟨"API返回错误: ".data, (", 状态码: " ++ fmtD resp.StatusCode).data,
        by simp [String.data_append]⟩

/-- Witness of C4: the text `hi` sent to an endpoint that answers 429 with a
throttling notice. -/
theorem analyzeText_non200_error_witness :
    (Event.Do {}
        { Method := "POST",
          URL := "https://x.cognitiveservices.azure.com/contentsafety/text:analyze?api-version=2023-10-01",
          Body := some "\x7b\"text\":\"hi\"\x7d",
          Header := [("Content-Type", "application/json"),
            ("Ocp-Apim-Subscription-Key", "key")] } ∈
      (analyzeText (Sample.codec ContentSafetyResponse) (Sample.net 429 Sample.throttled)
        "https://x.cognitiveservices.azure.com" "key" "hi").2) ∧
    (429 : Int) ≠ 200 ∧
    (analyzeText (Sample.codec ContentSafetyResponse) (Sample.net 429 Sample.throttled)
        "https://x.cognitiveservices.azure.com" "key" "hi").1.2 =
      some "API返回错误: \x7b\"error\":\"throttled\"\x7d, 状态码: 429" :=
  ⟨by decide, by decide,
    ((((analyzeText_non200_error (Sample.codec ContentSafetyResponse)
      (Sample.net 429 Sample.throttled) "https://x.cognitiveservices.azure.com" "key" "hi" {}
      { Method := "POST",
        URL := "https://x.cognitiveservices.azure.com/contentsafety/text:analyze?api-version=2023-10-01",
        Body := some "\x7b\"text\":\"hi\"\x7d",
        Header := [("Content-Type", "application/json"),
          ("Ocp-Apim-Subscription-Key", "key")] }
      (by decide)).2
      { StatusCode := 429, Body := { data := Sample.throttled } } rfl (by decide)).2
      Sample.throttled rfl).1)⟩

end ContentSafety

/-- C8, the claim refuted: the client through which `translateText` sends its
request, and the one through which `analyzeText` sends its request, have the
timeout zero, with which a Go client waits without limit. -/
theorem client_without_timeout :
    (∃ client req,
        Event.Do client req ∈
          (Translator.translateText (Sample.codec Translator.TranslationResponse)
            (Sample.net 200 "[]") "Hello, world!" "ko" "key" "eastasia").2 ∧
        client.Timeout = 0) ∧
    (∃ client req,
        Event.Do client req ∈
          (ContentSafety.analyzeText (Sample.codec ContentSafety.ContentSafetyResponse)
            (Sample.net 200 "\x7b\x7d") "https://x.cognitiveservices.azure.com" "key" "hi").2 ∧
        client.Timeout = 0) := by
  refine ⟨⟨{}, _, List.mem_cons_self _ _, rfl⟩, ⟨{}, _, List.mem_cons_self _ _, rfl⟩⟩

/-- C8 as amended: the client `main` of the search demo stores in `httpClient`
has a timeout of 30 seconds, a positive number of nanoseconds, and every request
`sendRequest` sends goes through the global client; every request that
`translateText` or `analyzeText` sends goes through a client whose timeout is
zero, that is, without a timeout. -/
theorem client_timeouts :
    (SearchDemo.httpClient.Timeout = 30 * 1000000000 ∧ 0 < SearchDemo.httpClient.Timeout) ∧
    (∀ (cred : SearchDemo.Credential) (httpClient : Client) (net : Net) (method url : String)
        (body : Option String) (client : Client) (req : Request),
        Event.Do client req ∈ (SearchDemo.sendRequest cred httpClient net method url body).2 →
        client = httpClient) ∧
    (∀ (codec : Json.Codec Translator.TranslationResponse) (net : Net)
        (text targetLang subscriptionKey location : String) (client : Client) (req : Request),
        Event.Do client req ∈
          (Translator.translateText codec net text targetLang subscriptionKey location).2 →
        client.Timeout = 0) ∧
    (∀ (codec : Json.Codec ContentSafety.ContentSafetyResponse) (net : Net)
        (endpoint apiKey text : String) (client : Client) (req : Request),
        Event.Do client req ∈ (ContentSafety.analyzeText codec net endpoint apiKey text).2 →
        client.Timeout = 0) := by
  refine ⟨⟨by decide, by decide⟩, ?_, ?_, ?_⟩
  · intro cred httpClient net method url body client req hsent
    obtain ⟨_, -, hc, -⟩ :=
      SearchDemo.sendRequest_sent_inv cred httpClient net method url body client req hsent
    exact hc
  · intro codec net text targetLang subscriptionKey location client req hsent
    rw [(Translator.translateText_sent_inv codec net text targetLang subscriptionKey location
      client req hsent).1]
  · intro codec net endpoint apiKey text client req hsent
    rw [(ContentSafety.analyzeText_sent_inv codec net endpoint apiKey text client req hsent).1]

/-- Witness of the amended C8: the three clients at work on sample requests. -/
theorem client_timeouts_witness :
    (Event.Do SearchDemo.httpClient
        { Method := "GET", URL := "https://management.azure.com/x", Body := none,
          Header := [("Authorization", "Bearer tok")] } ∈
      (SearchDemo.sendRequest Sample.cred SearchDemo.httpClient (Sample.net 200 "ok") "GET"
        "https://management.azure.com/x" none).2) ∧
    SearchDemo.httpClient.Timeout = 30000000000 ∧
    (Event.Do {}
        { Method := "POST",
          URL := "https://x.cognitiveservices.azure.com/contentsafety/text:analyze?api-version=2023-10-01",
          Body := some "\x7b\"text\":\"hi\"\x7d",
          Header := [("Content-Type", "application/json"),
            ("Ocp-Apim-Subscription-Key", "key")] } ∈
      (ContentSafety.analyzeText (Sample.codec ContentSafety.ContentSafetyResponse)
        (Sample.net 429 Sample.throttled) "https://x.cognitiveservices.azure.com" "key" "hi").2) ∧
    ({} : Client).Timeout = 0 :=
  ⟨by decide, client_timeouts.1.1,
    by decide,
    client_timeouts.2.2.2 (Sample.codec ContentSafety.ContentSafetyResponse)
      (Sample.net 429 Sample.throttled) "https://x.cognitiveservices.azure.com" "key" "hi" {}
      { Method := "POST",
        URL := "https://x.cognitiveservices.azure.com/contentsafety/text:analyze?api-version=2023-10-01",
        Body := some "\x7b\"text\":\"hi\"\x7d",
        Header := [("Content-Type", "application/json"),
          ("Ocp-Apim-Subscription-Key", "key")] }
      (by decide)⟩

/-! ## Theorems: the paging loops -/

namespace Sdk

/-- Helper: a range loop none of whose iterations stops early prints the texts
of its iterations one after the other. -/
theorem rangeOver_complete {α : Type} (body : α → List String × Bool) (page : List α)
    (h : ∀ v ∈ page, (body v).2 = true) :
    rangeOver body page = (page.flatMap (fun v => (body v).1), true) := by
  induction page with
  | nil => rfl
  | cons v rest ih =>
    have hv := h v (List.mem_cons_self _ _)
    have ih := ih (fun w hw => h w (List.mem_cons_of_mem _ hw))
    rcases hb : body v with ⟨out, ok⟩
    rw [hb] at hv
    simp only at hv
    subst hv
    simp [rangeOver, hb, ih]

/-- Helper: the texts printed by two runs of steps, one after the other. -/
theorem printed_append (a b : List Step) : printed (a ++ b) = printed a ++ printed b := by
  simp [printed]

/-- Helper: a run of print steps prints its texts. -/
theorem printed_map_print (out : List String) : printed (out.map .Print) = out := by
  induction out with
  | nil => rfl
  | cons o rest ih =>
    simp only [printed, List.map_cons, List.filterMap_cons] at ih ⊢
    rw [ih]

/-- Helper: a run of print steps calls `NextPage` not once. -/
theorem nextPageCalls_map_print (out : List String) :
    nextPageCalls (out.map .Print) = 0 := by
  induction out with
  | nil => rfl
  | cons o rest ih =>
    simp only [nextPageCalls, List.map_cons] at ih ⊢
    rw [List.count_cons, ih]
    simp

/-- Helper: one round of a paging loop, followed by steps that keep to the
protocol and do not start with a call of `NextPage`, keeps to the protocol. -/
theorem chain_round (out : List String) (rest : List Step)
    (hrest : List.Chain' Step.Follows rest)
    (hhead : ∀ y ∈ rest.head?, ∃ b, y = Step.More b) :
    List.Chain' Step.Follows ([.More true, .NextPage] ++ out.map .Print ++ rest) := by
  have aux : ∀ (out : List String) (a : Step), a ≠ .More false →
      List.Chain' Step.Follows (a :: (out.map .Print ++ rest)) := by
    intro out
    induction out with
    | nil =>
      intro a ha
      rw [List.map_nil, List.nil_append, List.chain'_cons']
      refine ⟨?_, hrest⟩
      intro y hy
      obtain ⟨b, rfl⟩ := hhead y hy
      exact ⟨(by intro h; cases h), ha⟩
    | cons o os ih =>
      intro a ha
      rw [List.map_cons, List.cons_append, List.chain'_cons']
      refine ⟨?_, ih (.Print o) (by intro h; cases h)⟩
      intro y hy
      simp only [List.head?_cons, Option.mem_def, Option.some.injEq] at hy
      subst hy
      exact ⟨(by intro h; cases h), ha⟩
  show List.Chain' Step.Follows (.More true :: .NextPage :: (out.map .Print ++ rest))
  rw [List.chain'_cons']
  refine ⟨?_, aux out .NextPage (by intro h; cases h)⟩
  intro y hy
  simp only [List.head?_cons, Option.mem_def, Option.some.injEq] at hy
  subst hy
  exact ⟨fun _ => rfl, (by intro h; cases h)⟩

/-- Helper: what the rounds of a paging loop over `pages` print, when the
iteration for an element prints `f` of it. -/
theorem printed_rounds {α : Type} (f : α → List String) (pages : List (List α)) :
    printed (pages.flatMap (fun page => [Step.More true, Step.NextPage] ++
        (page.flatMap f).map Step.Print) ++ [Step.More false]) =
      pages.flatten.flatMap f := by
  induction pages with
  | nil => rfl
  | cons page rest ih =>
    rw [List.flatMap_cons, List.append_assoc, printed_append, ih, printed_append,
      printed_map_print, List.flatten_cons, List.flatMap_append]
    rfl

/-- Helper: the rounds of a paging loop over `pages` call `NextPage` once for
each page. -/
theorem nextPageCalls_rounds {α : Type} (f : α → List String) (pages : List (List α)) :
    nextPageCalls (pages.flatMap (fun page => [Step.More true, Step.NextPage] ++
        (page.flatMap f).map Step.Print) ++ [Step.More false]) =
      pages.length := by
  induction pages with
  | nil => rfl
  | cons page rest ih =>
    simp only [nextPageCalls] at ih ⊢
    rw [List.flatMap_cons, List.append_assoc, List.count_append, ih, List.count_append]
    have h := nextPageCalls_map_print (page.flatMap f)
    simp only [nextPageCalls] at h
    rw [h, List.length_cons]
    have h2 : List.count Step.NextPage [Step.More true, Step.NextPage] = 1 := by decide
    rw [h2]
    omega

end Sdk

namespace NodePool

/-- Helper: on an element with all fields set the loop body runs to its end. -/
theorem listNodePools_body_of_complete (v : Option AgentPool) (h : AgentPool.Complete v) :
    (listNodePools.body v).2 = true := by
  obtain ⟨name, count, vmSize, mode, properties, rfl⟩ := h
  rfl

/-- Helper: the steps of the loop of `listNodePools` over a pager that hands
out `pages`, when no iteration stops early and the rounds suffice. -/
theorem listNodePools_loop_of_yields {σ : Type} (pager : Pager σ (Option AgentPool)) :
    ∀ (pages : List (List (Option AgentPool))) (s : σ) (fuel : Nat),
      pager.Yields s pages →
      (∀ page ∈ pages, ∀ v ∈ page, (listNodePools.body v).2 = true) →
      pages.length < fuel →
      listNodePools.loop pager fuel s =
        (pages.flatMap (fun page => [Step.More true, Step.NextPage] ++
            (page.flatMap (fun v => (listNodePools.body v).1)).map Step.Print) ++
          [Step.More false], some (.returned none)) := by
  intro pages
  induction pages with
  | nil =>
    intro s fuel hy _ hf
    obtain ⟨f, rfl⟩ : ∃ f, fuel = f + 1 := ⟨fuel - 1, by simp at hf; omega⟩
    simp only [Pager.Yields] at hy
    simp [listNodePools.loop, hy]
  | cons page rest ih =>
    intro s fuel hy hc hf
    obtain ⟨f, rfl⟩ : ∃ f, fuel = f + 1 := ⟨fuel - 1, by simp at hf; omega⟩
    obtain ⟨hm, hn, hy⟩ := hy
    rcases hnp : pager.NextPage s with ⟨r, s'⟩
    rw [hnp] at hn hy
    simp only at hn hy
    subst hn
    have hr := rangeOver_complete listNodePools.body page (hc page (List.mem_cons_self _ _))
    have ih := ih s' f hy (fun q hq => hc q (List.mem_cons_of_mem _ hq))
      (by simp at hf; omega)
    simp [listNodePools.loop, hm, hnp, hr, ih]

/-- Helper: the loop of `listNodePools` keeps to the protocol of the pager and
starts, if it takes a step at all, with a call of `More`. -/
theorem listNodePools_loop_chain {σ : Type} (pager : Pager σ (Option AgentPool)) :
    ∀ (fuel : Nat) (s : σ),
      List.Chain' Step.Follows (listNodePools.loop pager fuel s).1 ∧
      ∀ y ∈ (listNodePools.loop pager fuel s).1.head?, ∃ b, y = Step.More b := by
  intro fuel
  induction fuel with
  | zero => intro s; simp [listNodePools.loop]
  | succ f ih =>
    intro s
    simp only [listNodePools.loop]
    split_ifs with hm
    · rcases hnp : pager.NextPage s with ⟨r, s'⟩
      rcases r with err | nextResult
      · simp only []
        refine ⟨?_, by simp⟩
        have := chain_round [] [] List.chain'_nil (by simp)
        simpa using this
      · simp only []
        rcases hr : rangeOver listNodePools.body nextResult with ⟨out, ok⟩
        cases ok
        · simp only []
          refine ⟨?_, by simp⟩
          have := chain_round out [] List.chain'_nil (by simp)
          simpa using this
        · simp only []
          exact ⟨chain_round out _ (ih s').1 (ih s').2, by simp⟩
    · refine ⟨List.chain'_singleton _, by simp⟩

end NodePool

namespace Create

/-- Helper: on an element with all fields set the loop body runs to its end. -/
theorem main_body_of_complete (v : Option ManagedCluster) (h : ManagedCluster.Complete v) :
    (main.body v).2 = true := by
  obtain ⟨name, location, state, properties, rfl⟩ := h
  rfl

/-- Helper: the steps of the loop of `main` over a pager that hands out
`pages`, when no iteration stops early and the rounds suffice. -/
theorem main_loop_of_yields {σ : Type} (pager : Pager σ (Option ManagedCluster)) :
    ∀ (pages : List (List (Option ManagedCluster))) (s : σ) (fuel : Nat),
      pager.Yields s pages →
      (∀ page ∈ pages, ∀ v ∈ page, (main.body v).2 = true) →
      pages.length < fuel →
      main.loop pager fuel s =
        (pages.flatMap (fun page => [Step.More true, Step.NextPage] ++
            (page.flatMap (fun v => (main.body v).1)).map Step.Print) ++
          [Step.More false], some (.returned none)) := by
  intro pages
  induction pages with
  | nil =>
    intro s fuel hy _ hf
    obtain ⟨f, rfl⟩ : ∃ f, fuel = f + 1 := ⟨fuel - 1, by simp at hf; omega⟩
    simp only [Pager.Yields] at hy
    simp [main.loop, hy]
  | cons page rest ih =>
    intro s fuel hy hc hf
    obtain ⟨f, rfl⟩ : ∃ f, fuel = f + 1 := ⟨fuel - 1, by simp at hf; omega⟩
    obtain ⟨hm, hn, hy⟩ := hy
    rcases hnp : pager.NextPage s with ⟨r, s'⟩
    rw [hnp] at hn hy
    simp only at hn hy
    subst hn
    have hr := rangeOver_complete main.body page (hc page (List.mem_cons_self _ _))
    have ih := ih s' f hy (fun q hq => hc q (List.mem_cons_of_mem _ hq))
      (by simp at hf; omega)
    simp [main.loop, hm, hnp, hr, ih]

end Create

namespace Sdk

/-- Helper: two functions that agree on the elements of a list give the same
texts when mapped over it and joined. -/
theorem flatMap_agree {α : Type} (f g : α → List String) (items : List α)
    (h : ∀ v ∈ items, f v = g v) : items.flatMap f = items.flatMap g := by
  induction items with
  | nil => rfl
  | cons v rest ih =>
    rw [List.flatMap_cons, List.flatMap_cons, h v (List.mem_cons_self _ _),
      ih (fun w hw => h w (List.mem_cons_of_mem _ hw))]

end Sdk

namespace NodePool

/-- Helper: on an element with all fields set the loop body prints the name, the
count, the size and the mode of the element and a separator. -/
theorem listNodePools_body_lines (v : Option AgentPool) (h : AgentPool.Complete v) :
    (listNodePools.body v).1 =
      ["节点池名称: " ++ (v.bind (·.Name)).getD "" ++ "\n",
        "节点数量: " ++ fmtD (((v.bind (·.Properties)).bind (·.Count)).getD 0) ++ "\n",
        "虚拟机规格: " ++ ((v.bind (·.Properties)).bind (·.VMSize)).getD "" ++ "\n",
        "模式: " ++ ((v.bind (·.Properties)).bind (·.Mode)).getD "" ++ "\n",
        "---\n"] := by
  obtain ⟨name, count, vmSize, mode, properties, rfl⟩ := h
  rfl

end NodePool

namespace Create

/-- Helper: on an element with all fields set the loop body prints the name, the
location and the state of the element and a separator. -/
theorem main_body_lines (v : Option ManagedCluster) (h : ManagedCluster.Complete v) :
    (main.body v).1 =
      ["集群名称: " ++ (v.bind (·.Name)).getD "" ++ "\n",
        "位置: " ++ (v.bind (·.Location)).getD "" ++ "\n",
        "状态: " ++ ((v.bind (·.Properties)).bind (·.ProvisioningState)).getD "" ++ "\n",
        "---\n"] := by
  obtain ⟨name, location, state, properties, rfl⟩ := h
  rfl

end Create

/-- C9, the claim refuted: a pager hands out, without an error, two pages with
three node pools, the second of which comes without its count.  `listNodePools`
prints the first pool and the name of the second and then stops on the nil
pointer: the third pool, on the second page, is not processed.  The same
happens in `main` of the create program at a cluster without its location. -/
theorem paging_loop_stops_at_nil_field :
    (Sample.listPager _).Yields Sample.gapPoolPages Sample.gapPoolPages ∧
    Sample.gapPoolPages.length < 3 ∧
    Sample.gapPoolPages.flatten =
      [Sample.pool "p1", Sample.poolWithoutCount "p2", Sample.pool "p3"] ∧
    (NodePool.listNodePools "rg" "learn-ask-tmp1" Sample.gapPoolsClient 3).2 =
      some .panicked ∧
    printed (NodePool.listNodePools "rg" "learn-ask-tmp1" Sample.gapPoolsClient 3).1 =
      ["\n列出所有节点池：\n",
        "节点池名称: p1\n", "节点数量: 2\n", "虚拟机规格: Standard_DS2_v2\n", "模式: User\n",
        "---\n",
        "节点池名称: p2\n"] ∧
    "节点池名称: p3\n" ∉
      printed (NodePool.listNodePools "rg" "learn-ask-tmp1" Sample.gapPoolsClient 3).1 ∧
    (Sample.listPager _).Yields Sample.gapClusterPages Sample.gapClusterPages ∧
    (Create.main (fun _ => "value") "sub" "rg" Sample.gapAzure 3).2 = some .panicked ∧
    printed (Create.main (fun _ => "value") "sub" "rg" Sample.gapAzure 3).1 =
      ["开始创建集群 learn-ask-tmp1...\n", "集群创建成功！\n", "\n列出所有集群：\n",
        "集群名称: c1\n", "位置: eastus\n", "状态: Succeeded\n", "---\n",
        "集群名称: c2\n"] := by
  refine ⟨?_, by decide, rfl, rfl, by decide, by decide, ?_, rfl, by decide⟩
  · simp [Pager.Yields, Sample.listPager, Sample.gapPoolPages]
  · simp [Pager.Yields, Sample.listPager, Sample.gapClusterPages]

/-- C9 as amended: when the pager hands out the finite list `pages` without an
error and every listed element has the pointers set that the loop
dereferences, then, given rounds enough, `listNodePools` returns nil having
printed its heading and then, for every element of every page, once each,
pages in order and elements in their order within the page, the name, the
count, the size and the mode of the element and a separator; and `main` of the
create program, once the cluster is created, ends normally having printed its
three headings and then, in that same order, the name, the location and the
state of every element and a separator. -/
theorem paging_loops_process_all_items :
    (∀ (σ : Type) (resourceGroup clusterName : String) (client : NodePool.AgentPoolsClient σ)
        (pages : List (List (Option NodePool.AgentPool))) (fuel : Nat),
        client.pager.Yields (client.NewListPager resourceGroup clusterName) pages →
        (∀ v ∈ pages.flatten, NodePool.AgentPool.Complete v) →
        pages.length < fuel →
        (NodePool.listNodePools resourceGroup clusterName client fuel).2 =
            some (.returned none) ∧
          printed (NodePool.listNodePools resourceGroup clusterName client fuel).1 =
            "\n列出所有节点池：\n" ::
              pages.flatten.flatMap (fun v =>
                ["节点池名称: " ++ (v.bind (·.Name)).getD "" ++ "\n",
                  "节点数量: " ++
                    fmtD (((v.bind (·.Properties)).bind (·.Count)).getD 0) ++ "\n",
                  "虚拟机规格: " ++ ((v.bind (·.Properties)).bind (·.VMSize)).getD "" ++ "\n",
                  "模式: " ++ ((v.bind (·.Properties)).bind (·.Mode)).getD "" ++ "\n",
                  "---\n"])) ∧
    (∀ (σ : Type) (getenv : String → String) (subscriptionID resourceGroup : String)
        (azure : Create.Azure σ) (poller : Create.Poller)
        (pages : List (List (Option Create.ManagedCluster))) (fuel : Nat),
        azure.NewClientSecretCredential (getenv "AZURE_TENANT_ID") (getenv "AZURE_CLIENT_ID")
          (getenv "AZURE_CLIENT_SECRET") = none →
        azure.NewManagedClustersClient subscriptionID = none →
        (∀ parameters,
          azure.BeginCreateOrUpdate resourceGroup "learn-ask-tmp1" parameters = .ok poller) →
        poller.PollUntilDone = none →
        azure.pager.Yields azure.NewListPager pages →
        (∀ v ∈ pages.flatten, Create.ManagedCluster.Complete v) →
        pages.length < fuel →
        (Create.main getenv subscriptionID resourceGroup azure fuel).2 =
            some (.returned none) ∧
          printed (Create.main getenv subscriptionID resourceGroup azure fuel).1 =
            ["开始创建集群 learn-ask-tmp1...\n", "集群创建成功！\n", "\n列出所有集群：\n"] ++
              pages.flatten.flatMap (fun v =>
                ["集群名称: " ++ (v.bind (·.Name)).getD "" ++ "\n",
                  "位置: " ++ (v.bind (·.Location)).getD "" ++ "\n",
                  "状态: " ++
                    ((v.bind (·.Properties)).bind (·.ProvisioningState)).getD "" ++ "\n",
                  "---\n"])) := by
  constructor
  · intro σ resourceGroup clusterName client pages fuel hy hc hf
    have hloop := NodePool.listNodePools_loop_of_yields client.pager pages _ fuel hy
      (fun page hp v hv => NodePool.listNodePools_body_of_complete v
        (hc v (List.mem_flatten.mpr ⟨page, hp, hv⟩))) hf
    simp only [NodePool.listNodePools, hloop]
    refine ⟨trivial, ?_⟩
    have := printed_rounds (fun v => (NodePool.listNodePools.body v).1) pages
    simp only [printed] at this ⊢
    rw [List.filterMap_cons]
    simp only [this]
    rw [flatMap_agree _ _ _ (fun v hv => NodePool.listNodePools_body_lines v (hc v hv))]
  · intro σ getenv subscriptionID resourceGroup azure poller pages fuel hcred hclient hbegin
      hpoll hy hc hf
    have hloop := Create.main_loop_of_yields azure.pager pages _ fuel hy
      (fun page hp v hv => Create.main_body_of_complete v
        (hc v (List.mem_flatten.mpr ⟨page, hp, hv⟩))) hf
    simp only [Create.main, hcred, hclient, hbegin, hpoll, hloop]
    refine ⟨trivial, ?_⟩
    rw [printed_append, printed_rounds,
      flatMap_agree _ _ _ (fun v hv => Create.main_body_lines v (hc v hv))]
    rfl

/-- Witness of C9: five node pools, and five clusters, on three pages of sizes
2, 2 and 1, with the lines printed for them. -/
theorem paging_loops_process_all_items_witness :
    ((Sample.listPager _).Yields Sample.poolPages Sample.poolPages ∧
      (∀ v ∈ Sample.poolPages.flatten, NodePool.AgentPool.Complete v) ∧
      Sample.poolPages.length < 4 ∧
      (NodePool.listNodePools "rg" "learn-ask-tmp1" Sample.poolsClient 4).2 =
        some (.returned none) ∧
      printed (NodePool.listNodePools "rg" "learn-ask-tmp1" Sample.poolsClient 4).1 =
        ["\n列出所有节点池：\n",
          "节点池名称: p1\n", "节点数量: 2\n", "虚拟机规格: Standard_DS2_v2\n", "模式: User\n",
          "---\n",
          "节点池名称: p2\n", "节点数量: 2\n", "虚拟机规格: Standard_DS2_v2\n", "模式: User\n",
          "---\n",
          "节点池名称: p3\n", "节点数量: 2\n", "虚拟机规格: Standard_DS2_v2\n", "模式: User\n",
          "---\n",
          "节点池名称: p4\n", "节点数量: 2\n", "虚拟机规格: Standard_DS2_v2\n", "模式: User\n",
          "---\n",
          "节点池名称: p5\n", "节点数量: 2\n", "虚拟机规格: Standard_DS2_v2\n", "模式: User\n",
          "---\n"]) ∧
    ((Sample.listPager _).Yields Sample.clusterPages Sample.clusterPages ∧
      (∀ v ∈ Sample.clusterPages.flatten, Create.ManagedCluster.Complete v) ∧
      Sample.clusterPages.length < 4 ∧
      (Create.main (fun _ => "value") "sub" "rg" Sample.azure 4).2 = some (.returned none) ∧
      printed (Create.main (fun _ => "value") "sub" "rg" Sample.azure 4).1 =
        ["开始创建集群 learn-ask-tmp1...\n", "集群创建成功！\n", "\n列出所有集群：\n",
          "集群名称: c1\n", "位置: eastus\n", "状态: Succeeded\n", "---\n",
          "集群名称: c2\n", "位置: eastus\n", "状态: Succeeded\n", "---\n",
          "集群名称: c3\n", "位置: eastus\n", "状态: Succeeded\n", "---\n",
          "集群名称: c4\n", "位置: eastus\n", "状态: Succeeded\n", "---\n",
          "集群名称: c5\n", "位置: eastus\n", "状态: Succeeded\n", "---\n"]) :=
  have hy : (Sample.listPager _).Yields Sample.poolPages Sample.poolPages := by
    simp [Pager.Yields, Sample.listPager, Sample.poolPages]
  have hc : ∀ v ∈ Sample.poolPages.flatten, NodePool.AgentPool.Complete v := by
    intro v hv
    simp only [Sample.poolPages, Sample.pool, List.flatten_cons, List.flatten_nil,
      List.cons_append, List.nil_append, List.append_nil, List.mem_cons, List.mem_singleton,
      List.not_mem_nil, or_false] at hv
    rcases hv with rfl | rfl | rfl | rfl | rfl <;>
      exact ⟨_, _, _, _, { Count := none, VMSize := none, Mode := none }, rfl⟩
  have hy2 : (Sample.listPager _).Yields Sample.clusterPages Sample.clusterPages := by
    simp [Pager.Yields, Sample.listPager, Sample.clusterPages]
  have hc2 : ∀ v ∈ Sample.clusterPages.flatten, Create.ManagedCluster.Complete v := by
    intro v hv
    simp only [Sample.clusterPages, Sample.cluster, List.flatten_cons, List.flatten_nil,
      List.cons_append, List.nil_append, List.append_nil, List.mem_cons, List.mem_singleton,
      List.not_mem_nil, or_false] at hv
    rcases hv with rfl | rfl | rfl | rfl | rfl <;> exact ⟨_, _, _, {}, rfl⟩
  ⟨⟨hy, hc, by decide,
      paging_loops_process_all_items.1 _ "rg" "learn-ask-tmp1" Sample.poolsClient
        Sample.poolPages 4 hy hc (by decide)⟩,
    ⟨hy2, hc2, by decide,
      paging_loops_process_all_items.2 _ (fun _ => "value") "sub" "rg" Sample.azure
        { PollUntilDone := none } Sample.clusterPages 4 rfl rfl (fun _ => rfl) rfl hy2 hc2
        (by decide)⟩⟩

/-- C10, the claim refuted: a pager has two pages, and the second node pool of
the first page comes without its count; `listNodePools` stops on the nil
pointer after one call of `NextPage`, not two. -/
theorem listNodePools_nextPage_once_at_nil_field :
    (Sample.listPager _).Yields Sample.gapPoolPages Sample.gapPoolPages ∧
    Sample.gapPoolPages.length = 2 ∧
    (NodePool.listNodePools "rg" "learn-ask-tmp1" Sample.gapPoolsClient 3).2 =
      some .panicked ∧
    nextPageCalls (NodePool.listNodePools "rg" "learn-ask-tmp1" Sample.gapPoolsClient 3).1 =
      1 := by
  refine ⟨?_, rfl, rfl, by decide⟩
  simp [Pager.Yields, Sample.listPager, Sample.gapPoolPages]

/-- C10 as amended: whatever the pager and however many rounds are run,
`listNodePools` does not start with a call of `NextPage`, every call of
`NextPage` it makes comes directly after a `More` that answered `true`, and it
takes no step at all after a `More` that answered `false`; and when the pager
hands out `n` pages without an error, each element with the pointers set that
the loop dereferences, then, given rounds enough, it returns nil after exactly
`n` calls of `NextPage`. -/
theorem listNodePools_nextPage_protocol {σ : Type} (resourceGroup clusterName : String)
    (client : NodePool.AgentPoolsClient σ) (fuel : Nat) :
    ((NodePool.listNodePools resourceGroup clusterName client fuel).1.head? ≠
          some Step.NextPage ∧
        List.Chain' Step.Follows
          (NodePool.listNodePools resourceGroup clusterName client fuel).1) ∧
      ∀ pages : List (List (Option NodePool.AgentPool)),
        client.pager.Yields (client.NewListPager resourceGroup clusterName) pages →
        (∀ v ∈ pages.flatten, NodePool.AgentPool.Complete v) →
        pages.length < fuel →
        (NodePool.listNodePools resourceGroup clusterName client fuel).2 =
            some (.returned none) ∧
          nextPageCalls (NodePool.listNodePools resourceGroup clusterName client fuel).1 =
            pages.length := by
  constructor
  · refine ⟨by simp [NodePool.listNodePools], ?_⟩
    have h := NodePool.listNodePools_loop_chain client.pager fuel
      (client.NewListPager resourceGroup clusterName)
    simp only [NodePool.listNodePools]
    rw [List.chain'_cons']
    refine ⟨?_, h.1⟩
    intro y hy
    obtain ⟨b, rfl⟩ := h.2 y hy
    exact ⟨(by intro h; cases h), (by intro h; cases h)⟩
  · intro pages hy hc hf
    have hloop := NodePool.listNodePools_loop_of_yields client.pager pages _ fuel hy
      (fun page hp v hv => NodePool.listNodePools_body_of_complete v
        (hc v (List.mem_flatten.mpr ⟨page, hp, hv⟩))) hf
    simp only [NodePool.listNodePools, hloop]
    refine ⟨trivial, ?_⟩
    have := nextPageCalls_rounds (fun v => (NodePool.listNodePools.body v).1) pages
    simp only [nextPageCalls] at this ⊢
    rw [List.count_cons, this]
    simp

/-- Witness of C10: three pages of sizes 2, 2 and 1 take three calls of
`NextPage`. -/
theorem listNodePools_nextPage_protocol_witness :
    (Sample.listPager _).Yields Sample.poolPages Sample.poolPages ∧
    (∀ v ∈ Sample.poolPages.flatten, NodePool.AgentPool.Complete v) ∧
    Sample.poolPages.length < 4 ∧
    (NodePool.listNodePools "rg" "learn-ask-tmp1" Sample.poolsClient 4).2 =
      some (.returned none) ∧
    nextPageCalls (NodePool.listNodePools "rg" "learn-ask-tmp1" Sample.poolsClient 4).1 = 3 :=
  have hy : (Sample.listPager _).Yields Sample.poolPages Sample.poolPages := by
    simp [Pager.Yields, Sample.listPager, Sample.poolPages]
  have hc : ∀ v ∈ Sample.poolPages.flatten, NodePool.AgentPool.Complete v := by
    intro v hv
    simp only [Sample.poolPages, Sample.pool, List.flatten_cons, List.flatten_nil,
      List.cons_append, List.nil_append, List.append_nil, List.mem_cons, List.mem_singleton,
      List.not_mem_nil, or_false] at hv
    rcases hv with rfl | rfl | rfl | rfl | rfl <;>
      exact ⟨_, _, _, _, { Count := none, VMSize := none, Mode := none }, rfl⟩
  ⟨hy, hc, by decide,
    (listNodePools_nextPage_protocol "rg" "learn-ask-tmp1" Sample.poolsClient 4).2
      Sample.poolPages hy hc (by decide)⟩

/-! ## Theorems: the long-running operations -/

/-- C11: in each of `createNetworkSecurityGroup`, `createVirtualNetwork`,
`createNodePool` and `deleteNodePool`, when the begin call the function made
returned a poller and `PollUntilDone` of that poller answers with the error
`err`, the function returns `err` itself, with a nil resource (and an empty
name) where it returns one. -/
theorem poll_error_is_returned :
    (∀ (client : Nsg.SecurityGroupsClient) (resourceGroupName vmName : String)
        (rg name : String) (parameters : Nsg.SecurityGroup) (poller : Poller Nsg.SecurityGroup) (err : GoError),
        Call.BeginCreateOrUpdate [rg, name] parameters ∈
          (Nsg.createNetworkSecurityGroup client resourceGroupName vmName).2 →
        client.BeginCreateOrUpdate rg name parameters = .ok poller →
        poller.PollUntilDone = .error err →
        (Nsg.createNetworkSecurityGroup client resourceGroupName vmName).1 =
          (none, some err)) ∧
    (∀ (client : VirtualMachines.VirtualNetworksClient) (resourceGroupName vmName : String)
        (rg name : String) (parameters : VirtualMachines.VirtualNetwork) (poller : Poller VirtualMachines.VirtualNetwork) (err : GoError),
        Call.BeginCreateOrUpdate [rg, name] parameters ∈
          (VirtualMachines.createVirtualNetwork client resourceGroupName vmName).2 →
        client.BeginCreateOrUpdate rg name parameters = .ok poller →
        poller.PollUntilDone = .error err →
        (VirtualMachines.createVirtualNetwork client resourceGroupName vmName).1 =
          ("", none, some err)) ∧
    (∀ (σ : Type) (resourceGroup clusterName : String) (client : NodePool.AgentPoolsClient σ)
        (nodepoolName : String)
        (rg cluster name : String) (parameters : NodePool.AgentPool) (poller : Poller NodePool.AgentPool) (err : GoError),
        Call.BeginCreateOrUpdate [rg, cluster, name] parameters ∈
          (NodePool.createNodePool resourceGroup clusterName client nodepoolName).2 →
        client.BeginCreateOrUpdate rg cluster name parameters = .ok poller →
        poller.PollUntilDone = .error err →
        (NodePool.createNodePool resourceGroup clusterName client nodepoolName).1 =
          some err) ∧
    (∀ (σ : Type) (resourceGroup clusterName : String) (client : NodePool.AgentPoolsClient σ)
        (nodepoolName : String)
        (rg cluster name : String) (poller : Poller Unit) (err : GoError),
        Call.BeginDelete [rg, cluster, name] ∈
          (NodePool.deleteNodePool resourceGroup clusterName client nodepoolName).2 →
        client.BeginDelete rg cluster name = .ok poller →
        poller.PollUntilDone = .error err →
        (NodePool.deleteNodePool resourceGroup clusterName client nodepoolName).1 =
          some err) := by
  refine ⟨?_, ?_, ?_, ?_⟩
  · intro client resourceGroupName vmName rg name parameters poller err hcall hbegin hpoll
    simp only [Nsg.createNetworkSecurityGroup] at hcall ⊢
    generalize hb : client.BeginCreateOrUpdate resourceGroupName (vmName ++ "-nsg")
      Nsg.createNetworkSecurityGroup.parameters = r at hcall ⊢
    have hn : rg = resourceGroupName ∧ name = vmName ++ "-nsg" ∧
        parameters = Nsg.createNetworkSecurityGroup.parameters := by
      rcases r with e | q
      · simpa [and_assoc] using hcall
      · simp only [] at hcall
        generalize q.PollUntilDone = u at hcall
        rcases u with e | v <;> simpa [and_assoc] using hcall
    obtain ⟨rfl, rfl, rfl⟩ := hn
    rw [hbegin] at hb
    subst hb
    simp only [hpoll]
  · intro client resourceGroupName vmName rg name parameters poller err hcall hbegin hpoll
    simp only [VirtualMachines.createVirtualNetwork] at hcall ⊢
    generalize hb : client.BeginCreateOrUpdate resourceGroupName (vmName ++ "-vnet")
      VirtualMachines.createVirtualNetwork.parameters = r at hcall ⊢
    have hn : rg = resourceGroupName ∧ name = vmName ++ "-vnet" ∧
        parameters = VirtualMachines.createVirtualNetwork.parameters := by
      rcases r with e | q
      · simpa [and_assoc] using hcall
      · simp only [] at hcall
        generalize q.PollUntilDone = u at hcall
        rcases u with e | v <;> simpa [and_assoc] using hcall
    obtain ⟨rfl, rfl, rfl⟩ := hn
    rw [hbegin] at hb
    subst hb
    simp only [hpoll]
  · intro σ resourceGroup clusterName client nodepoolName rg cluster name parameters poller err hcall hbegin hpoll
    simp only [NodePool.createNodePool] at hcall ⊢
    generalize hb : client.BeginCreateOrUpdate resourceGroup clusterName nodepoolName
      NodePool.createNodePool.parameters = r at hcall ⊢
    have hn : rg = resourceGroup ∧ cluster = clusterName ∧ name = nodepoolName ∧
        parameters = NodePool.createNodePool.parameters := by
      rcases r with e | q
      · simpa [and_assoc] using hcall
      · simp only [] at hcall
        generalize q.PollUntilDone = u at hcall
        rcases u with e | v <;> simpa [and_assoc] using hcall
    obtain ⟨rfl, rfl, rfl, rfl⟩ := hn
    rw [hbegin] at hb
    subst hb
    simp only [hpoll]
  · intro σ resourceGroup clusterName client nodepoolName rg cluster name poller err hcall hbegin hpoll
    simp only [NodePool.deleteNodePool] at hcall ⊢
    generalize hb : client.BeginDelete resourceGroup clusterName nodepoolName = r at hcall ⊢
    have hn : rg = resourceGroup ∧ cluster = clusterName ∧ name = nodepoolName := by
      rcases r with e | q
      · simpa [and_assoc] using hcall
      · simp only [] at hcall
        generalize q.PollUntilDone = u at hcall
        rcases u with e | v <;> simpa [and_assoc] using hcall
    obtain ⟨rfl, rfl, rfl⟩ := hn
    rw [hbegin] at hb
    subst hb
    simp only [hpoll]

/-- Witness of C11: four operations that the server ends with the failure
`quota exceeded`. -/
theorem poll_error_is_returned_witness :
    (Nsg.createNetworkSecurityGroup (Sample.groupsClient false) "learn" "learn-vm").1 =
      (none, some "quota exceeded") ∧
    (VirtualMachines.createVirtualNetwork (Sample.networksClient false) "learn" "learn-vm").1 =
      ("", none, some "quota exceeded") ∧
    (NodePool.createNodePool "rg" "learn-ask-tmp1" (Sample.failingPoolsClient false)
      "userpool1").1 = some "quota exceeded" ∧
    (NodePool.deleteNodePool "rg" "learn-ask-tmp1" (Sample.failingPoolsClient false)
      "userpool1").1 = some "quota exceeded" :=
  ⟨poll_error_is_returned.1 (Sample.groupsClient false) "learn" "learn-vm" "learn"
      "learn-vm-nsg" Nsg.createNetworkSecurityGroup.parameters (Sample.failedPoller _)
      "quota exceeded" (List.mem_cons_self _ _) rfl rfl,
    poll_error_is_returned.2.1 (Sample.networksClient false) "learn" "learn-vm" "learn"
      "learn-vm-vnet" VirtualMachines.createVirtualNetwork.parameters (Sample.failedPoller _)
      "quota exceeded" (List.mem_cons_self _ _) rfl rfl,
    poll_error_is_returned.2.2.1 _ "rg" "learn-ask-tmp1" (Sample.failingPoolsClient false)
      "userpool1" "rg" "learn-ask-tmp1" "userpool1" NodePool.createNodePool.parameters
      (Sample.failedPoller _) "quota exceeded"
      (List.mem_cons_of_mem _ (List.mem_cons_self _ _)) rfl rfl,
    poll_error_is_returned.2.2.2 _ "rg" "learn-ask-tmp1" (Sample.failingPoolsClient false)
      "userpool1" "rg" "learn-ask-tmp1" "userpool1" (Sample.failedPoller _) "quota exceeded"
      (List.mem_cons_of_mem _ (List.mem_cons_self _ _)) rfl rfl⟩

/-- C19: in each of `createNetworkSecurityGroup`, `createVirtualNetwork`,
`createNodePool` and `deleteNodePool`, when the begin call the function made
answers with the error `err`, the function returns `err` itself, with a nil
resource (and an empty name) where it returns one, and `PollUntilDone` is not
called. -/
theorem begin_error_is_returned :
    (∀ (client : Nsg.SecurityGroupsClient) (resourceGroupName vmName : String)
        (rg name : String) (parameters : Nsg.SecurityGroup) (err : GoError),
        Call.BeginCreateOrUpdate [rg, name] parameters ∈
          (Nsg.createNetworkSecurityGroup client resourceGroupName vmName).2 →
        client.BeginCreateOrUpdate rg name parameters = .error err →
        (Nsg.createNetworkSecurityGroup client resourceGroupName vmName).1 =
            (none, some err) ∧
          Call.PollUntilDone ∉
            (Nsg.createNetworkSecurityGroup client resourceGroupName vmName).2) ∧
    (∀ (client : VirtualMachines.VirtualNetworksClient) (resourceGroupName vmName : String)
        (rg name : String) (parameters : VirtualMachines.VirtualNetwork) (err : GoError),
        Call.BeginCreateOrUpdate [rg, name] parameters ∈
          (VirtualMachines.createVirtualNetwork client resourceGroupName vmName).2 →
        client.BeginCreateOrUpdate rg name parameters = .error err →
        (VirtualMachines.createVirtualNetwork client resourceGroupName vmName).1 =
            ("", none, some err) ∧
          Call.PollUntilDone ∉
            (VirtualMachines.createVirtualNetwork client resourceGroupName vmName).2) ∧
    (∀ (σ : Type) (resourceGroup clusterName : String) (client : NodePool.AgentPoolsClient σ)
        (nodepoolName : String)
        (rg cluster name : String) (parameters : NodePool.AgentPool) (err : GoError),
        Call.BeginCreateOrUpdate [rg, cluster, name] parameters ∈
          (NodePool.createNodePool resourceGroup clusterName client nodepoolName).2 →
        client.BeginCreateOrUpdate rg cluster name parameters = .error err →
        (NodePool.createNodePool resourceGroup clusterName client nodepoolName).1 =
            some err ∧
          Call.PollUntilDone ∉
            (NodePool.createNodePool resourceGroup clusterName client nodepoolName).2) ∧
    (∀ (σ : Type) (resourceGroup clusterName : String) (client : NodePool.AgentPoolsClient σ)
        (nodepoolName : String)
        (rg cluster name : String) (err : GoError),
        Call.BeginDelete [rg, cluster, name] ∈
          (NodePool.deleteNodePool resourceGroup clusterName client nodepoolName).2 →
        client.BeginDelete rg cluster name = .error err →
        (NodePool.deleteNodePool resourceGroup clusterName client nodepoolName).1 =
            some err ∧
          Call.PollUntilDone ∉
            (NodePool.deleteNodePool resourceGroup clusterName client nodepoolName).2) := by
  refine ⟨?_, ?_, ?_, ?_⟩
  · intro client resourceGroupName vmName rg name parameters err hcall hbegin
    simp only [Nsg.createNetworkSecurityGroup] at hcall ⊢
    generalize hb : client.BeginCreateOrUpdate resourceGroupName (vmName ++ "-nsg")
      Nsg.createNetworkSecurityGroup.parameters = r at hcall ⊢
    have hn : rg = resourceGroupName ∧ name = vmName ++ "-nsg" ∧
        parameters = Nsg.createNetworkSecurityGroup.parameters := by
      rcases r with e | q
      · simpa [and_assoc] using hcall
      · simp only [] at hcall
        generalize q.PollUntilDone = u at hcall
        rcases u with e | v <;> simpa [and_assoc] using hcall
    obtain ⟨rfl, rfl, rfl⟩ := hn
    rw [hbegin] at hb
    subst hb
    simp
  · intro client resourceGroupName vmName rg name parameters err hcall hbegin
    simp only [VirtualMachines.createVirtualNetwork] at hcall ⊢
    generalize hb : client.BeginCreateOrUpdate resourceGroupName (vmName ++ "-vnet")
      VirtualMachines.createVirtualNetwork.parameters = r at hcall ⊢
    have hn : rg = resourceGroupName ∧ name = vmName ++ "-vnet" ∧
        parameters = VirtualMachines.createVirtualNetwork.parameters := by
      rcases r with e | q
      · simpa [and_assoc] using hcall
      · simp only [] at hcall
        generalize q.PollUntilDone = u at hcall
        rcases u with e | v <;> simpa [and_assoc] using hcall
    obtain ⟨rfl, rfl, rfl⟩ := hn
    rw [hbegin] at hb
    subst hb
    simp
  · intro σ resourceGroup clusterName client nodepoolName rg cluster name parameters err hcall hbegin
    simp only [NodePool.createNodePool] at hcall ⊢
    generalize hb : client.BeginCreateOrUpdate resourceGroup clusterName nodepoolName
      NodePool.createNodePool.parameters = r at hcall ⊢
    have hn : rg = resourceGroup ∧ cluster = clusterName ∧ name = nodepoolName ∧
        parameters = NodePool.createNodePool.parameters := by
      rcases r with e | q
      · simpa [and_assoc] using hcall
      · simp only [] at hcall
        generalize q.PollUntilDone = u at hcall
        rcases u with e | v <;> simpa [and_assoc] using hcall
    obtain ⟨rfl, rfl, rfl, rfl⟩ := hn
    rw [hbegin] at hb
    subst hb
    simp
  · intro σ resourceGroup clusterName client nodepoolName rg cluster name err hcall hbegin
    simp only [NodePool.deleteNodePool] at hcall ⊢
    generalize hb : client.BeginDelete resourceGroup clusterName nodepoolName = r at hcall ⊢
    have hn : rg = resourceGroup ∧ cluster = clusterName ∧ name = nodepoolName := by
      rcases r with e | q
      · simpa [and_assoc] using hcall
      · simp only [] at hcall
        generalize q.PollUntilDone = u at hcall
        rcases u with e | v <;> simpa [and_assoc] using hcall
    obtain ⟨rfl, rfl, rfl⟩ := hn
    rw [hbegin] at hb
    subst hb
    simp

/-- Witness of C19: four begin calls that the server refuses. -/
theorem begin_error_is_returned_witness :
    (Nsg.createNetworkSecurityGroup (Sample.groupsClient true) "learn" "learn-vm") =
      ((none, some "authorization failed"),
        [.BeginCreateOrUpdate ["learn", "learn-vm-nsg"]
          Nsg.createNetworkSecurityGroup.parameters]) ∧
    (VirtualMachines.createVirtualNetwork (Sample.networksClient true) "learn" "learn-vm").1 =
      ("", none, some "authorization failed") ∧
    (NodePool.createNodePool "rg" "learn-ask-tmp1" (Sample.failingPoolsClient true)
      "userpool1").1 = some "authorization failed" ∧
    (NodePool.deleteNodePool "rg" "learn-ask-tmp1" (Sample.failingPoolsClient true)
      "userpool1") =
      (some "authorization failed",
        [.Print "开始删除节点池 userpool1...\n",
          .BeginDelete ["rg", "learn-ask-tmp1", "userpool1"]]) :=
  ⟨rfl,
    (begin_error_is_returned.2.1 (Sample.networksClient true) "learn" "learn-vm" "learn"
      "learn-vm-vnet" VirtualMachines.createVirtualNetwork.parameters
      "authorization failed" (List.mem_cons_self _ _) rfl).1,
    (begin_error_is_returned.2.2.1 _ "rg" "learn-ask-tmp1" (Sample.failingPoolsClient true)
      "userpool1" "rg" "learn-ask-tmp1" "userpool1" NodePool.createNodePool.parameters
      "authorization failed" (List.mem_cons_of_mem _ (List.mem_cons_self _ _)) rfl).1,
    rfl⟩

namespace Nsg

/-- C13: for every client, resource group and `vmName`, the one begin call
`createNetworkSecurityGroup` makes is `BeginCreateOrUpdate` for the given
resource group and the group name `vmName` followed by `-nsg`, with the
parameters of the function; nothing but the call of `PollUntilDone` follows
it. -/
theorem createNetworkSecurityGroup_name (client : SecurityGroupsClient)
    (resourceGroupName vmName : String) :
    (createNetworkSecurityGroup client resourceGroupName vmName).2 =
        [.BeginCreateOrUpdate [resourceGroupName, vmName ++ "-nsg"]
          createNetworkSecurityGroup.parameters] ∨
      (createNetworkSecurityGroup client resourceGroupName vmName).2 =
        [.BeginCreateOrUpdate [resourceGroupName, vmName ++ "-nsg"]
          createNetworkSecurityGroup.parameters, .PollUntilDone] := by
  simp only [createNetworkSecurityGroup]
  generalize client.BeginCreateOrUpdate resourceGroupName (vmName ++ "-nsg")
    createNetworkSecurityGroup.parameters = r
  rcases r with e | q
  · exact Or.inl rfl
  · simp only []
    generalize q.PollUntilDone = u
    rcases u with e | v <;> exact Or.inr rfl

end Nsg

/-! ## Theorems: the delete operations of the search demo -/

namespace SearchDemo

/-- C12, the claim refuted: the user types the service name and then, for the
confirmation, `confirm x`, or ` confirm` with a blank in front, neither of
which is the string `confirm`.  `fmt.Scanln` stores the word `confirm` (in the
first case it also returns an error, which the program drops), and the delete
request is sent; `deleteSearchIndex` likewise fetches the admin key and builds
its delete request. -/
theorem delete_sent_after_longer_confirmation :
    "confirm x" ≠ "confirm" ∧ " confirm" ≠ "confirm" ∧
    Fmt.Scanln "confirm x\n".data = ("confirm", true, ['\n']) ∧
    Fmt.Scanln " confirm\n".data = ("confirm", false, []) ∧
    typed "svc\nconfirm x\n" = ["svc", "confirm", ""] ∧
    Io.sendRequest "DELETE"
        "https://management.azure.com/subscriptions/sub/resourceGroups/rg/providers/Microsoft.Search/searchServices/svc?api-version=2020-08-01"
        none ∈
      (deleteSearchService Sample.globals (Sample.net 200 "") (typed "svc\nconfirm x\n")).1 ∧
    Io.sendRequest "DELETE"
        "https://management.azure.com/subscriptions/sub/resourceGroups/rg/providers/Microsoft.Search/searchServices/svc?api-version=2020-08-01"
        none ∈
      (deleteSearchService Sample.globals (Sample.net 200 "") (typed "svc\n confirm\n")).1 ∧
    Io.sendRequest "POST"
        "https://management.azure.com/subscriptions/sub/resourceGroups/rg/providers/Microsoft.Search/searchServices/svc/listAdminKeys?api-version=2020-08-01"
        none ∈
      (deleteSearchIndex Sample.globals Sample.keysCodec (Sample.net 200 "")
        (typed "svc\nidx\nconfirm x\n")).1 ∧
    Io.NewRequest "DELETE" "https://svc.search.windows.net/indexes/idx?api-version=2020-06-30"
        none ∈
      (deleteSearchIndex Sample.globals Sample.keysCodec (Sample.net 200 "")
        (typed "svc\nidx\nconfirm x\n")).1 := by
  refine ⟨by decide, by decide, by decide, by decide, by decide, ?_, ?_, ?_, ?_⟩
  · decide
  · decide
  · decide
  · decide

/-- C12 as amended: `deleteSearchService` does nothing but print when the service
name that `fmt.Scanln` stores is empty or the word it stores for the
confirmation is not exactly `confirm`, and so does `deleteSearchIndex` when the
service name or the index name stored is empty or the word stored for the
confirmation is not exactly `confirm`: no call of `sendRequest`, no request
built, nothing sent.  With the names given and any other word stored the last
thing either does is to print that the operation is cancelled; with the names
given and the word `confirm` stored, the first sends its delete request and
the second asks for the admin key. -/
theorem delete_needs_confirmation :
    (∀ (g : Globals) (net : Net) (stdin : Stdin),
        (Scanln stdin).1 = "" ∨ (Scanln (Scanln stdin).2).1 ≠ "confirm" →
        (∀ e ∈ (deleteSearchService g net stdin).1, ∃ text, e = Io.Print text) ∧
          ((Scanln stdin).1 ≠ "" →
            (deleteSearchService g net stdin).1.getLast? = some (.Print "操作已取消\n"))) ∧
    (∀ (g : Globals) (codec : Json.Codec AdminKeys) (net : Net) (stdin : Stdin),
        (Scanln stdin).1 = "" ∨ (Scanln (Scanln stdin).2).1 = "" ∨
          (Scanln (Scanln (Scanln stdin).2).2).1 ≠ "confirm" →
        (∀ e ∈ (deleteSearchIndex g codec net stdin).1, ∃ text, e = Io.Print text) ∧
          ((Scanln stdin).1 ≠ "" → (Scanln (Scanln stdin).2).1 ≠ "" →
            (deleteSearchIndex g codec net stdin).1.getLast? =
              some (.Print "操作已取消\n"))) ∧
    (∀ (g : Globals) (net : Net) (stdin : Stdin),
        (Scanln stdin).1 ≠ "" → (Scanln (Scanln stdin).2).1 = "confirm" →
        ∃ url, Io.sendRequest "DELETE" url none ∈ (deleteSearchService g net stdin).1) ∧
    (∀ (g : Globals) (codec : Json.Codec AdminKeys) (net : Net) (stdin : Stdin),
        (Scanln stdin).1 ≠ "" → (Scanln (Scanln stdin).2).1 ≠ "" →
        (Scanln (Scanln (Scanln stdin).2).2).1 = "confirm" →
        ∃ url, Io.sendRequest "POST" url none ∈ (deleteSearchIndex g codec net stdin).1) := by
  refine ⟨?_, ?_, ?_, ?_⟩
  · intro g net stdin h
    rcases hs : Scanln stdin with ⟨serviceName, rest⟩
    rcases hc : Scanln rest with ⟨confirmation, rest2⟩
    simp only [hs, hc] at h
    simp only [deleteSearchService, hs, hc]
    by_cases hn : serviceName = ""
    · simp [hn]
    · have hcf : confirmation ≠ "confirm" := by
        rcases h with h | h
        · exact absurd h hn
        · exact h
      simp [hn, hcf]
  · intro g codec net stdin h
    rcases hs : Scanln stdin with ⟨serviceName, rest⟩
    rcases hi : Scanln rest with ⟨indexName, rest2⟩
    rcases hc : Scanln rest2 with ⟨confirmation, rest3⟩
    simp only [hs, hi, hc] at h
    simp only [deleteSearchIndex, hs, hi, hc]
    by_cases hn : serviceName = ""
    · simp [hn]
    · by_cases hx : indexName = ""
      · simp [hn, hx]
      · have hcf : confirmation ≠ "confirm" := by
          rcases h with h | h | h
          · exact absurd h hn
          · exact absurd h hx
          · exact h
        simp [hn, hx, hcf]
  · intro g net stdin hn hcf
    rcases hs : Scanln stdin with ⟨serviceName, rest⟩
    rcases hc : Scanln rest with ⟨confirmation, rest2⟩
    simp only [hs, hc] at hn hcf
    simp only [deleteSearchService, hs, hc, hcf, if_neg hn, ne_eq, not_true_eq_false, if_false]
    refine ⟨"https://management.azure.com/subscriptions/" ++ g.subscriptionID
      ++ "/resourceGroups/" ++ g.resourceGroup
      ++ "/providers/Microsoft.Search/searchServices/" ++ serviceName
      ++ "?api-version=2020-08-01", ?_⟩
    split <;> simp
  · intro g codec net stdin hn hx hcf
    rcases hs : Scanln stdin with ⟨serviceName, rest⟩
    rcases hi : Scanln rest with ⟨indexName, rest2⟩
    rcases hc : Scanln rest2 with ⟨confirmation, rest3⟩
    simp only [hs, hi, hc] at hn hx hcf
    simp only [deleteSearchIndex, hs, hi, hc, hcf, if_neg hn, if_neg hx, ne_eq,
      not_true_eq_false, if_false]
    have hk : ∃ url, Io.sendRequest "POST" url none ∈
        (getSearchServiceAdminKey g codec net serviceName).2 := by
      simp only [getSearchServiceAdminKey]
      refine ⟨"https://management.azure.com/subscriptions/" ++ g.subscriptionID
        ++ "/resourceGroups/" ++ g.resourceGroup
        ++ "/providers/Microsoft.Search/searchServices/" ++ serviceName
        ++ "/listAdminKeys?api-version=2020-08-01", ?_⟩
      split
      · exact List.mem_cons_self _ _
      · split <;> simp
    obtain ⟨url, hk⟩ := hk
    refine ⟨url, ?_⟩
    repeat' split
    all_goals simp [hk]

/-- Witness of C12: a confirmation that differs from `confirm` in its first
letter only. -/
theorem delete_needs_confirmation_witness :
    ((Scanln ["svc", "Confirm"]).1 = "" ∨
        (Scanln (Scanln ["svc", "Confirm"]).2).1 ≠ "confirm") ∧
    (deleteSearchService Sample.globals (Sample.net 200 "") ["svc", "Confirm"]).1.getLast? =
      some (.Print "操作已取消\n") ∧
    ((Scanln ["svc", "idx", "yes"]).1 = "" ∨ (Scanln (Scanln ["svc", "idx", "yes"]).2).1 = "" ∨
        (Scanln (Scanln (Scanln ["svc", "idx", "yes"]).2).2).1 ≠ "confirm") ∧
    (∀ e ∈ (deleteSearchIndex Sample.globals Sample.keysCodec (Sample.net 200 "")
        ["svc", "idx", "yes"]).1, ∃ text, e = Io.Print text) ∧
    (∃ url, Io.sendRequest "DELETE" url none ∈
      (deleteSearchService Sample.globals (Sample.net 200 "") ["svc", "confirm"]).1) :=
  ⟨Or.inr (by decide),
    (delete_needs_confirmation.1 Sample.globals (Sample.net 200 "") ["svc", "Confirm"]
      (Or.inr (by decide))).2 (by decide),
    Or.inr (Or.inr (by decide)),
    (delete_needs_confirmation.2.1 Sample.globals Sample.keysCodec (Sample.net 200 "")
      ["svc", "idx", "yes"] (Or.inr (Or.inr (by decide)))).1,
    delete_needs_confirmation.2.2.1 Sample.globals (Sample.net 200 "") ["svc", "confirm"]
      (by decide) (by decide)⟩

end SearchDemo

/-! ## Theorems: the upload -/

namespace Azblob

/-- C14: `UploadFileToAzure` returns nil exactly when the credential is created,
the client is created, the file is opened and the upload succeeds; when one of
the four fails, it returns the error of that step behind the text of the step,
and the steps after it are not attempted: the calls made end with the failing
one. -/
theorem UploadFileToAzure_first_failure {κ χ φ : Type} (env : Env κ χ φ)
    (localFilePath accountName accountKey containerName : String) :
    ((UploadFileToAzure env localFilePath accountName accountKey containerName).1 = none ↔
      ∃ credential client file,
        env.NewSharedKeyCredential accountName accountKey = .ok credential ∧
        env.NewClientWithSharedKeyCredential
          ("https://" ++ accountName ++ ".blob.core.windows.net/") credential = .ok client ∧
        env.Open localFilePath = .ok file ∧
        env.UploadFile client containerName (env.Base localFilePath) file
          { BlockSize := 4 * 1024 * 1024, Concurrency := 4 } = none) ∧
    (∀ err, env.NewSharedKeyCredential accountName accountKey = .error err →
      UploadFileToAzure env localFilePath accountName accountKey containerName =
        (some ("无法创建凭证: " ++ err), [.NewSharedKeyCredential accountName accountKey])) ∧
    (∀ credential err, env.NewSharedKeyCredential accountName accountKey = .ok credential →
      env.NewClientWithSharedKeyCredential
        ("https://" ++ accountName ++ ".blob.core.windows.net/") credential = .error err →
      UploadFileToAzure env localFilePath accountName accountKey containerName =
        (some ("无法创建客户端: " ++ err),
          [.NewSharedKeyCredential accountName accountKey,
            .NewClientWithSharedKeyCredential
              ("https://" ++ accountName ++ ".blob.core.windows.net/") credential])) ∧
    (∀ credential client err,
      env.NewSharedKeyCredential accountName accountKey = .ok credential →
      env.NewClientWithSharedKeyCredential
        ("https://" ++ accountName ++ ".blob.core.windows.net/") credential = .ok client →
      env.Open localFilePath = .error err →
      UploadFileToAzure env localFilePath accountName accountKey containerName =
        (some ("无法打开文件: " ++ err),
          [.NewSharedKeyCredential accountName accountKey,
            .NewClientWithSharedKeyCredential
              ("https://" ++ accountName ++ ".blob.core.windows.net/") credential,
            .Open localFilePath])) ∧
    (∀ credential client file err,
      env.NewSharedKeyCredential accountName accountKey = .ok credential →
      env.NewClientWithSharedKeyCredential
        ("https://" ++ accountName ++ ".blob.core.windows.net/") credential = .ok client →
      env.Open localFilePath = .ok file →
      env.UploadFile client containerName (env.Base localFilePath) file
        { BlockSize := 4 * 1024 * 1024, Concurrency := 4 } = some err →
      UploadFileToAzure env localFilePath accountName accountKey containerName =
        (some ("上传失败: " ++ err),
          [.NewSharedKeyCredential accountName accountKey,
            .NewClientWithSharedKeyCredential
              ("https://" ++ accountName ++ ".blob.core.windows.net/") credential,
            .Open localFilePath,
            .UploadFile client containerName (env.Base localFilePath) file
              { BlockSize := 4 * 1024 * 1024, Concurrency := 4 }])) := by
  refine ⟨?_, ?_, ?_, ?_, ?_⟩
  · simp only [UploadFileToAzure]
    rcases h1 : env.NewSharedKeyCredential accountName accountKey with e | credential
    · simp
    · rcases h2 : env.NewClientWithSharedKeyCredential
        ("https://" ++ accountName ++ ".blob.core.windows.net/") credential with e | client
      · simp [h2]
      · rcases h3 : env.Open localFilePath with e | file
        · simp [h2]
        · rcases h4 : env.UploadFile client containerName (env.Base localFilePath) file
            { BlockSize := 4194304, Concurrency := 4 } with _ | e
          · simp [h2, h3, h4]
          · simp [h2, h3, h4]
  · intro err h1
    simp [UploadFileToAzure, h1]
  · intro credential err h1 h2
    simp [UploadFileToAzure, h1, h2]
  · intro credential client err h1 h2 h3
    simp [UploadFileToAzure, h1, h2, h3]
  · intro credential client file err h1 h2 h3 h4
    norm_num at h4
    simp [UploadFileToAzure, h1, h2, h3, h4]

/-- Witness of C14: a local file that cannot be opened. -/
theorem UploadFileToAzure_first_failure_witness :
    UploadFileToAzure (Sample.blobEnv true) "learn.txt" "account" "key" "container" =
      (some "无法打开文件: open learn.txt: no such file or directory",
        [.NewSharedKeyCredential "account" "key",
          .NewClientWithSharedKeyCredential "https://account.blob.core.windows.net/" "account",
          .Open "learn.txt"]) :=
  (UploadFileToAzure_first_failure (Sample.blobEnv true) "learn.txt" "account" "key"
    "container").2.2.2.1 "account" "https://account.blob.core.windows.net/"
    "open learn.txt: no such file or directory" rfl rfl rfl

/-- C15: an upload that `UploadFileToAzure` attempts goes to the given
container, under the blob name that `filepath.Base` gives for the local path,
through the client that was created for the service URL made of `https://`, the
account name and `.blob.core.windows.net/`, and sends the file opened at the
local path. -/
theorem UploadFileToAzure_target {κ χ φ : Type} (env : Env κ χ φ)
    (localFilePath accountName accountKey containerName : String)
    (client : χ) (container blob : String) (file : φ) (options : UploadFileOptions)
    (hup : Step.UploadFile client container blob file options ∈
      (UploadFileToAzure env localFilePath accountName accountKey containerName).2) :
    container = containerName ∧ blob = env.Base localFilePath ∧
      ∃ credential,
        env.NewSharedKeyCredential accountName accountKey = .ok credential ∧
        env.NewClientWithSharedKeyCredential
          ("https://" ++ accountName ++ ".blob.core.windows.net/") credential = .ok client ∧
        env.Open localFilePath = .ok file := by
  simp only [UploadFileToAzure] at hup
  rcases h1 : env.NewSharedKeyCredential accountName accountKey with e | credential
  · simp [h1] at hup
  · rcases h2 : env.NewClientWithSharedKeyCredential
      ("https://" ++ accountName ++ ".blob.core.windows.net/") credential with e | client0
    · simp [h1, h2] at hup
    · rcases h3 : env.Open localFilePath with e | file0
      · simp [h1, h2, h3] at hup
      · rcases h4 : env.UploadFile client0 containerName (env.Base localFilePath) file0
          { BlockSize := 4194304, Concurrency := 4 } with _ | e
        · simp [h1, h2, h3, h4] at hup
          obtain ⟨rfl, rfl, rfl, rfl, -⟩ := hup
          exact ⟨rfl, rfl, credential, rfl, h2, rfl⟩
        · simp [h1, h2, h3, h4] at hup
          obtain ⟨rfl, rfl, rfl, rfl, -⟩ := hup
          exact ⟨rfl, rfl, credential, rfl, h2, rfl⟩

/-- Witness of C15: the file `docs/learn.txt` goes to the blob `learn.txt`. -/
theorem UploadFileToAzure_target_witness :
    (Step.UploadFile "https://account.blob.core.windows.net/" "container" "learn.txt"
        "docs/learn.txt" { BlockSize := 4194304, Concurrency := 4 } ∈
      (UploadFileToAzure (Sample.blobEnv false) "docs/learn.txt" "account" "key"
        "container").2) ∧
    "learn.txt" = (Sample.blobEnv false).Base "docs/learn.txt" :=
  ⟨by decide,
    (UploadFileToAzure_target (Sample.blobEnv false) "docs/learn.txt" "account" "key"
      "container" "https://account.blob.core.windows.net/" "container" "learn.txt"
      "docs/learn.txt" { BlockSize := 4194304, Concurrency := 4 } (by decide)).2.1⟩

end Azblob

/-! ## Theorems: the translation result -/

namespace Translator

/-- Helper: what `translateText` makes of a decoded answer: the text of the first
translation of the first element, or the error for an empty answer; never an
index out of range. -/
theorem translateText_pick (tr : TranslationResponse) (events : List Event) :
    (match (if tr.length = 0 then some true
          else (tr[0]?).map (fun r => decide (r.Translations.length = 0)) : Option Bool) with
      | none => ((none : Option (String × Option GoError)), events)
      | some true => (some ("", some "翻译响应为空"), events)
      | some false =>
        match (tr[0]?).bind (fun r => r.Translations[0]?) with
        | none => (none, events)
        | some t => (some (t.Text, none), events)) =
      (some (match tr with
        | [] => ("", some "翻译响应为空")
        | first :: _ =>
          match first.Translations with
          | [] => ("", some "翻译响应为空")
          | translation :: _ => (translation.Text, none)), events) := by
  rcases tr with _ | ⟨first, rest⟩
  · rfl
  · rcases first with ⟨translations⟩
    rcases translations with _ | ⟨translation, others⟩
    · simp
    · simp

/-- C16: `translateText` never stops on an index out of range; and when the
answer to the request it sent has status 200 and a body that reads as `b` and
decodes to the list `tr`, it returns the text of the first translation of the
first element of `tr` with a nil error, or, when `tr` is empty or its first
element has no translation, the empty string and an error. -/
theorem translateText_first_translation (codec : Json.Codec TranslationResponse) (net : Net)
    (text targetLang subscriptionKey location : String) :
    (translateText codec net text targetLang subscriptionKey location).1 ≠ none ∧
      ∀ (client : Client) (req : Request) (resp : Response) (b : String)
        (tr : TranslationResponse),
        Event.Do client req ∈
          (translateText codec net text targetLang subscriptionKey location).2 →
        net.roundTrip client req = .ok resp →
        resp.StatusCode = 200 →
        ReadAll resp.Body = (b, none) →
        codec.Unmarshal b = .ok tr →
        (translateText codec net text targetLang subscriptionKey location).1 =
          some (match tr with
            | [] => ("", some "翻译响应为空")
            | first :: _ =>
              match first.Translations with
              | [] => ("", some "翻译响应为空")
              | translation :: _ => (translation.Text, none)) := by
  simp only [translateText, List.map_cons, List.map_nil, TranslationRequest.toJSON]
  generalize codec.Marshal _ = m
  rcases m with merr | bodyBytes
  · simp
  · simp only [NewRequest]
    generalize net.newRequestErr _ _ = n
    rcases n with _ | nerr
    · simp only []
      generalize hreq : (Request.mk _ _ _ _) = built
      generalize hdo : net.roundTrip _ built = r
      rcases r with derr | resp0
      · refine ⟨by simp, ?_⟩
        intro client req resp b tr hsent hresp hstatus hbody hdec
        simp only [List.mem_singleton, Event.Do.injEq] at hsent
        obtain ⟨rfl, rfl⟩ := hsent
        rw [hdo] at hresp
        cases hresp
      · simp only []
        by_cases hst : resp0.StatusCode ≠ StatusOK
        · rw [if_pos hst]
          refine ⟨by simp, ?_⟩
          intro client req resp b tr hsent hresp hstatus hbody hdec
          simp only [List.mem_singleton, Event.Do.injEq] at hsent
          obtain ⟨rfl, rfl⟩ := hsent
          rw [hdo] at hresp
          cases hresp
          exact absurd hstatus hst
        · rw [if_neg hst]
          generalize hrb : ReadAll resp0.Body = rb
          rcases rb with ⟨data, _ | rerr⟩
          · simp only []
            generalize hu : codec.Unmarshal data = u
            rcases u with uerr | tr0
            · refine ⟨by simp, ?_⟩
              intro client req resp b tr hsent hresp hstatus hbody hdec
              simp only [List.mem_cons, Event.Do.injEq, reduceCtorEq, List.mem_singleton,
                or_false, List.not_mem_nil] at hsent
              obtain ⟨rfl, rfl⟩ := hsent
              rw [hdo] at hresp
              cases hresp
              rw [hrb] at hbody
              cases hbody
              rw [hu] at hdec
              cases hdec
            · simp only []
              rw [translateText_pick]
              refine ⟨by simp, ?_⟩
              intro client req resp b tr hsent hresp hstatus hbody hdec
              simp only [List.mem_cons, Event.Do.injEq, reduceCtorEq, List.mem_singleton,
                or_false, List.not_mem_nil] at hsent
              obtain ⟨rfl, rfl⟩ := hsent
              rw [hdo] at hresp
              cases hresp
              rw [hrb] at hbody
              cases hbody
              rw [hu] at hdec
              cases hdec
              rfl
          · refine ⟨by simp, ?_⟩
            intro client req resp b tr hsent hresp hstatus hbody hdec
            simp only [List.mem_cons, Event.Do.injEq, reduceCtorEq, List.mem_singleton,
              or_false, List.not_mem_nil] at hsent
            obtain ⟨rfl, rfl⟩ := hsent
            rw [hdo] at hresp
            cases hresp
            rw [hrb] at hbody
            cases hbody
    · simp

/-- Witness of C16: an answer with one element and two translations. -/
theorem translateText_first_translation_witness :
    (Event.Do {}
        { Method := "POST",
          URL := "https://api.cognitive.microsofttranslator.com/translate?api-version=3.0&to=ko",
          Body := some "[\x7b\"Text\":\"Hello\"\x7d]",
          Header := [("Ocp-Apim-Subscription-Key", "key"),
            ("Ocp-Apim-Subscription-Region", "eastasia"),
            ("Content-Type", "application/json")] } ∈
      (translateText Sample.translationCodec (Sample.net 200 "[]") "Hello" "ko" "key"
        "eastasia").2) ∧
    (translateText Sample.translationCodec (Sample.net 200 "[]") "Hello" "ko" "key"
        "eastasia").1 = some ("안녕하세요", none) :=
  ⟨by decide,
    (translateText_first_translation Sample.translationCodec (Sample.net 200 "[]") "Hello" "ko"
      "key" "eastasia").2 {}
      { Method := "POST",
        URL := "https://api.cognitive.microsofttranslator.com/translate?api-version=3.0&to=ko",
        Body := some "[\x7b\"Text\":\"Hello\"\x7d]",
        Header := [("Ocp-Apim-Subscription-Key", "key"),
          ("Ocp-Apim-Subscription-Region", "eastasia"),
          ("Content-Type", "application/json")] }
      { StatusCode := 200, Body := { data := "[]" } } "[]"
      [{ Translations := [{ Text := "안녕하세요", To := "ko" }, { Text := "您好", To := "zh" }] }]
      (by decide) rfl rfl rfl rfl⟩

end Translator

/-! ## Theorems: the chat loop -/

namespace Ai

/-- Helper: the requests among steps put one after the other. -/
theorem requests_append (a b : List Step) : requests (a ++ b) = requests a ++ requests b := by
  simp [requests]

/-- Helper: whatever the client answers, the completion requests the chat loop
sends are, in order, one for each line the scanner hands out before the first
line that is `exit` or `quit` (or before the scanner stops when there is
none), and the last message of each request is that line as a user message. -/
theorem main_loop_requests (client : Client) (deploymentName : String) (lines : List String)
    (messages : List ChatRequestMessage) :
    (requests (main.loop client deploymentName lines messages)).map
        (fun options => options.Messages.getLast?) =
      (lines.takeWhile (fun line => !(line == "exit" || line == "quit"))).map
        (fun line => some (ChatRequestMessage.User line)) := by
  induction lines generalizing messages with
  | nil => simp [main.loop, requests]
  | cons userInput rest ih =>
    simp only [main.loop]
    by_cases h : userInput = "exit" ∨ userInput = "quit"
    · rw [if_pos h]
      rcases h with h | h <;> simp [h, requests]
    · rw [if_neg h]
      have hw : (!(userInput == "exit" || userInput == "quit")) = true := by
        simpa using h
      rw [List.takeWhile_cons, hw]
      simp only [if_true, List.map_cons]
      rcases client.GetChatCompletions _ with err | resp
      · simp only []
        rw [requests_append, List.map_append, ih]
        simp [requests]
      · simp only []
        split
        · rw [requests_append, List.map_append, ih]
          simp [requests]
        · rw [requests_append, List.map_append, ih]
          simp [requests]

/-- Helper: the lines that the scanner hands out before the first `exit` or
`quit` are the lines of the input before the first one that is too long for
the scanner or reads `exit` or `quit`. -/
theorem lines_before_exit (input : List String) :
    ((Bufio.Scanner.lines input).takeWhile
        (fun line => !(line == "exit" || line == "quit"))).map
        (fun line => some (ChatRequestMessage.User line)) =
      (input.takeWhile (fun line => decide (line.utf8ByteSize < Bufio.MaxScanTokenSize) &&
          !(Bufio.dropCR line == "exit" || Bufio.dropCR line == "quit"))).map
        (fun line => some (ChatRequestMessage.User (Bufio.dropCR line))) := by
  induction input with
  | nil => rfl
  | cons line rest ih =>
    simp only [Bufio.Scanner.lines]
    by_cases hlong : Bufio.MaxScanTokenSize ≤ line.utf8ByteSize
    · have hd : decide (line.utf8ByteSize < Bufio.MaxScanTokenSize) = false := by
        simpa using hlong
      rw [if_pos hlong, List.takeWhile_cons, hd]
      simp
    · have hd : decide (line.utf8ByteSize < Bufio.MaxScanTokenSize) = true := by
        simpa using hlong
      rw [if_neg hlong, List.takeWhile_cons, List.takeWhile_cons, hd, Bool.true_and]
      cases hq : !(Bufio.dropCR line == "exit" || Bufio.dropCR line == "quit")
      · simp
      · simp only [if_true, List.map_cons, ih]

/-- Helper: a run of the letter `a` takes one byte for each letter. -/
theorem utf8ByteSize_replicate (n : Nat) :
    (String.mk (List.replicate n 'a')).utf8ByteSize = n := by
  induction n with
  | zero => rfl
  | succ n ih =>
    simp only [String.utf8ByteSize, List.replicate_succ, String.utf8ByteSize.go] at ih ⊢
    rw [ih]
    rfl

/-- C17, the claim refuted: standard input holds a line of 65536 letters and
then the line `hello`.  Neither is `exit` or `quit` and the input has not
ended, yet the scanner hands out no line: the loop prints its prompt once and
ends, and no request is sent for either line. -/
theorem chat_loop_ends_at_long_line :
    Sample.longLine ≠ "exit" ∧ Sample.longLine ≠ "quit" ∧
    [Sample.longLine, "hello"].length = 2 ∧
    Bufio.Scanner.lines [Sample.longLine, "hello"] = [] ∧
    main.loop Sample.chatClient "gpt-4o" (Bufio.Scanner.lines [Sample.longLine, "hello"]) [] =
      [.Print "用户: "] ∧
    requests (main.loop Sample.chatClient "gpt-4o"
      (Bufio.Scanner.lines [Sample.longLine, "hello"]) []) = [] := by
  have hsize : Sample.longLine.utf8ByteSize = Bufio.MaxScanTokenSize :=
    utf8ByteSize_replicate _
  have hlines : Bufio.Scanner.lines [Sample.longLine, "hello"] = [] := by
    simp [Bufio.Scanner.lines, hsize]
  have hne : ∀ word : String, word.utf8ByteSize < Bufio.MaxScanTokenSize →
      Sample.longLine ≠ word := by
    intro word hw h
    rw [← h, hsize] at hw
    exact Nat.lt_irrefl _ hw
  refine ⟨hne _ (by decide), hne _ (by decide), rfl, hlines, ?_, ?_⟩
  · rw [hlines]; rfl
  · rw [hlines]; rfl

/-- C17 as amended: whatever the client answers, the completion requests the
chat loop sends are, in order, one for each line of standard input before the
first line that reads `exit` or `quit` or is too long for the scanner, 65536
bytes or more (or before the end of the input when there is no such line), the
empty line included, and the last message of each request is the line read,
without the carriage return at its end, as a user message; no request is sent
for the line `exit` or `quit`, for the line that is too long, nor for any line
after it. -/
theorem chat_loop_requests (client : Client) (deploymentName : String) (input : List String)
    (messages : List ChatRequestMessage) :
    (requests (main.loop client deploymentName (Bufio.Scanner.lines input) messages)).map
        (fun options => options.Messages.getLast?) =
      (input.takeWhile (fun line => decide (line.utf8ByteSize < Bufio.MaxScanTokenSize) &&
          !(Bufio.dropCR line == "exit" || Bufio.dropCR line == "quit"))).map
        (fun line => some (ChatRequestMessage.User (Bufio.dropCR line))) := by
  rw [main_loop_requests, lines_before_exit]

end Ai

/-! ## Theorems: the poller of the specification -/

namespace Lro

/-- Helper: a handle that `pollUntilDone` returns together with a result holds
that result. -/
theorem pollUntilDone_caches (server : Nat → Status) (result : OperationResult)
    (after : Handle) :
    ∀ (fuel : Nat) (h : Handle),
      pollUntilDone server fuel h = (some result, after) → after.cached = some result := by
  intro fuel
  induction fuel with
  | zero =>
    intro h hdone
    simp only [pollUntilDone] at hdone
    rcases hc : h.cached with _ | r
    · simp [hc] at hdone
    · simp only [hc, Prod.mk.injEq, Option.some.injEq] at hdone
      obtain ⟨rfl, rfl⟩ := hdone
      exact hc
  | succ fuel ih =>
    intro h hdone
    simp only [pollUntilDone] at hdone
    rcases hc : h.cached with _ | r
    · simp only [hc] at hdone
      rcases hs : server h.queries with _ | r
      · simp only [hs] at hdone
        exact ih _ hdone
      · simp only [hs, Prod.mk.injEq, Option.some.injEq] at hdone
        obtain ⟨rfl, rfl⟩ := hdone
        rfl
    · simp only [hc, Prod.mk.injEq, Option.some.injEq] at hdone
      obtain ⟨rfl, rfl⟩ := hdone
      exact hc

/-- C18: once `pollUntilDone` has returned a terminal result for a handle, every
later call on the handle it left returns that same result and leaves the
handle as it is, its count of status queries included: no new query is
issued. -/
theorem pollUntilDone_idempotent (server : Nat → Status) (fuel : Nat) (h after : Handle)
    (result : OperationResult)
    (hdone : pollUntilDone server fuel h = (some result, after)) :
    ∀ again : Nat, pollUntilDone server again after = (some result, after) := by
  intro again
  have hc := pollUntilDone_caches server result after fuel h hdone
  cases again <;> simp [pollUntilDone, hc]

/-- Witness of C18: the operation is reported running twice and then succeeded;
three status queries are issued, and polling again issues none. -/
theorem pollUntilDone_idempotent_witness :
    pollUntilDone Sample.server 10 {} =
      (some (.Succeeded "\x7bid:\"x\"\x7d"),
        { queries := 3, cached := some (.Succeeded "\x7bid:\"x\"\x7d") }) ∧
    pollUntilDone Sample.server 10
        { queries := 3, cached := some (.Succeeded "\x7bid:\"x\"\x7d") } =
      (some (.Succeeded "\x7bid:\"x\"\x7d"),
        { queries := 3, cached := some (.Succeeded "\x7bid:\"x\"\x7d") }) :=
  ⟨by decide,
    pollUntilDone_idempotent Sample.server 10 {}
      { queries := 3, cached := some (.Succeeded "\x7bid:\"x\"\x7d") }
      (.Succeeded "\x7bid:\"x\"\x7d") (by decide) 10⟩

end Lro

/-! ## Theorems: a page that fails -/

namespace Sdk

/-- Helper: what the rounds of a paging loop over `pages` print, whatever steps
follow them. -/
theorem printed_rounds_then {α : Type} (f : α → List String) (pages : List (List α))
    (tail : List Step) :
    printed (pages.flatMap (fun page => [Step.More true, Step.NextPage] ++
        (page.flatMap f).map Step.Print) ++ tail) =
      pages.flatten.flatMap f ++ printed tail := by
  induction pages with
  | nil => rfl
  | cons page rest ih =>
    rw [List.flatMap_cons, List.append_assoc, printed_append, ih, printed_append,
      printed_map_print, List.flatten_cons, List.flatMap_append]
    have h0 : printed [Step.More true, Step.NextPage] = [] := rfl
    rw [h0, List.nil_append, List.append_assoc]

/-- Helper: the rounds of a paging loop over `pages` call `NextPage` once for
each page, whatever steps follow them. -/
theorem nextPageCalls_rounds_then {α : Type} (f : α → List String) (pages : List (List α))
    (tail : List Step) :
    nextPageCalls (pages.flatMap (fun page => [Step.More true, Step.NextPage] ++
        (page.flatMap f).map Step.Print) ++ tail) =
      pages.length + nextPageCalls tail := by
  induction pages with
  | nil => simp [nextPageCalls]
  | cons page rest ih =>
    simp only [nextPageCalls] at ih ⊢
    rw [List.flatMap_cons, List.append_assoc, List.count_append, ih, List.count_append]
    have h := nextPageCalls_map_print (page.flatMap f)
    simp only [nextPageCalls] at h
    rw [h, List.length_cons]
    have h2 : List.count Step.NextPage [Step.More true, Step.NextPage] = 1 := by decide
    rw [h2]
    omega

end Sdk

namespace NodePool

/-- Helper: the steps of the loop of `listNodePools` over a pager that hands
out `pages` and then fails, when no iteration stops early and the rounds
suffice. -/
theorem listNodePools_loop_of_fails {σ : Type} (pager : Pager σ (Option AgentPool))
    (err : GoError) :
    ∀ (pages : List (List (Option AgentPool))) (s : σ) (fuel : Nat),
      pager.YieldsThenFails s pages err →
      (∀ page ∈ pages, ∀ v ∈ page, (listNodePools.body v).2 = true) →
      pages.length < fuel →
      listNodePools.loop pager fuel s =
        (pages.flatMap (fun page => [Step.More true, Step.NextPage] ++
            (page.flatMap (fun v => (listNodePools.body v).1)).map Step.Print) ++
          [Step.More true, Step.NextPage], some (.returned (some err))) := by
  intro pages
  induction pages with
  | nil =>
    intro s fuel hy _ hf
    obtain ⟨f, rfl⟩ : ∃ f, fuel = f + 1 := ⟨fuel - 1, by simp at hf; omega⟩
    obtain ⟨hm, hn⟩ := hy
    rcases hnp : pager.NextPage s with ⟨r, s'⟩
    rw [hnp] at hn
    simp only at hn
    subst hn
    simp [listNodePools.loop, hm, hnp]
  | cons page rest ih =>
    intro s fuel hy hc hf
    obtain ⟨f, rfl⟩ : ∃ f, fuel = f + 1 := ⟨fuel - 1, by simp at hf; omega⟩
    obtain ⟨hm, hn, hy⟩ := hy
    rcases hnp : pager.NextPage s with ⟨r, s'⟩
    rw [hnp] at hn hy
    simp only at hn hy
    subst hn
    have hr := rangeOver_complete listNodePools.body page (hc page (List.mem_cons_self _ _))
    have ih := ih s' f hy (fun q hq => hc q (List.mem_cons_of_mem _ hq))
      (by simp at hf; omega)
    simp [listNodePools.loop, hm, hnp, hr, ih]

/-- C20: when the pager hands out the pages `pages` without an error, each
element with the pointers set that the loop dereferences, and answers the next
call of `NextPage` with the error `err`, then, given rounds enough,
`listNodePools` returns `err`; it has printed its heading and, for every
element of the pages before the failing one, in order, the name, the count,
the size and the mode of the element and a separator, and nothing else; it has
called `NextPage` once for each of those pages and once more, and that failing
call is its last step. -/
theorem listNodePools_stops_at_error {σ : Type} (resourceGroup clusterName : String)
    (client : AgentPoolsClient σ) (pages : List (List (Option AgentPool))) (err : GoError)
    (fuel : Nat)
    (hy : client.pager.YieldsThenFails (client.NewListPager resourceGroup clusterName) pages err)
    (hc : ∀ v ∈ pages.flatten, AgentPool.Complete v)
    (hf : pages.length < fuel) :
    (listNodePools resourceGroup clusterName client fuel).2 = some (.returned (some err)) ∧
      printed (listNodePools resourceGroup clusterName client fuel).1 =
        "\n列出所有节点池：\n" ::
          pages.flatten.flatMap (fun v =>
            ["节点池名称: " ++ (v.bind (·.Name)).getD "" ++ "\n",
              "节点数量: " ++ fmtD (((v.bind (·.Properties)).bind (·.Count)).getD 0) ++ "\n",
              "虚拟机规格: " ++ ((v.bind (·.Properties)).bind (·.VMSize)).getD "" ++ "\n",
              "模式: " ++ ((v.bind (·.Properties)).bind (·.Mode)).getD "" ++ "\n",
              "---\n"]) ∧
      nextPageCalls (listNodePools resourceGroup clusterName client fuel).1 =
        pages.length + 1 ∧
      (listNodePools resourceGroup clusterName client fuel).1.getLast? = some .NextPage := by
  have hloop := listNodePools_loop_of_fails client.pager err pages _ fuel hy
    (fun page hp v hv => listNodePools_body_of_complete v
      (hc v (List.mem_flatten.mpr ⟨page, hp, hv⟩))) hf
  simp only [listNodePools, hloop]
  refine ⟨trivial, ?_, ?_, ?_⟩
  · have := printed_rounds_then (fun v => (listNodePools.body v).1) pages
      [Step.More true, Step.NextPage]
    simp only [printed] at this ⊢
    rw [List.filterMap_cons]
    simp only [this]
    rw [flatMap_agree _ _ _ (fun v hv => listNodePools_body_lines v (hc v hv))]
    simp
  · have := nextPageCalls_rounds_then (fun v => (listNodePools.body v).1) pages
      [Step.More true, Step.NextPage]
    simp only [nextPageCalls] at this ⊢
    rw [List.count_cons, this]
    simp
  · rw [List.getLast?_cons, List.getLast?_append]
    simp

/-- Witness of C20: two pages of two pools each, then a failing third page and a
fourth page that is never asked for; the lines of the four pools are printed
and none for the fifth. -/
theorem listNodePools_stops_at_error_witness :
    (Sample.answersPager _).YieldsThenFails
        (Sample.brokenPoolsClient.NewListPager "rg" "learn-ask-tmp1")
        [[Sample.pool "p1", Sample.pool "p2"], [Sample.pool "p3", Sample.pool "p4"]]
        "connection reset" ∧
    (listNodePools "rg" "learn-ask-tmp1" Sample.brokenPoolsClient 5).2 =
      some (.returned (some "connection reset")) ∧
    printed (listNodePools "rg" "learn-ask-tmp1" Sample.brokenPoolsClient 5).1 =
      ["\n列出所有节点池：\n",
        "节点池名称: p1\n", "节点数量: 2\n", "虚拟机规格: Standard_DS2_v2\n", "模式: User\n",
        "---\n",
        "节点池名称: p2\n", "节点数量: 2\n", "虚拟机规格: Standard_DS2_v2\n", "模式: User\n",
        "---\n",
        "节点池名称: p3\n", "节点数量: 2\n", "虚拟机规格: Standard_DS2_v2\n", "模式: User\n",
        "---\n",
        "节点池名称: p4\n", "节点数量: 2\n", "虚拟机规格: Standard_DS2_v2\n", "模式: User\n",
        "---\n"] ∧
    nextPageCalls (listNodePools "rg" "learn-ask-tmp1" Sample.brokenPoolsClient 5).1 = 3 ∧
    (listNodePools "rg" "learn-ask-tmp1" Sample.brokenPoolsClient 5).1.getLast? =
      some .NextPage :=
  have hy : (Sample.answersPager _).YieldsThenFails
      (Sample.brokenPoolsClient.NewListPager "rg" "learn-ask-tmp1")
      [[Sample.pool "p1", Sample.pool "p2"], [Sample.pool "p3", Sample.pool "p4"]]
      "connection reset" := by
    simp [Pager.YieldsThenFails, Sample.answersPager, Sample.brokenPoolsClient]
  have hc : ∀ v ∈ [[Sample.pool "p1", Sample.pool "p2"],
      [Sample.pool "p3", Sample.pool "p4"]].flatten, AgentPool.Complete v := by
    intro v hv
    simp only [Sample.pool, List.flatten_cons, List.flatten_nil,
      List.cons_append, List.nil_append, List.append_nil, List.mem_cons, List.mem_singleton,
      List.not_mem_nil, or_false] at hv
    rcases hv with rfl | rfl | rfl | rfl <;>
      exact ⟨_, _, _, _, { Count := none, VMSize := none, Mode := none }, rfl⟩
  have h := listNodePools_stops_at_error "rg" "learn-ask-tmp1" Sample.brokenPoolsClient
    [[Sample.pool "p1", Sample.pool "p2"], [Sample.pool "p3", Sample.pool "p4"]]
    "connection reset" 5 hy hc (by decide)
  ⟨hy, h.1, h.2.1, h.2.2.1, h.2.2.2⟩

end NodePool

/-! ## Theorems: the search demo, creating a service and an index -/

namespace SearchDemo

/-- C26: when the answer to the request that `sendRequest` sent has a status code
in [200,300) and a body that reads as `b` without an error, the call returns
exactly `b` and a nil error. -/
theorem sendRequest_2xx_returns_body (cred : Credential) (httpClient : Client) (net : Net)
    (method url : String) (body : Option String)
    (client : Client) (req : Request) (resp : Response) (b : String)
    (hsent : Event.Do client req ∈ (sendRequest cred httpClient net method url body).2)
    (hresp : net.roundTrip client req = .ok resp)
    (hbody : ReadAll resp.Body = (b, none))
    (hstatus : 200 ≤ resp.StatusCode ∧ resp.StatusCode < 300) :
    (sendRequest cred httpClient net method url body).1 = (some b, none) := by
  obtain ⟨token, -, -, -, -, -, -, heq⟩ :=
    sendRequest_sent_inv cred httpClient net method url body client req hsent
  rw [heq, hresp]
  simp only [hbody]
  have hs : ¬ (resp.StatusCode < 200 ∨ resp.StatusCode ≥ 300) := by omega
  rw [if_neg hs]

/-- Witness of C26: a 201 answer to a PUT request. -/
theorem sendRequest_2xx_returns_body_witness :
    (Event.Do httpClient
        { Method := "PUT", URL := "https://management.azure.com/x", Body := some "document",
          Header := [("Authorization", "Bearer tok"), ("Content-Type", "application/json")] } ∈
      (sendRequest Sample.cred httpClient (Sample.net 201 "created") "PUT"
        "https://management.azure.com/x" (some "document")).2) ∧
    ((200 : Int) ≤ 201 ∧ (201 : Int) < 300) ∧
    (sendRequest Sample.cred httpClient (Sample.net 201 "created") "PUT"
        "https://management.azure.com/x" (some "document")).1 = (some "created", none) :=
  ⟨by decide, by decide,
    sendRequest_2xx_returns_body Sample.cred httpClient (Sample.net 201 "created") "PUT"
      "https://management.azure.com/x" (some "document") httpClient
      { Method := "PUT", URL := "https://management.azure.com/x", Body := some "document",
        Header := [("Authorization", "Bearer tok"), ("Content-Type", "application/json")] }
      { StatusCode := 201, Body := { data := "created" } } "created"
      (by decide) rfl rfl (by decide)⟩

/-- C21: in the parameters `createSearchService` builds, the SKU name is the word
read, or `standard` when that word is empty; the replica count and the
partition count are each the number `strconv.Atoi` finds in the word read when
there is one and it is at least 1, and 1 otherwise; these values are what the
document of the parameters holds, and every request the function hands to
`sendRequest` is a PUT whose body is what `json.Marshal` gives for that
document. -/
theorem createSearchService_params (std : Std) :
    (∀ location sku replicaCountStr partitionCountStr : String,
      (createSearchService.createParams std location sku replicaCountStr
          partitionCountStr).SKU.Name = (if sku = "" then "standard" else sku) ∧
      (createSearchService.createParams std location sku replicaCountStr
          partitionCountStr).Properties.ReplicaCount =
        (match std.Atoi replicaCountStr with
          | .ok n => if 1 ≤ n then n else 1
          | .error _ => 1) ∧
      (createSearchService.createParams std location sku replicaCountStr
          partitionCountStr).Properties.PartitionCount =
        (match std.Atoi partitionCountStr with
          | .ok n => if 1 ≤ n then n else 1
          | .error _ => 1) ∧
      (createSearchService.createParams std location sku replicaCountStr
          partitionCountStr).toJSON =
        .obj [("location", .str location),
          ("tags", .obj [("created-at", .str std.now),
            ("created-by", .str "azure-search-demo")]),
          ("properties", .obj [("status", .str ""), ("statusDetails", .str ""),
            ("provisioningState", .str ""),
            ("replicaCount", .num (createSearchService.createParams std location sku
              replicaCountStr partitionCountStr).Properties.ReplicaCount),
            ("partitionCount", .num (createSearchService.createParams std location sku
              replicaCountStr partitionCountStr).Properties.PartitionCount),
            ("hostingMode", .str "default")]),
          ("sku", .obj [("name", .str (if sku = "" then "standard" else sku))])]) ∧
    (∀ (g : Globals) (net : Net) (stdin : Stdin) (method url : String) (body : Option String),
      Io.sendRequest method url body ∈ (createSearchService g std net stdin).1 →
      method = "PUT" ∧
        ∃ requestBody, body = some requestBody ∧
          std.Marshal (createSearchService.createParams std
            (Scanln (Scanln stdin).2).1
            (Scanln (Scanln (Scanln stdin).2).2).1
            (Scanln (Scanln (Scanln (Scanln stdin).2).2).2).1
            (Scanln (Scanln (Scanln (Scanln (Scanln stdin).2).2).2).2).1).toJSON =
            .ok requestBody) := by
  constructor
  · intro location sku replicaCountStr partitionCountStr
    have hcount : ∀ word, createSearchService.count std word =
        (match std.Atoi word with
          | .ok n => if 1 ≤ n then n else 1
          | .error _ => 1) := by
      intro word
      simp only [createSearchService.count]
      rcases std.Atoi word with e | n
      · rfl
      · simp only []
        by_cases h : n < 1
        · rw [if_pos h, if_neg (by omega)]
        · rw [if_neg h, if_pos (by omega)]
    refine ⟨rfl, hcount _, hcount _, ?_⟩
    simp [SearchServiceCreateParams.toJSON, createSearchService.createParams, omitempty,
      Json.isEmptyValue, SearchProperties.toJSON, SearchSKU.toJSON]
  · intro g net stdin method url body hmem
    simp only [createSearchService] at hmem
    by_cases hn : (Scanln stdin).1 = ""
    · simp [hn] at hmem
    · by_cases hl : (Scanln (Scanln stdin).2).1 = ""
      · simp [hn, hl] at hmem
      · simp only [if_neg hn, if_neg hl] at hmem
        generalize hm : std.Marshal _ = m at hmem
        rcases m with e | requestBody
        · simp at hmem
        · simp only [] at hmem
          have hput : method = "PUT" ∧ body = some requestBody := by
            split at hmem <;> simp at hmem <;> exact ⟨hmem.1, hmem.2.2⟩
          exact ⟨hput.1, requestBody, hput.2, rfl⟩

/-- Witness of C21: an empty SKU, a count of 3 and a word that is no number. -/
theorem createSearchService_params_witness :
    (createSearchService.createParams Sample.std "eastus" "" "3" "many").SKU.Name = "standard" ∧
    (createSearchService.createParams Sample.std "eastus" "" "3" "many").Properties.ReplicaCount
      = 3 ∧
    (createSearchService.createParams Sample.std "eastus" "" "3"
      "many").Properties.PartitionCount = 1 ∧
    (Io.sendRequest "PUT"
        "https://management.azure.com/subscriptions/sub/resourceGroups/rg/providers/Microsoft.Search/searchServices/svc?api-version=2020-08-01"
        (some "document") ∈
      (createSearchService Sample.globals Sample.std (Sample.net 201 "")
        ["svc", "eastus", "", "3", "many"]).1) ∧
    (∃ requestBody, some "document" = some requestBody ∧
      Sample.std.Marshal (createSearchService.createParams Sample.std "eastus" "" "3"
        "many").toJSON = .ok requestBody) :=
  ⟨by decide, by decide, by decide, by decide,
    ((createSearchService_params Sample.std).2 Sample.globals (Sample.net 201 "")
      ["svc", "eastus", "", "3", "many"] "PUT"
      "https://management.azure.com/subscriptions/sub/resourceGroups/rg/providers/Microsoft.Search/searchServices/svc?api-version=2020-08-01"
      (some "document") (by decide)).2⟩

/-- C22, the code at the failing input: for the words `13` and `100` the
parameters that `createSearchService` builds hold the replica count 13 and the
partition count 100, both above the 12 that its prompts name. -/
theorem createSearchService_count_above_range :
    (createSearchService.createParams Sample.std "eastus" "basic" "13"
      "100").Properties.ReplicaCount = 13 ∧
    (createSearchService.createParams Sample.std "eastus" "basic" "13"
      "100").Properties.PartitionCount = 100 ∧
    Io.Print "请输入副本数 (1-12): " ∈
      (createSearchService Sample.globals Sample.std (Sample.net 201 "")
        ["svc", "eastus", "basic", "13", "100"]).1 ∧
    Io.Print "请输入分区数 (1-12): " ∈
      (createSearchService Sample.globals Sample.std (Sample.net 201 "")
        ["svc", "eastus", "basic", "13", "100"]).1 := by
  decide

end SearchDemo

/-! ## Theorems: the menu -/

namespace SearchDemo

end SearchDemo

/-! ## Theorems: the client secret on standard output -/

end AzureDemo
